import Mathlib

/-!
# libdc1394: control-layer lookups, ISO channel negotiation, colour conversions

A shallow embedding of `dc1394_internal.c` (with the error-checking macro of
`dc1394/log.h` and the enumerations of `dc1394_control.h`), of the conversion
functions of `dc1394_conversions.c` and of the buffer status of `dc1394_macosx.h`,
together with the properties established about them.

Conventions of the embedding

* `uint32_t` / `quadlet_t` values are natural numbers; wrap-around is written
  out with `% 2^32` where the C arithmetic can wrap.
* Values of the enumerated types (`dc1394video_mode_t`, `dc1394framerate_t`,
  `dc1394feature_t`) are natural numbers: none of the enumerations has a
  negative enumerator.
* `dc1394error_t` values are integers.
* An output parameter `T *out` becomes an `Option T` component of the result:
  `some v` when the function stored `v`, `none` when it stored nothing.
* Byte buffers are maps from byte index to byte; a loop is a recursion on a
  number of iterations large enough for the loop to leave by its own test.
-/

namespace DC1394

/-! ## Enumerations (`dc1394_control.h`) -/

/-- `FRAMERATE_1_875 = 32`, the first framerate (`FRAMERATE_MIN`). -/
def DC1394_FRAMERATE_MIN : Nat := 32
/-- `FRAMERATE_240 = 39`, the last framerate (`FRAMERATE_MAX`). -/
def DC1394_FRAMERATE_MAX : Nat := 39
/-- `FRAMERATE_NUM = FRAMERATE_MAX - FRAMERATE_MIN + 1`. -/
def DC1394_FRAMERATE_NUM : Nat := DC1394_FRAMERATE_MAX - DC1394_FRAMERATE_MIN + 1

/-- `MODE_FORMAT0_MIN = MODE_160x120_YUV444 = 64`. -/
def DC1394_VIDEO_MODE_FORMAT0_MIN : Nat := 64
/-- `MODE_FORMAT0_MAX = MODE_640x480_MONO16 = 70`. -/
def DC1394_VIDEO_MODE_FORMAT0_MAX : Nat := 70
/-- `MODE_FORMAT1_MIN = MODE_800x600_YUV422 = 96`. -/
def DC1394_VIDEO_MODE_FORMAT1_MIN : Nat := 96
/-- `MODE_FORMAT1_MAX = MODE_1024x768_MONO16 = 103`. -/
def DC1394_VIDEO_MODE_FORMAT1_MAX : Nat := 103
/-- `MODE_FORMAT2_MIN = MODE_1280x960_YUV422 = 128`. -/
def DC1394_VIDEO_MODE_FORMAT2_MIN : Nat := 128
/-- `MODE_FORMAT2_MAX = MODE_1600x1200_MONO16 = 135`. -/
def DC1394_VIDEO_MODE_FORMAT2_MAX : Nat := 135
/-- `MODE_FORMAT6_MIN = MODE_EXIF = 256`. -/
def DC1394_VIDEO_MODE_FORMAT6_MIN : Nat := 256
/-- `MODE_FORMAT6_MAX = MODE_EXIF = 256`. -/
def DC1394_VIDEO_MODE_FORMAT6_MAX : Nat := 256
/-- `MODE_FORMAT7_MIN = MODE_FORMAT7_0 = 288`. -/
def DC1394_VIDEO_MODE_FORMAT7_MIN : Nat := 288
/-- `MODE_FORMAT7_MAX = MODE_FORMAT7_7 = 295`. -/
def DC1394_VIDEO_MODE_FORMAT7_MAX : Nat := 295

/-- `FORMAT0 = 384`. -/
def DC1394_FORMAT0 : Nat := 384
/-- `FORMAT1 = 385`. -/
def DC1394_FORMAT1 : Nat := 385
/-- `FORMAT2 = 386`. -/
def DC1394_FORMAT2 : Nat := 386
/-- `FORMAT6 = 387`. -/
def DC1394_FORMAT6 : Nat := 387
/-- `FORMAT7 = 388`. -/
def DC1394_FORMAT7 : Nat := 388

/-- `FEATURE_MIN = FEATURE_BRIGHTNESS = 416`. -/
def DC1394_FEATURE_MIN : Nat := 416
/-- `FEATURE_FRAME_RATE = 431`, the last feature below the zoom group. -/
def DC1394_FEATURE_FRAME_RATE : Nat := 431
/-- `FEATURE_ZOOM = 432`. -/
def DC1394_FEATURE_ZOOM : Nat := 432
/-- `FEATURE_OPTICAL_FILTER = 435`. -/
def DC1394_FEATURE_OPTICAL_FILTER : Nat := 435
/-- `FEATURE_CAPTURE_SIZE = 436`. -/
def DC1394_FEATURE_CAPTURE_SIZE : Nat := 436
/-- `FEATURE_CAPTURE_QUALITY = 437` (`FEATURE_MAX`). -/
def DC1394_FEATURE_CAPTURE_QUALITY : Nat := 437

/-- `SPEED_MIN = SPEED_100 = 0`. -/
def DC1394_ISO_SPEED_MIN : Nat := 0
/-- `SPEED_400 = 2`. -/
def DC1394_ISO_SPEED_400 : Nat := 2

/-! ## Error codes and `DC1394_ERR_RTN` (`dc1394/log.h`) -/

/-- `DC1394_SUCCESS = 0` ("Success is zero"). -/
def DC1394_SUCCESS : Int := 0

/-- The error enumerators that `dc1394_internal.c` names.  The header that
declares them under these names is not part of the sources (the enumeration in
`dc1394_control.h` spells them differently and `log.h` expects another sign
convention), so their numeric values are parameters of the embedding. -/
structure ErrorCodes where
  DC1394_FAILURE : Int
  DC1394_INVALID_VIDEO_FORMAT : Int
  DC1394_INVALID_VIDEO_MODE : Int
  DC1394_INVALID_ERROR_CODE : Int
  DC1394_ERROR_NUM : Int
deriving DecidableEq, Repr

/-- The codes numbered by their position in `dc1394_error_strings`
(`dc1394_internal.c`), negated as `DC1394_ERR_RTN` of `log.h` expects:
"Generic failure" is entry 1, "Invalid video format" entry 8, "Invalid video
mode" entry 9, "Invalid error code" entry 19, and the table has 34 entries. -/
def log_h_codes : ErrorCodes where
  DC1394_FAILURE := -1
  DC1394_INVALID_VIDEO_FORMAT := -8
  DC1394_INVALID_VIDEO_MODE := -9
  DC1394_INVALID_ERROR_CODE := -19
  DC1394_ERROR_NUM := 34

/-- The codes as `dc1394_control.h` numbers them ("Errors are positive
numbers"): `DC1394_FAILURE = 1`, `DC1394_INVALID_FORMAT = 8`,
`DC1394_INVALID_MODE = 9`, `DC1394_INVALID_ERROR_CODE = 17`,
`NUM_ERRORS = DC1394_INVALID_BAYER_METHOD + 1 = 23`. -/
def control_h_codes : ErrorCodes where
  DC1394_FAILURE := 1
  DC1394_INVALID_VIDEO_FORMAT := 8
  DC1394_INVALID_VIDEO_MODE := 9
  DC1394_INVALID_ERROR_CODE := 17
  DC1394_ERROR_NUM := 23

/-- The macro `DC1394_ERR_RTN(err, message)`:
```
if ((err>0)||(err<=-DC1394_ERROR_NUM)) err=DC1394_INVALID_ERROR_CODE;
if (err!=DC1394_SUCCESS) { ...log...; return err; }
```
The result is the value of `err` after the macro and whether the enclosing
function returns (with that value). -/
def DC1394_ERR_RTN (E : ErrorCodes) (err : Int) : Int × Bool :=
  let err := if err > 0 ∨ err ≤ -E.DC1394_ERROR_NUM then E.DC1394_INVALID_ERROR_CODE else err
  if err ≠ DC1394_SUCCESS then (err, true) else (err, false)

/-! ## Quadlets per packet (`dc1394_internal.c`) -/

def quadlets_per_packet_format_0 : List Int :=
  [ -1,  -1,  15,  30,  60,  120,  240,  480,
    10,  20,  40,  80, 160,  320,  640, 1280,
    30,  60, 120, 240, 480,  960, 1920, 3840,
    40,  80, 160, 320, 640, 1280, 2560, 5120,
    60, 120, 240, 480, 960, 1920, 3840, 7680,
    20,  40,  80, 160, 320,  640, 1280, 2560,
    40,  80, 160, 320, 640, 1280, 2560, 5120 ]

def quadlets_per_packet_format_1 : List Int :=
  [  -1, 125, 250,  500, 1000, 2000, 4000, 8000,
     -1,  -1, 375,  750, 1500, 3000, 6000,   -1,
     -1,  -1, 125,  250,  500, 1000, 2000, 4000,
     96, 192, 384,  768, 1536, 3072, 6144,   -1,
    144, 288, 576, 1152, 2304, 4608,   -1,   -1,
     48,  96, 192,  384,  768, 1536, 3073, 6144,
     -1, 125, 250,  500, 1000, 2000, 4000, 8000,
     96, 192, 384,  768, 1536, 3072, 6144,   -1 ]

def quadlets_per_packet_format_2 : List Int :=
  [ 160, 320,  640, 1280, 2560, 5120,   -1, -1,
    240, 480,  960, 1920, 3840, 7680,   -1, -1,
     80, 160,  320,  640, 1280, 2560, 5120, -1,
    250, 500, 1000, 2000, 4000, 8000,   -1, -1,
    375, 750, 1500, 3000, 6000,   -1,   -1, -1,
    125, 250,  500, 1000, 2000, 4000, 8000, -1,
    160, 320,  640, 1280, 2560, 5120,   -1, -1,
    250, 500, 1000, 2000, 4000, 8000,   -1, -1 ]

/-- Conversion of an `int` to `uint32_t` (reduction modulo `2^32`). -/
def to_uint32 (x : Int) : Nat := (x % 4294967296).toNat

/-- Subtraction in `uint32_t`. -/
def uint32_sub (a b : Nat) : Nat := (a % 4294967296 + 4294967296 - b % 4294967296) % 4294967296

/-- The function `_dc1394_get_format_from_mode(mode, &format)`: result code and
what was stored in `*format`. -/
def _dc1394_get_format_from_mode (E : ErrorCodes) (mode : Nat) : Int × Option Nat :=
  let err := DC1394_SUCCESS
  if DC1394_VIDEO_MODE_FORMAT0_MIN ≤ mode ∧ mode ≤ DC1394_VIDEO_MODE_FORMAT0_MAX then
    (err, some DC1394_FORMAT0)
  else if DC1394_VIDEO_MODE_FORMAT1_MIN ≤ mode ∧ mode ≤ DC1394_VIDEO_MODE_FORMAT1_MAX then
    (err, some DC1394_FORMAT1)
  else if DC1394_VIDEO_MODE_FORMAT2_MIN ≤ mode ∧ mode ≤ DC1394_VIDEO_MODE_FORMAT2_MAX then
    (err, some DC1394_FORMAT2)
  else if DC1394_VIDEO_MODE_FORMAT6_MIN ≤ mode ∧ mode ≤ DC1394_VIDEO_MODE_FORMAT6_MAX then
    (err, some DC1394_FORMAT6)
  else if DC1394_VIDEO_MODE_FORMAT7_MIN ≤ mode ∧ mode ≤ DC1394_VIDEO_MODE_FORMAT7_MAX then
    (err, some DC1394_FORMAT7)
  else
    let err := E.DC1394_INVALID_VIDEO_MODE
    match DC1394_ERR_RTN E err with
    | (err, true) => (err, none)
    | (err, false) => (err, none)

/-- One `case DC1394_FORMATk:` arm of the switch in
`_dc1394_get_quadlets_per_packet`, for the table and mode range of format `k`. -/
def quadlets_per_packet_case (E : ErrorCodes) (table : List Int) (format_min format_max : Nat)
    (mode frame_rate frame_rate_index : Nat) : Int × Option Nat :=
  let mode_index := uint32_sub mode format_min
  if (format_min ≤ mode ∧ mode ≤ format_max) ∧
      (DC1394_FRAMERATE_MIN ≤ frame_rate ∧ frame_rate ≤ DC1394_FRAMERATE_MAX) then
    let qpp := to_uint32 (table.getD ((DC1394_FRAMERATE_NUM * mode_index + frame_rate_index) % 4294967296) 0)
    (DC1394_SUCCESS, some qpp)
  else
    let err := E.DC1394_INVALID_VIDEO_MODE
    match DC1394_ERR_RTN E err with
    | (err, true) => (err, none)
    | (_, false) => (DC1394_SUCCESS, none)

/-- The function `_dc1394_get_quadlets_per_packet(mode, frame_rate, &qpp)`:
result code and what was stored in `*qpp`.  The argument `format` is the
indeterminate initial content of the local variable `format`, which
`_dc1394_get_format_from_mode` overwrites when it stores a format. -/
def _dc1394_get_quadlets_per_packet (E : ErrorCodes) (mode frame_rate : Nat) (format : Nat) :
    Int × Option Nat :=
  let frame_rate_index := uint32_sub frame_rate DC1394_FRAMERATE_MIN
  match _dc1394_get_format_from_mode E mode with
  | (err, stored) =>
    let format := stored.getD format
    match DC1394_ERR_RTN E err with
    | (err, true) => (err, none)
    | (_, false) =>
      if format = DC1394_FORMAT0 then
        quadlets_per_packet_case E quadlets_per_packet_format_0
          DC1394_VIDEO_MODE_FORMAT0_MIN DC1394_VIDEO_MODE_FORMAT0_MAX mode frame_rate frame_rate_index
      else if format = DC1394_FORMAT1 then
        quadlets_per_packet_case E quadlets_per_packet_format_1
          DC1394_VIDEO_MODE_FORMAT1_MIN DC1394_VIDEO_MODE_FORMAT1_MAX mode frame_rate frame_rate_index
      else if format = DC1394_FORMAT2 then
        quadlets_per_packet_case E quadlets_per_packet_format_2
          DC1394_VIDEO_MODE_FORMAT2_MIN DC1394_VIDEO_MODE_FORMAT2_MAX mode frame_rate frame_rate_index
      else if format = DC1394_FORMAT6 ∨ format = DC1394_FORMAT7 then
        let err := E.DC1394_INVALID_VIDEO_FORMAT
        match DC1394_ERR_RTN E err with
        | (err, true) => (err, none)
        | (_, false) => (E.DC1394_FAILURE, none)
      else
        (E.DC1394_FAILURE, none)

/-! ## Frame size in quadlets (`dc1394_internal.c`) -/

/-- A finite non-negative value of the C type `float`, `mant * 2^expo`.  Only
the part of IEEE-754 single precision that `_dc1394_quadlets_from_format` uses
is modelled: rounding to 24 significant bits (to nearest, ties to even),
multiplication, division by four and truncation to `uint32_t`; the exponent
range is not limited. -/
structure CFloat where
  mant : Nat
  expo : Int
deriving DecidableEq, Repr

/-- Rounding of the exact value `m * 2^e` to a `float`: values with at most 24
significant bits are exact, longer ones are rounded to nearest, ties to even. -/
def float_round (m : Nat) (e : Int) : CFloat :=
  if m < 16777216 then ⟨m, e⟩
  else
    let s := Nat.log2 m - 23
    let q := m / 2 ^ s
    let r := m % 2 ^ s
    let half := 2 ^ (s - 1)
    let q := if r > half ∨ (r = half ∧ q % 2 = 1) then q + 1 else q
    ⟨q, e + s⟩

/-- Conversion `uint32_t → float`. -/
def float_of_uint32 (n : Nat) : CFloat := float_round n 0

/-- Product of two `float` values. -/
def float_mul (a b : CFloat) : CFloat := float_round (a.mant * b.mant) (a.expo + b.expo)

/-- Quotient `a / 4` (the `int` 4 is converted to `4.0f`; dividing by a power of
two is exact). -/
def float_div4 (a : CFloat) : CFloat := ⟨a.mant, a.expo - 2⟩

/-- Conversion `(uint32_t) a`: the fractional part is discarded; `none` when
the integral part does not fit in 32 bits (undefined in C). -/
def float_to_uint32 (a : CFloat) : Option Nat :=
  let t := if 0 ≤ a.expo then a.mant * 2 ^ a.expo.toNat else a.mant / 2 ^ (-a.expo).toNat
  if t < 4294967296 then some t else none

/-- The function `_dc1394_quadlets_from_format(camera, video_mode, &quads)`.
Its three helpers are declared outside the sources, so what they deliver for
the given camera and mode is passed in: `image_size` is the result code, `w`
and `h` of `dc1394_get_image_size_from_video_mode`, `color_coding` the result
code and coding of `dc1394_get_color_coding_from_video_mode`, and
`bytes_per_pixel` is `dc1394_get_bytes_per_pixel` as a function of the coding.
The outer `none` is undefined behaviour in the final conversion. -/
def _dc1394_quadlets_from_format (E : ErrorCodes) (image_size : Int × Nat × Nat)
    (color_coding : Int × Nat) (bytes_per_pixel : Nat → Int × CFloat) :
    Option (Int × Option Nat) :=
  match image_size with
  | (err, w, h) =>
    match DC1394_ERR_RTN E err with
    | (err, true) => some (err, none)
    | (_, false) =>
      match color_coding with
      | (err, color_coding) =>
        match DC1394_ERR_RTN E err with
        | (err, true) => some (err, none)
        | (_, false) =>
          match bytes_per_pixel color_coding with
          | (err, bpp) =>
            match DC1394_ERR_RTN E err with
            | (err, true) => some (err, none)
            | (err, false) =>
              match float_to_uint32
                  (float_div4 (float_mul (float_of_uint32 ((w * h) % 4294967296)) bpp)) with
              | some quads => some (err, some quads)
              | none => none

/-! ## Feature bits (`dc1394_internal.c`) -/

/-- The function `IsFeatureBitSet(value, feature)`.  The shift count is below 32
for every feature of the enumeration; C leaves the shift undefined once the
count reaches the width of `unsigned long`, where the model yields a zero mask. -/
def IsFeatureBitSet (value : Nat) (feature : Nat) : Bool :=
  let feature :=
    if feature ≥ DC1394_FEATURE_ZOOM then
      let feature :=
        if feature ≥ DC1394_FEATURE_CAPTURE_SIZE then (feature + 12) % 4294967296 else feature
      uint32_sub feature DC1394_FEATURE_ZOOM
    else
      uint32_sub feature DC1394_FEATURE_MIN
  let value := value &&& (0x80000000 >>> feature)
  if value > 0 then true else false

/-! ## ISO channel (`dc1394_internal.c`) -/

/-- The two control registers `dc1394_video_set_iso_channel` touches. -/
inductive Register where
  | REG_CAMERA_BASIC_FUNC_INQ
  | REG_CAMERA_ISO_DATA
deriving DecidableEq, Repr

/-- Modelled from the spec: the register access layer
(`GetCameraControlRegister`, `SetCameraControlRegister`; `dc1394_register.h`
is not among the sources).  "read_register(camera, csr_offset) -> 32-bit value
| TransactionFailure; write_register(camera, csr_offset, value) -> Success |
TransactionFailure."  A read delivers its result code, the content of the
output quadlet after the call and the camera afterwards; a write delivers its
result code and the camera afterwards. -/
structure RegisterAccess (σ : Type) where
  GetCameraControlRegister : σ → Register → Int × Nat × σ
  SetCameraControlRegister : σ → Register → Nat → Int × σ

/-- The function `dc1394_video_set_iso_channel(camera, channel)` over a register
access layer: result code and the camera afterwards. -/
def dc1394_video_set_iso_channel {σ : Type} (E : ErrorCodes) (R : RegisterAccess σ)
    (camera : σ) (channel : Nat) : Int × σ :=
  match R.GetCameraControlRegister camera Register.REG_CAMERA_BASIC_FUNC_INQ with
  | (err, value_inq, camera) =>
  match DC1394_ERR_RTN E err with
  | (err, true) => (err, camera)
  | (_, false) =>
  match R.GetCameraControlRegister camera Register.REG_CAMERA_ISO_DATA with
  | (err, value, camera) =>
  match DC1394_ERR_RTN E err with
  | (err, true) => (err, camera)
  | (_, false) =>
  if value_inq &&& 0x00800000 ≠ 0 ∧ value &&& 0x00008000 ≠ 0 then
    match R.GetCameraControlRegister camera Register.REG_CAMERA_ISO_DATA with
    | (err, value, camera) =>
    match DC1394_ERR_RTN E err with
    | (err, true) => (err, camera)
    | (_, false) =>
    let speed := value &&& 0x7
    match R.SetCameraControlRegister camera Register.REG_CAMERA_ISO_DATA
        ((((channel &&& 0x3F) <<< 8) ||| (speed &&& 0x7) ||| (0x1 <<< 15)) % 4294967296) with
    | (err, camera) =>
    match DC1394_ERR_RTN E err with
    | (err, true) => (err, camera)
    | (err, false) => (err, camera)
  else
    match R.GetCameraControlRegister camera Register.REG_CAMERA_ISO_DATA with
    | (err, value, camera) =>
    match DC1394_ERR_RTN E err with
    | (err, true) => (err, camera)
    | (_, false) =>
    let speed := (value >>> 24) &&& 0x3
    if speed > DC1394_ISO_SPEED_400 - DC1394_ISO_SPEED_MIN then
      (E.DC1394_FAILURE, camera)
    else
      match R.SetCameraControlRegister camera Register.REG_CAMERA_ISO_DATA
          ((((channel &&& 0xF) <<< 28) ||| ((speed &&& 0x3) <<< 24)) % 4294967296) with
      | (err, camera) =>
      match DC1394_ERR_RTN E err with
      | (err, true) => (err, camera)
      | (err, false) => (err, camera)

/-- A register transaction as seen on the bus. -/
inductive Transaction where
  | read (register : Register)
  | write (register : Register) (value : Nat)
deriving DecidableEq, Repr

/-- Modelled from the spec: a simulated camera behind the register access
layer (the bus transport is not among the sources).  It holds the two
registers, the result codes of the coming transactions (`outcomes`, one per
transaction, success once the list is used up) and the transactions issued so
far, oldest first. -/
structure SimCamera where
  basic_func_inq : Nat
  iso_data : Nat
  outcomes : List Int
  trace : List Transaction
deriving DecidableEq, Repr

/-- Modelled from the spec: a register read on the simulated camera.  A
successful read delivers the register content; a failed one delivers no data
(the output quadlet is shown as 0). -/
def SimCamera.GetCameraControlRegister (c : SimCamera) (r : Register) : Int × Nat × SimCamera :=
  let err := c.outcomes.headD DC1394_SUCCESS
  let c1 := { c with outcomes := c.outcomes.tail, trace := c.trace ++ [Transaction.read r] }
  if err = DC1394_SUCCESS then
    match r with
    | Register.REG_CAMERA_BASIC_FUNC_INQ => (err, c.basic_func_inq, c1)
    | Register.REG_CAMERA_ISO_DATA => (err, c.iso_data, c1)
  else (err, 0, c1)

/-- Modelled from the spec: a register write on the simulated camera.  A
successful write to the ISO-data register stores the value; the
basic-function-inquiry register is read-only; a failed write stores nothing. -/
def SimCamera.SetCameraControlRegister (c : SimCamera) (r : Register) (value : Nat) :
    Int × SimCamera :=
  let err := c.outcomes.headD DC1394_SUCCESS
  let c1 := { c with outcomes := c.outcomes.tail, trace := c.trace ++ [Transaction.write r value] }
  if err = DC1394_SUCCESS then
    match r with
    | Register.REG_CAMERA_BASIC_FUNC_INQ => (err, c1)
    | Register.REG_CAMERA_ISO_DATA => (err, { c1 with iso_data := value })
  else (err, c1)

/-- Modelled from the spec: the register access layer of the simulated camera. -/
def sim_registers : RegisterAccess SimCamera where
  GetCameraControlRegister := SimCamera.GetCameraControlRegister
  SetCameraControlRegister := SimCamera.SetCameraControlRegister

/-! ## `DC1394_ERR_CHK` (`dc1394_control.h`) -/

/-- `DC1394_NO_FRAME = -2` ("Warnings or info are negative numbers"). -/
def DC1394_NO_FRAME : Int := -2

/-- `NUM_ERRORS = DC1394_INVALID_BAYER_METHOD + 1`, with
`DC1394_INVALID_BAYER_METHOD = 22`. -/
def NUM_ERRORS : Int := 22 + 1

/-- The macro `DC1394_ERR_CHK(err, err_string...)` of `dc1394_control.h`, with the
enumerators of that header (`DC1394_INVALID_ERROR_CODE = 17`):
```
if ((err<0)||(err>NUM_ERRORS)) err=DC1394_INVALID_ERROR_CODE;
if (err>DC1394_SUCCESS) { ...print...; return err; }
```
The result is the value of `err` after the macro and whether the enclosing
function returns (with that value). -/
def DC1394_ERR_CHK (err : Int) : Int × Bool :=
  let err := if err < 0 ∨ err > NUM_ERRORS then control_h_codes.DC1394_INVALID_ERROR_CODE else err
  if err > DC1394_SUCCESS then (err, true) else (err, false)

/-! ## Stereo deinterlacing (`dc1394_conversions.c`) -/

/-- Conversion of an unsigned value to `int` (32 bits, two's complement
wrap-around, as the usual compilers define it). -/
def to_int (x : Nat) : Int :=
  if x % 4294967296 < 2147483648 then (x % 4294967296 : Nat) else ((x % 4294967296 : Nat) : Int) - 4294967296

/-- Subtraction in `uint64_t`. -/
def uint64_sub (a b : Nat) : Nat :=
  (a % 18446744073709551616 + 18446744073709551616 - b % 18446744073709551616)
    % 18446744073709551616

/-- The loop of `dc1394_deinterlace_stereo`,
```
while (i >= 0) { dest[k--] = src[i--]; dest[j--] = src[i--]; }
```
run for at most `fuel` iterations.  Buffers are maps from byte index to byte;
`src` and `dest` do not overlap. -/
def deinterlace_stereo_loop (src : Int → Nat) :
    Nat → Int → Int → Int → (Int → Nat) → (Int → Nat)
  | 0, _, _, _, dest => dest
  | fuel + 1, i, j, k, dest =>
    if i ≥ 0 then
      let dest := Function.update dest k (src i)
      let k := k - 1
      let i := i - 1
      let dest := Function.update dest j (src i)
      let j := j - 1
      let i := i - 1
      deinterlace_stereo_loop src fuel i j k dest
    else dest

/-- The function `dc1394_deinterlace_stereo(src, dest, NumPixels)`: the content of
`dest` afterwards.  Every iteration lowers `i` by two, so `i + 1` iterations
always reach the exit test. -/
def dc1394_deinterlace_stereo (src : Int → Nat) (dest : Int → Nat) (NumPixels : Nat) :
    Int → Nat :=
  let i := to_int (uint64_sub NumPixels 1)
  let j := to_int (uint64_sub (NumPixels >>> 1) 1)
  let k := to_int (uint64_sub NumPixels 1)
  deinterlace_stereo_loop src (i + 1).toNat i j k dest

/-! ## Capture ring (declared in `dc1394_control.h`, described by the specification) -/

/-- Modelled from the spec: the state tag of a ring slot, "State machine per slot:
EMPTY → FILLING → FILLED → (returned) → EMPTY" (the capture engine behind
`dc1394_dma_capture` is not among the sources). -/
inductive SlotState where
  | EMPTY
  | FILLING
  | FILLED
deriving DecidableEq, Repr

/-- Modelled from the spec: one buffer slot of the capture ring (the capture engine
is not among the sources): its state tag, whether the application holds it
("marks it as checked-out"), the frame it holds and the fill time of that frame. -/
structure Slot where
  state : SlotState
  checked_out : Bool
  frame : Nat
  filltime : Nat
deriving DecidableEq, Repr

/-- Modelled from the spec: the capture ring (the capture engine is not among the
sources; `dc1394capture_t` declares `num_dma_buffers`, `drop_frames`, `filltime`):
"an ordered fixed-size sequence of buffer slots", the drop-frame flag, a clock
that stamps completed frames and the "per-session overrun counter". -/
structure CaptureRing where
  slots : List Slot
  drop_frames : Bool
  clock : Nat
  overruns : Nat
deriving DecidableEq, Repr

/-- The policy type `dc1394videopolicy_t` of `dc1394_control.h`. -/
inductive dc1394videopolicy_t where
  | VIDEO1394_WAIT
  | VIDEO1394_POLL
deriving DecidableEq, Repr

/-- Modelled from the spec: what a capture call does for its caller (the capture
engine is not among the sources): it returns a result code, with the slot handed
out on success, or it leaves the caller suspended ("suspends the calling thread
until the next slot transitions to FILLED"). -/
inductive CaptureOutcome where
  | returned (code : Int) (slot : Option Nat)
  | blocked
deriving DecidableEq, Repr

/-- Modelled from the spec: ring setup, "allocates the ring (N buffer slots sized
to one frame each)" (the capture engine is not among the sources); every slot
starts EMPTY. -/
def setup_capture (num_dma_buffers : Nat) (drop_frames : Bool) : CaptureRing where
  slots := List.replicate num_dma_buffers ⟨SlotState.EMPTY, false, 0, 0⟩
  drop_frames := drop_frames
  clock := 0
  overruns := 0

/-- Modelled from the spec: the first slot the transport may fill, one that is
EMPTY and not held by the application (the capture engine is not among the
sources). -/
def first_empty : List Slot → Option Nat
  | [] => none
  | s :: rest =>
    if s.state = SlotState.EMPTY ∧ s.checked_out = false then some 0
    else (first_empty rest).map (fun i => i + 1)

/-- Modelled from the spec: "the oldest FILLED-and-not-checked-out slot", as its
index and fill time (the capture engine is not among the sources). -/
def oldest_filled : List Slot → Option (Nat × Nat)
  | [] => none
  | s :: rest =>
    match oldest_filled rest with
    | none =>
      if s.state = SlotState.FILLED ∧ s.checked_out = false then some (0, s.filltime) else none
    | some (i, t) =>
      if s.state = SlotState.FILLED ∧ s.checked_out = false ∧ s.filltime ≤ t then
        some (0, s.filltime)
      else some (i + 1, t)

/-- Modelled from the spec: the transport starts to fill a slot, EMPTY (or a
recycled FILLED slot) → FILLING (the capture engine is not among the sources). -/
def begin_fill (s : Slot) : Slot := { s with state := SlotState.FILLING }

/-- Modelled from the spec: the last packet of a frame arrives, FILLING → FILLED
(the capture engine is not among the sources). -/
def complete_fill (s : Slot) (frame : Nat) (now : Nat) : Slot :=
  { s with state := SlotState.FILLED, frame := frame, filltime := now }

/-- Modelled from the spec: the slot is handed to the application, "marks it as
checked-out (ownership transfers to caller)" (the capture engine is not among the
sources). -/
def check_out (s : Slot) : Slot := { s with checked_out := true }

/-- Modelled from the spec: the application returns the slot, FILLED → (returned)
→ EMPTY (the capture engine is not among the sources). -/
def release_slot (s : Slot) : Slot :=
  { s with state := SlotState.EMPTY, checked_out := false }

/-- Modelled from the spec: a frame completes (the capture engine is not among the
sources).  With a free slot the frame goes there.  "If incoming packets complete a
frame while all ring slots are checked-out or already FILLED (ring saturated), and
drop-frame is enabled, the oldest FILLED-and-not-checked-out slot is silently
recycled to receive the new frame; if disabled, the new frame is discarded and a
per-session overrun counter increments." -/
def frame_completed (r : CaptureRing) (frame : Nat) : CaptureRing :=
  match first_empty r.slots with
  | some i =>
    { r with
      slots := r.slots.modify (fun s => complete_fill (begin_fill s) frame r.clock) i,
      clock := r.clock + 1 }
  | none =>
    if r.drop_frames then
      match oldest_filled r.slots with
      | some (i, _) =>
        { r with
          slots := r.slots.modify (fun s => complete_fill (begin_fill s) frame r.clock) i,
          clock := r.clock + 1 }
      | none => { r with clock := r.clock + 1 }
    else { r with clock := r.clock + 1, overruns := r.overruns + 1 }

/-- Modelled from the spec: `capture(ring, policy)` (`dc1394_dma_capture` is only
declared in the sources).  "Under POLL policy, returns immediately with NoFrame if
no slot is FILLED.  On success, returns a handle to the oldest FILLED slot and marks
it as checked-out"; under WAIT with nothing to hand out the caller stays
suspended. -/
def dc1394_dma_capture (r : CaptureRing) (policy : dc1394videopolicy_t) :
    CaptureOutcome × CaptureRing :=
  match oldest_filled r.slots with
  | some (i, _) =>
    (CaptureOutcome.returned DC1394_SUCCESS (some i),
      { r with slots := r.slots.modify check_out i })
  | none =>
    match policy with
    | dc1394videopolicy_t.VIDEO1394_POLL => (CaptureOutcome.returned DC1394_NO_FRAME none, r)
    | dc1394videopolicy_t.VIDEO1394_WAIT => (CaptureOutcome.blocked, r)

/-- Modelled from the spec: `done_with_buffer` (`dc1394_dma_done_with_buffer` is
only declared in the sources): a slot held by the application goes back to EMPTY;
for any other slot nothing changes. -/
def dc1394_dma_done_with_buffer (r : CaptureRing) (slot : Nat) : CaptureRing :=
  match r.slots[slot]? with
  | some s =>
    if s.checked_out = true then
      { r with slots := r.slots.modify release_slot slot }
    else r
  | none => r

/-- Modelled from the spec: what can happen to a ring (the capture engine is not
among the sources): a frame completion on the transport side, a capture call or a
`done_with_buffer` call on the application side. -/
inductive RingEvent where
  | frame_completed (frame : Nat)
  | capture (policy : dc1394videopolicy_t)
  | done_with_buffer (slot : Nat)
deriving DecidableEq, Repr

/-- Modelled from the spec: the ring after one event (the capture engine is not
among the sources). -/
def ring_step (r : CaptureRing) : RingEvent → CaptureRing
  | RingEvent.frame_completed frame => frame_completed r frame
  | RingEvent.capture policy => (dc1394_dma_capture r policy).2
  | RingEvent.done_with_buffer slot => dc1394_dma_done_with_buffer r slot

/-- Modelled from the spec: the ring after a sequence of events (the capture
engine is not among the sources). -/
def ring_run (r : CaptureRing) (events : List RingEvent) : CaptureRing :=
  events.foldl ring_step r

/-- The number of slots held by the application. -/
def checked_out_count (r : CaptureRing) : Nat :=
  r.slots.countP (fun s => s.checked_out)

/-- The number of FILLED slots, held by the application or not. -/
def filled_count (r : CaptureRing) : Nat :=
  r.slots.countP (fun s => decide (s.state = SlotState.FILLED))

/-- The number of FILLED slots not yet handed out. -/
def available_count (r : CaptureRing) : Nat :=
  r.slots.countP (fun s => decide (s.state = SlotState.FILLED) && !s.checked_out)

/-! ## Feature values (declared in `dc1394_control.h`, described by the specification) -/

/-- The byte-order enumerators that `dc1394_conversions.c` switches on.  The
header that declares them is not part of the sources, so their values are
parameters of the embedding; as `case` labels of one `switch` they are distinct. -/
structure ByteOrders where
  DC1394_BYTE_ORDER_YUYV : Nat
  DC1394_BYTE_ORDER_UYVY : Nat
deriving DecidableEq, Repr

/-- One admissible numbering of the byte orders. -/
def byte_orders : ByteOrders where
  DC1394_BYTE_ORDER_YUYV := 801
  DC1394_BYTE_ORDER_UYVY := 800

/-- Conversion of an unsigned value to a signed 64-bit integer (`ssize_t`). -/
def to_int64 (x : Nat) : Int :=
  if x % 18446744073709551616 < 9223372036854775808 then (x % 18446744073709551616 : Nat)
  else ((x % 18446744073709551616 : Nat) : Int) - 18446744073709551616

/-- The C library function `swab(from, to, n)`: it copies `n` bytes, exchanging
adjacent even and odd bytes, and does nothing for a negative `n`; for an odd `n`
the last byte is left out (its disposition is unspecified). -/
def swab (src : Int → Nat) (dest : Int → Nat) (n : Int) : Int → Nat :=
  fun x =>
    if 0 ≤ x ∧ x < n - n % 2 then
      (if x % 2 = 0 then src (x + 1) else src (x - 1))
    else dest x

/-- The C library function `memcpy(dest, src, n)`: it copies `n` bytes. -/
def memcpy (dest : Int → Nat) (src : Int → Nat) (n : Nat) : Int → Nat :=
  fun x => if 0 ≤ x ∧ x < (n : Int) then src x else dest x

/-- The function `dc1394_YUV422_to_YUV422(src, dest, NumPixels, byte_order)`: the
content of `dest` afterwards. -/
def dc1394_YUV422_to_YUV422 (B : ByteOrders) (src dest : Int → Nat)
    (NumPixels byte_order : Nat) : Int → Nat :=
  if byte_order = B.DC1394_BYTE_ORDER_YUYV then
    swab src dest (to_int64 ((NumPixels <<< 1) % 18446744073709551616))
  else if byte_order = B.DC1394_BYTE_ORDER_UYVY then
    memcpy dest src ((NumPixels <<< 1) % 18446744073709551616)
  else dest

/-- The two "quick way" loops of `dc1394_MONO8_to_YUV422`,
```
while (i >= 0) { y1 = src[i--]; y0 = src[i--];
                 dest[j--] = 128; dest[j--] = y1; dest[j--] = 128; dest[j--] = y0; }
```
for YUYV (`luma_first`), and with each luminance byte stored before its 128 for
UYVY; run for at most `fuel` iterations. -/
def mono8_quick_loop (src : Int → Nat) (luma_first : Bool) :
    Nat → Int → Int → (Int → Nat) → (Int → Nat)
  | 0, _, _, dest => dest
  | fuel + 1, i, j, dest =>
    if i ≥ 0 then
      let y1 := src i
      let i := i - 1
      let y0 := src i
      let i := i - 1
      let dest := Function.update dest j (if luma_first then 128 else y1)
      let j := j - 1
      let dest := Function.update dest j (if luma_first then y1 else 128)
      let j := j - 1
      let dest := Function.update dest j (if luma_first then 128 else y0)
      let j := j - 1
      let dest := Function.update dest j (if luma_first then y0 else 128)
      let j := j - 1
      mono8_quick_loop src luma_first fuel i j dest
    else dest

/-- The inner loops of the padded path of `dc1394_MONO8_to_YUV422`,
```
while (x--) { *dest++ = *src++; *dest++ = 128; }
```
for YUYV (`luma_first`), with the two stores exchanged for UYVY; `x` counts the
pixels left, `s` and `d` are the positions of the `src` and `dest` pointers. -/
def mono8_pad_pixels (src : Int → Nat) (luma_first : Bool) :
    Nat → Int → Int → (Int → Nat) → Int × Int × (Int → Nat)
  | 0, s, d, dest => (s, d, dest)
  | x + 1, s, d, dest =>
    let dest := Function.update dest d (if luma_first then src s else 128)
    let dest := Function.update dest (d + 1) (if luma_first then 128 else src s)
    mono8_pad_pixels src luma_first x (s + 1) (d + 2) dest

/-- The outer loops of the padded path of `dc1394_MONO8_to_YUV422`,
```
while (y--) { x=src_width; while (x--) {...}
              *dest++ = *(src-1); *dest++ = 128; }
```
(the padding pixel duplicates the last column); `y` counts the rows left. -/
def mono8_pad_rows (src : Int → Nat) (luma_first : Bool) (src_width : Nat) :
    Nat → Int → Int → (Int → Nat) → (Int → Nat)
  | 0, _, _, dest => dest
  | y + 1, s, d, dest =>
    match mono8_pad_pixels src luma_first src_width s d dest with
    | (s, d, dest) =>
      let dest := Function.update dest d (if luma_first then src (s - 1) else 128)
      let dest := Function.update dest (d + 1) (if luma_first then 128 else src (s - 1))
      mono8_pad_rows src luma_first src_width y s (d + 2) dest

/-- The function `dc1394_MONO8_to_YUV422(src, dest, src_width, src_height,
dest_pitch, byte_order)`: the content of `dest` afterwards.  The arguments are
`uint_t` values (below `2^32`).  `none` is undefined behaviour: in the padded path
`x` and `y` are `int` counters run down by `while (x--)`, which overflows when
the width or the height does not fit an `int`. -/
def dc1394_MONO8_to_YUV422 (B : ByteOrders) (src dest : Int → Nat)
    (src_width src_height dest_pitch byte_order : Nat) : Option (Int → Nat) :=
  if (src_width * 2) % 4294967296 = dest_pitch then
    let i := to_int (uint32_sub ((src_width * src_height) % 4294967296) 1)
    let j := to_int (uint32_sub ((((src_width * src_height) % 4294967296) <<< 1) % 4294967296) 1)
    if byte_order = B.DC1394_BYTE_ORDER_YUYV then
      some (mono8_quick_loop src true (i + 1).toNat i j dest)
    else if byte_order = B.DC1394_BYTE_ORDER_UYVY then
      some (mono8_quick_loop src false (i + 1).toNat i j dest)
    else some dest
  else
    if byte_order = B.DC1394_BYTE_ORDER_YUYV then
      if to_int src_height < 0 ∨ (src_height ≠ 0 ∧ to_int src_width < 0) then none
      else some (mono8_pad_rows src true src_width src_height 0 0 dest)
    else if byte_order = B.DC1394_BYTE_ORDER_UYVY then
      if to_int src_height < 0 ∨ (src_height ≠ 0 ∧ to_int src_width < 0) then none
      else some (mono8_pad_rows src false src_width src_height 0 0 dest)
    else some dest

/-- The loop of `dc1394_RGB16_to_RGB8`,
```
while (i >= 0) { i--; dest[j--]=src[i--]; i--; dest[j--]=src[i--]; i--; dest[j--]=src[i--]; }
```
run for at most `fuel` iterations. -/
def rgb16_to_rgb8_loop (src : Int → Nat) : Nat → Int → Int → (Int → Nat) → (Int → Nat)
  | 0, _, _, dest => dest
  | fuel + 1, i, j, dest =>
    if i ≥ 0 then
      let i := i - 1
      let dest := Function.update dest j (src i)
      let j := j - 1
      let i := i - 1
      let i := i - 1
      let dest := Function.update dest j (src i)
      let j := j - 1
      let i := i - 1
      let i := i - 1
      let dest := Function.update dest j (src i)
      let j := j - 1
      let i := i - 1
      rgb16_to_rgb8_loop src fuel i j dest
    else dest

/-- The function `dc1394_RGB16_to_RGB8(src, dest, NumPixels)`: the content of `dest`
afterwards.  Every iteration lowers `i` by six, so `i + 1` iterations always reach
the exit test. -/
def dc1394_RGB16_to_RGB8 (src dest : Int → Nat) (NumPixels : Nat) : Int → Nat :=
  let i := to_int (uint64_sub
    ((((NumPixels + (NumPixels <<< 1) % 18446744073709551616) % 18446744073709551616) <<< 1)
      % 18446744073709551616) 1)
  let j := to_int (uint64_sub
    ((NumPixels + (NumPixels <<< 1) % 18446744073709551616) % 18446744073709551616) 1)
  rgb16_to_rgb8_loop src (i + 1).toNat i j dest

/-- The loop of `dc1394_MONO8_to_RGB8`,
```
while (i >= 0) { y = (uchar_t) src[i--]; dest[j--] = y; dest[j--] = y; dest[j--] = y; }
```
run for at most `fuel` iterations. -/
def mono8_to_rgb8_loop (src : Int → Nat) : Nat → Int → Int → (Int → Nat) → (Int → Nat)
  | 0, _, _, dest => dest
  | fuel + 1, i, j, dest =>
    if i ≥ 0 then
      let y := src i
      let i := i - 1
      let dest := Function.update dest j y
      let j := j - 1
      let dest := Function.update dest j y
      let j := j - 1
      let dest := Function.update dest j y
      let j := j - 1
      mono8_to_rgb8_loop src fuel i j dest
    else dest

/-- The function `dc1394_MONO8_to_RGB8(src, dest, NumPixels)`: the content of `dest`
afterwards.  Every iteration lowers `i` by one, so `i + 1` iterations always reach
the exit test. -/
def dc1394_MONO8_to_RGB8 (src dest : Int → Nat) (NumPixels : Nat) : Int → Nat :=
  let i := to_int (uint64_sub NumPixels 1)
  let j := to_int (uint64_sub
    ((NumPixels + (NumPixels <<< 1) % 18446744073709551616) % 18446744073709551616) 1)
  mono8_to_rgb8_loop src (i + 1).toNat i j dest

/-! ## Buffer status (`dc1394_macosx.h`) -/

/-- The enumeration `buffer_status` of `dc1394_macosx.h`, the state tag of a slot
(`buffer_info.status`): `BUFFER_EMPTY = 0`, `BUFFER_FILLED = 1`. -/
inductive buffer_status where
  | BUFFER_EMPTY
  | BUFFER_FILLED
deriving DecidableEq, Repr

/-- The numeric value of a `buffer_status` enumerator. -/
def buffer_status.value : buffer_status → Nat
  | buffer_status.BUFFER_EMPTY => 0
  | buffer_status.BUFFER_FILLED => 1

end DC1394

/-! # Properties -/

namespace DC1394

/-! ## `DC1394_ERR_RTN` -/

theorem DC1394_ERR_RTN_success (E : ErrorCodes) (hN : 0 < E.DC1394_ERROR_NUM) :
    DC1394_ERR_RTN E DC1394_SUCCESS = (DC1394_SUCCESS, false) := by
  have h : ¬ (DC1394_SUCCESS > 0 ∨ DC1394_SUCCESS ≤ -E.DC1394_ERROR_NUM) := by
    unfold DC1394_SUCCESS; omega
  simp only [DC1394_ERR_RTN, if_neg h]
  simp

theorem DC1394_ERR_RTN_keeps (E : ErrorCodes) (c : Int)
    (hlo : -E.DC1394_ERROR_NUM < c) (hhi : c < 0) :
    DC1394_ERR_RTN E c = (c, true) := by
  have h : ¬ (c > 0 ∨ c ≤ -E.DC1394_ERROR_NUM) := by omega
  have h0 : c ≠ DC1394_SUCCESS := by unfold DC1394_SUCCESS; omega
  simp only [DC1394_ERR_RTN, if_neg h]
  simp [h0]

theorem DC1394_ERR_RTN_nonzero (E : ErrorCodes) (c : Int)
    (hI : E.DC1394_INVALID_ERROR_CODE ≠ DC1394_SUCCESS) (hc : c ≠ DC1394_SUCCESS) :
    ∃ e, e ≠ DC1394_SUCCESS ∧ DC1394_ERR_RTN E c = (e, true) := by
  unfold DC1394_ERR_RTN
  by_cases h : c > 0 ∨ c ≤ -E.DC1394_ERROR_NUM
  · exact ⟨E.DC1394_INVALID_ERROR_CODE, hI, by simp only [if_pos h]; simp [hI]⟩
  · exact ⟨c, hc, by simp only [if_neg h]; simp [hc]⟩

/-! ## `_dc1394_get_format_from_mode` -/

theorem get_format_0 (E : ErrorCodes) (mode : Nat)
    (h : DC1394_VIDEO_MODE_FORMAT0_MIN ≤ mode ∧ mode ≤ DC1394_VIDEO_MODE_FORMAT0_MAX) :
    _dc1394_get_format_from_mode E mode = (DC1394_SUCCESS, some DC1394_FORMAT0) := by
  simp only [_dc1394_get_format_from_mode, if_pos h]

theorem get_format_1 (E : ErrorCodes) (mode : Nat)
    (h : DC1394_VIDEO_MODE_FORMAT1_MIN ≤ mode ∧ mode ≤ DC1394_VIDEO_MODE_FORMAT1_MAX) :
    _dc1394_get_format_from_mode E mode = (DC1394_SUCCESS, some DC1394_FORMAT1) := by
  have h0 : ¬ (DC1394_VIDEO_MODE_FORMAT0_MIN ≤ mode ∧ mode ≤ DC1394_VIDEO_MODE_FORMAT0_MAX) := by
    simp only [DC1394_VIDEO_MODE_FORMAT0_MIN, DC1394_VIDEO_MODE_FORMAT0_MAX,
      DC1394_VIDEO_MODE_FORMAT1_MIN, DC1394_VIDEO_MODE_FORMAT1_MAX] at *
    omega
  simp only [_dc1394_get_format_from_mode, if_neg h0, if_pos h]

theorem get_format_2 (E : ErrorCodes) (mode : Nat)
    (h : DC1394_VIDEO_MODE_FORMAT2_MIN ≤ mode ∧ mode ≤ DC1394_VIDEO_MODE_FORMAT2_MAX) :
    _dc1394_get_format_from_mode E mode = (DC1394_SUCCESS, some DC1394_FORMAT2) := by
  have h0 : ¬ (DC1394_VIDEO_MODE_FORMAT0_MIN ≤ mode ∧ mode ≤ DC1394_VIDEO_MODE_FORMAT0_MAX) := by
    simp only [DC1394_VIDEO_MODE_FORMAT0_MIN, DC1394_VIDEO_MODE_FORMAT0_MAX,
      DC1394_VIDEO_MODE_FORMAT2_MIN, DC1394_VIDEO_MODE_FORMAT2_MAX] at *
    omega
  have h1 : ¬ (DC1394_VIDEO_MODE_FORMAT1_MIN ≤ mode ∧ mode ≤ DC1394_VIDEO_MODE_FORMAT1_MAX) := by
    simp only [DC1394_VIDEO_MODE_FORMAT1_MIN, DC1394_VIDEO_MODE_FORMAT1_MAX,
      DC1394_VIDEO_MODE_FORMAT2_MIN, DC1394_VIDEO_MODE_FORMAT2_MAX] at *
    omega
  simp only [_dc1394_get_format_from_mode, if_neg h0, if_neg h1, if_pos h]

theorem get_format_6 (E : ErrorCodes) (mode : Nat)
    (h : DC1394_VIDEO_MODE_FORMAT6_MIN ≤ mode ∧ mode ≤ DC1394_VIDEO_MODE_FORMAT6_MAX) :
    _dc1394_get_format_from_mode E mode = (DC1394_SUCCESS, some DC1394_FORMAT6) := by
  have h0 : ¬ (DC1394_VIDEO_MODE_FORMAT0_MIN ≤ mode ∧ mode ≤ DC1394_VIDEO_MODE_FORMAT0_MAX) := by
    simp only [DC1394_VIDEO_MODE_FORMAT0_MIN, DC1394_VIDEO_MODE_FORMAT0_MAX,
      DC1394_VIDEO_MODE_FORMAT6_MIN, DC1394_VIDEO_MODE_FORMAT6_MAX] at *
    omega
  have h1 : ¬ (DC1394_VIDEO_MODE_FORMAT1_MIN ≤ mode ∧ mode ≤ DC1394_VIDEO_MODE_FORMAT1_MAX) := by
    simp only [DC1394_VIDEO_MODE_FORMAT1_MIN, DC1394_VIDEO_MODE_FORMAT1_MAX,
      DC1394_VIDEO_MODE_FORMAT6_MIN, DC1394_VIDEO_MODE_FORMAT6_MAX] at *
    omega
  have h2 : ¬ (DC1394_VIDEO_MODE_FORMAT2_MIN ≤ mode ∧ mode ≤ DC1394_VIDEO_MODE_FORMAT2_MAX) := by
    simp only [DC1394_VIDEO_MODE_FORMAT2_MIN, DC1394_VIDEO_MODE_FORMAT2_MAX,
      DC1394_VIDEO_MODE_FORMAT6_MIN, DC1394_VIDEO_MODE_FORMAT6_MAX] at *
    omega
  simp only [_dc1394_get_format_from_mode, if_neg h0, if_neg h1, if_neg h2, if_pos h]

theorem get_format_7 (E : ErrorCodes) (mode : Nat)
    (h : DC1394_VIDEO_MODE_FORMAT7_MIN ≤ mode ∧ mode ≤ DC1394_VIDEO_MODE_FORMAT7_MAX) :
    _dc1394_get_format_from_mode E mode = (DC1394_SUCCESS, some DC1394_FORMAT7) := by
  have h0 : ¬ (DC1394_VIDEO_MODE_FORMAT0_MIN ≤ mode ∧ mode ≤ DC1394_VIDEO_MODE_FORMAT0_MAX) := by
    simp only [DC1394_VIDEO_MODE_FORMAT0_MIN, DC1394_VIDEO_MODE_FORMAT0_MAX,
      DC1394_VIDEO_MODE_FORMAT7_MIN, DC1394_VIDEO_MODE_FORMAT7_MAX] at *
    omega
  have h1 : ¬ (DC1394_VIDEO_MODE_FORMAT1_MIN ≤ mode ∧ mode ≤ DC1394_VIDEO_MODE_FORMAT1_MAX) := by
    simp only [DC1394_VIDEO_MODE_FORMAT1_MIN, DC1394_VIDEO_MODE_FORMAT1_MAX,
      DC1394_VIDEO_MODE_FORMAT7_MIN, DC1394_VIDEO_MODE_FORMAT7_MAX] at *
    omega
  have h2 : ¬ (DC1394_VIDEO_MODE_FORMAT2_MIN ≤ mode ∧ mode ≤ DC1394_VIDEO_MODE_FORMAT2_MAX) := by
    simp only [DC1394_VIDEO_MODE_FORMAT2_MIN, DC1394_VIDEO_MODE_FORMAT2_MAX,
      DC1394_VIDEO_MODE_FORMAT7_MIN, DC1394_VIDEO_MODE_FORMAT7_MAX] at *
    omega
  have h6 : ¬ (DC1394_VIDEO_MODE_FORMAT6_MIN ≤ mode ∧ mode ≤ DC1394_VIDEO_MODE_FORMAT6_MAX) := by
    simp only [DC1394_VIDEO_MODE_FORMAT6_MIN, DC1394_VIDEO_MODE_FORMAT6_MAX,
      DC1394_VIDEO_MODE_FORMAT7_MIN, DC1394_VIDEO_MODE_FORMAT7_MAX] at *
    omega
  simp only [_dc1394_get_format_from_mode, if_neg h0, if_neg h1, if_neg h2, if_neg h6, if_pos h]

theorem get_format_other (E : ErrorCodes) (mode : Nat)
    (h0 : ¬ (DC1394_VIDEO_MODE_FORMAT0_MIN ≤ mode ∧ mode ≤ DC1394_VIDEO_MODE_FORMAT0_MAX))
    (h1 : ¬ (DC1394_VIDEO_MODE_FORMAT1_MIN ≤ mode ∧ mode ≤ DC1394_VIDEO_MODE_FORMAT1_MAX))
    (h2 : ¬ (DC1394_VIDEO_MODE_FORMAT2_MIN ≤ mode ∧ mode ≤ DC1394_VIDEO_MODE_FORMAT2_MAX))
    (h6 : ¬ (DC1394_VIDEO_MODE_FORMAT6_MIN ≤ mode ∧ mode ≤ DC1394_VIDEO_MODE_FORMAT6_MAX))
    (h7 : ¬ (DC1394_VIDEO_MODE_FORMAT7_MIN ≤ mode ∧ mode ≤ DC1394_VIDEO_MODE_FORMAT7_MAX)) :
    _dc1394_get_format_from_mode E mode
      = ((DC1394_ERR_RTN E E.DC1394_INVALID_VIDEO_MODE).1, none) := by
  simp only [_dc1394_get_format_from_mode, if_neg h0, if_neg h1, if_neg h2, if_neg h6, if_neg h7]
  rcases hr : DC1394_ERR_RTN E E.DC1394_INVALID_VIDEO_MODE with ⟨e, b⟩
  cases b <;> rfl


/-! ## `_dc1394_get_quadlets_per_packet` -/

theorem uint32_sub_of_le (a b : Nat) (hb : b ≤ a) (ha : a < 4294967296) :
    uint32_sub a b = a - b := by
  unfold uint32_sub
  omega

theorem table_entries_0 : ∀ i : Fin 56,
    quadlets_per_packet_format_0.getD i.val 0 = -1 ∨
    (0 < quadlets_per_packet_format_0.getD i.val 0 ∧
      to_uint32 (quadlets_per_packet_format_0.getD i.val 0)
        = (quadlets_per_packet_format_0.getD i.val 0).toNat) := by
  decide

theorem table_entries_1 : ∀ i : Fin 64,
    quadlets_per_packet_format_1.getD i.val 0 = -1 ∨
    (0 < quadlets_per_packet_format_1.getD i.val 0 ∧
      to_uint32 (quadlets_per_packet_format_1.getD i.val 0)
        = (quadlets_per_packet_format_1.getD i.val 0).toNat) := by
  decide

theorem table_entries_2 : ∀ i : Fin 64,
    quadlets_per_packet_format_2.getD i.val 0 = -1 ∨
    (0 < quadlets_per_packet_format_2.getD i.val 0 ∧
      to_uint32 (quadlets_per_packet_format_2.getD i.val 0)
        = (quadlets_per_packet_format_2.getD i.val 0).toNat) := by
  decide

theorem qpp_case_in_range (E : ErrorCodes) (table : List Int) (lo hi mode frame_rate : Nat)
    (hm : lo ≤ mode ∧ mode ≤ hi) (hhi : hi < 268435456)
    (hf : DC1394_FRAMERATE_MIN ≤ frame_rate ∧ frame_rate ≤ DC1394_FRAMERATE_MAX) :
    quadlets_per_packet_case E table lo hi mode frame_rate
        (uint32_sub frame_rate DC1394_FRAMERATE_MIN)
      = (DC1394_SUCCESS,
          some (to_uint32 (table.getD (8 * (mode - lo) + (frame_rate - DC1394_FRAMERATE_MIN)) 0))) := by
  have hf' : 32 ≤ frame_rate ∧ frame_rate ≤ 39 := hf
  have h1 : uint32_sub mode lo = mode - lo := uint32_sub_of_le _ _ hm.1 (by omega)
  have h2 : uint32_sub frame_rate DC1394_FRAMERATE_MIN = frame_rate - 32 :=
    uint32_sub_of_le _ _ hf'.1 (by omega)
  have h3 : (8 * (mode - lo) + (frame_rate - 32)) % 4294967296
      = 8 * (mode - lo) + (frame_rate - 32) := by omega
  rw [h2]
  simp only [quadlets_per_packet_case, h1]
  rw [if_pos ⟨hm, hf⟩]
  simp only [DC1394_FRAMERATE_MIN, DC1394_FRAMERATE_MAX, DC1394_FRAMERATE_NUM,
    Nat.reduceSub, Nat.reduceAdd, h3]

theorem qpp_format_0 (E : ErrorCodes) (mode frame_rate format : Nat)
    (hN : 0 < E.DC1394_ERROR_NUM)
    (hm : DC1394_VIDEO_MODE_FORMAT0_MIN ≤ mode ∧ mode ≤ DC1394_VIDEO_MODE_FORMAT0_MAX)
    (hf : DC1394_FRAMERATE_MIN ≤ frame_rate ∧ frame_rate ≤ DC1394_FRAMERATE_MAX) :
    _dc1394_get_quadlets_per_packet E mode frame_rate format
      = (DC1394_SUCCESS, some (to_uint32 (quadlets_per_packet_format_0.getD
          (8 * (mode - DC1394_VIDEO_MODE_FORMAT0_MIN) + (frame_rate - DC1394_FRAMERATE_MIN)) 0))) := by
  simp only [_dc1394_get_quadlets_per_packet, get_format_0 E mode hm,
    DC1394_ERR_RTN_success E hN, Option.getD_some, if_true]
  exact qpp_case_in_range E _ _ _ mode frame_rate hm (by decide) hf

theorem qpp_format_1 (E : ErrorCodes) (mode frame_rate format : Nat)
    (hN : 0 < E.DC1394_ERROR_NUM)
    (hm : DC1394_VIDEO_MODE_FORMAT1_MIN ≤ mode ∧ mode ≤ DC1394_VIDEO_MODE_FORMAT1_MAX)
    (hf : DC1394_FRAMERATE_MIN ≤ frame_rate ∧ frame_rate ≤ DC1394_FRAMERATE_MAX) :
    _dc1394_get_quadlets_per_packet E mode frame_rate format
      = (DC1394_SUCCESS, some (to_uint32 (quadlets_per_packet_format_1.getD
          (8 * (mode - DC1394_VIDEO_MODE_FORMAT1_MIN) + (frame_rate - DC1394_FRAMERATE_MIN)) 0))) := by
  have d10 : ¬ DC1394_FORMAT1 = DC1394_FORMAT0 := by decide
  simp only [_dc1394_get_quadlets_per_packet, get_format_1 E mode hm,
    DC1394_ERR_RTN_success E hN, Option.getD_some, if_true, if_neg d10]
  exact qpp_case_in_range E _ _ _ mode frame_rate hm (by decide) hf

theorem qpp_format_2 (E : ErrorCodes) (mode frame_rate format : Nat)
    (hN : 0 < E.DC1394_ERROR_NUM)
    (hm : DC1394_VIDEO_MODE_FORMAT2_MIN ≤ mode ∧ mode ≤ DC1394_VIDEO_MODE_FORMAT2_MAX)
    (hf : DC1394_FRAMERATE_MIN ≤ frame_rate ∧ frame_rate ≤ DC1394_FRAMERATE_MAX) :
    _dc1394_get_quadlets_per_packet E mode frame_rate format
      = (DC1394_SUCCESS, some (to_uint32 (quadlets_per_packet_format_2.getD
          (8 * (mode - DC1394_VIDEO_MODE_FORMAT2_MIN) + (frame_rate - DC1394_FRAMERATE_MIN)) 0))) := by
  have d20 : ¬ DC1394_FORMAT2 = DC1394_FORMAT0 := by decide
  have d21 : ¬ DC1394_FORMAT2 = DC1394_FORMAT1 := by decide
  simp only [_dc1394_get_quadlets_per_packet, get_format_2 E mode hm,
    DC1394_ERR_RTN_success E hN, Option.getD_some, if_true, if_neg d20, if_neg d21]
  exact qpp_case_in_range E _ _ _ mode frame_rate hm (by decide) hf

theorem table_index_0 (mode frame_rate : Nat)
    (hm : DC1394_VIDEO_MODE_FORMAT0_MIN ≤ mode ∧ mode ≤ DC1394_VIDEO_MODE_FORMAT0_MAX)
    (hf : DC1394_FRAMERATE_MIN ≤ frame_rate ∧ frame_rate ≤ DC1394_FRAMERATE_MAX) :
    8 * (mode - DC1394_VIDEO_MODE_FORMAT0_MIN) + (frame_rate - DC1394_FRAMERATE_MIN) < 56 := by
  simp only [DC1394_VIDEO_MODE_FORMAT0_MIN, DC1394_VIDEO_MODE_FORMAT0_MAX,
    DC1394_FRAMERATE_MIN, DC1394_FRAMERATE_MAX] at *
  omega

theorem table_index_1 (mode frame_rate : Nat)
    (hm : DC1394_VIDEO_MODE_FORMAT1_MIN ≤ mode ∧ mode ≤ DC1394_VIDEO_MODE_FORMAT1_MAX)
    (hf : DC1394_FRAMERATE_MIN ≤ frame_rate ∧ frame_rate ≤ DC1394_FRAMERATE_MAX) :
    8 * (mode - DC1394_VIDEO_MODE_FORMAT1_MIN) + (frame_rate - DC1394_FRAMERATE_MIN) < 64 := by
  simp only [DC1394_VIDEO_MODE_FORMAT1_MIN, DC1394_VIDEO_MODE_FORMAT1_MAX,
    DC1394_FRAMERATE_MIN, DC1394_FRAMERATE_MAX] at *
  omega

theorem table_index_2 (mode frame_rate : Nat)
    (hm : DC1394_VIDEO_MODE_FORMAT2_MIN ≤ mode ∧ mode ≤ DC1394_VIDEO_MODE_FORMAT2_MAX)
    (hf : DC1394_FRAMERATE_MIN ≤ frame_rate ∧ frame_rate ≤ DC1394_FRAMERATE_MAX) :
    8 * (mode - DC1394_VIDEO_MODE_FORMAT2_MIN) + (frame_rate - DC1394_FRAMERATE_MIN) < 64 := by
  simp only [DC1394_VIDEO_MODE_FORMAT2_MIN, DC1394_VIDEO_MODE_FORMAT2_MAX,
    DC1394_FRAMERATE_MIN, DC1394_FRAMERATE_MAX] at *
  omega

/-- C1 (as the code has it): for a video mode of format 0, 1 or 2 and a framerate in
`[DC1394_FRAMERATE_MIN, DC1394_FRAMERATE_MAX]` whose table entry is the undefined marker
`-1`, `_dc1394_get_quadlets_per_packet` returns `DC1394_SUCCESS` and stores the marker
converted to `uint32_t`, 4294967295; no error is reported for such a pair. -/
theorem qpp_undefined_entry_stored (E : ErrorCodes) (mode frame_rate format : Nat)
    (hN : 0 < E.DC1394_ERROR_NUM)
    (hf : DC1394_FRAMERATE_MIN ≤ frame_rate ∧ frame_rate ≤ DC1394_FRAMERATE_MAX) :
    (DC1394_VIDEO_MODE_FORMAT0_MIN ≤ mode ∧ mode ≤ DC1394_VIDEO_MODE_FORMAT0_MAX →
      quadlets_per_packet_format_0.getD
        (8 * (mode - DC1394_VIDEO_MODE_FORMAT0_MIN) + (frame_rate - DC1394_FRAMERATE_MIN)) 0 = -1 →
      _dc1394_get_quadlets_per_packet E mode frame_rate format
        = (DC1394_SUCCESS, some 4294967295)) ∧
    (DC1394_VIDEO_MODE_FORMAT1_MIN ≤ mode ∧ mode ≤ DC1394_VIDEO_MODE_FORMAT1_MAX →
      quadlets_per_packet_format_1.getD
        (8 * (mode - DC1394_VIDEO_MODE_FORMAT1_MIN) + (frame_rate - DC1394_FRAMERATE_MIN)) 0 = -1 →
      _dc1394_get_quadlets_per_packet E mode frame_rate format
        = (DC1394_SUCCESS, some 4294967295)) ∧
    (DC1394_VIDEO_MODE_FORMAT2_MIN ≤ mode ∧ mode ≤ DC1394_VIDEO_MODE_FORMAT2_MAX →
      quadlets_per_packet_format_2.getD
        (8 * (mode - DC1394_VIDEO_MODE_FORMAT2_MIN) + (frame_rate - DC1394_FRAMERATE_MIN)) 0 = -1 →
      _dc1394_get_quadlets_per_packet E mode frame_rate format
        = (DC1394_SUCCESS, some 4294967295)) := by
  refine ⟨fun hm he => ?_, fun hm he => ?_, fun hm he => ?_⟩
  · rw [qpp_format_0 E mode frame_rate format hN hm hf, he]; rfl
  · rw [qpp_format_1 E mode frame_rate format hN hm hf, he]; rfl
  · rw [qpp_format_2 E mode frame_rate format hN hm hf, he]; rfl

/-- C1, witness: mode 64 (160x120 YUV444) at framerate 32 (1.875 fps), whose
entry in the format 0 table is `-1`. -/
theorem qpp_undefined_entry_stored_witness :
    _dc1394_get_quadlets_per_packet log_h_codes 64 32 0 = (DC1394_SUCCESS, some 4294967295) :=
  (qpp_undefined_entry_stored log_h_codes 64 32 0 (by decide) (by decide)).1
    (by decide) (by decide)

/-- C1, counterexample: mode 64 at framerate 32 has the undefined entry `-1`, yet
the call returns `DC1394_SUCCESS`, not `DC1394_INVALID_VIDEO_MODE`, and hands
out 4294967295, under either numbering of the error codes. -/
theorem qpp_undefined_entry_counterexample :
    quadlets_per_packet_format_0.getD (8 * (64 - DC1394_VIDEO_MODE_FORMAT0_MIN)
      + (32 - DC1394_FRAMERATE_MIN)) 0 = -1 ∧
    (_dc1394_get_quadlets_per_packet log_h_codes 64 32 0).1 = DC1394_SUCCESS ∧
    (_dc1394_get_quadlets_per_packet log_h_codes 64 32 0).1
      ≠ log_h_codes.DC1394_INVALID_VIDEO_MODE ∧
    (_dc1394_get_quadlets_per_packet log_h_codes 64 32 0).2 = some 4294967295 ∧
    (_dc1394_get_quadlets_per_packet control_h_codes 64 32 0).1 = DC1394_SUCCESS ∧
    (_dc1394_get_quadlets_per_packet control_h_codes 64 32 0).1
      ≠ control_h_codes.DC1394_INVALID_VIDEO_MODE ∧
    (_dc1394_get_quadlets_per_packet control_h_codes 64 32 0).2 = some 4294967295 := by
  decide

/-- C2: for a video mode of format k (k = 0, 1, 2) and a framerate in
`[DC1394_FRAMERATE_MIN, DC1394_FRAMERATE_MAX]` whose table entry is defined (not `-1`),
`_dc1394_get_quadlets_per_packet` returns `DC1394_SUCCESS` and stores the entry
`quadlets_per_packet_format_k[8*(mode - FORMATk_MIN) + (frame_rate - FRAMERATE_MIN)]`,
which is strictly positive. -/
theorem qpp_defined_entry_stored (E : ErrorCodes) (mode frame_rate format : Nat)
    (hN : 0 < E.DC1394_ERROR_NUM)
    (hf : DC1394_FRAMERATE_MIN ≤ frame_rate ∧ frame_rate ≤ DC1394_FRAMERATE_MAX) :
    (DC1394_VIDEO_MODE_FORMAT0_MIN ≤ mode ∧ mode ≤ DC1394_VIDEO_MODE_FORMAT0_MAX →
      quadlets_per_packet_format_0.getD
        (8 * (mode - DC1394_VIDEO_MODE_FORMAT0_MIN) + (frame_rate - DC1394_FRAMERATE_MIN)) 0 ≠ -1 →
      0 < quadlets_per_packet_format_0.getD
        (8 * (mode - DC1394_VIDEO_MODE_FORMAT0_MIN) + (frame_rate - DC1394_FRAMERATE_MIN)) 0 ∧
      _dc1394_get_quadlets_per_packet E mode frame_rate format
        = (DC1394_SUCCESS, some (quadlets_per_packet_format_0.getD
            (8 * (mode - DC1394_VIDEO_MODE_FORMAT0_MIN)
              + (frame_rate - DC1394_FRAMERATE_MIN)) 0).toNat)) ∧
    (DC1394_VIDEO_MODE_FORMAT1_MIN ≤ mode ∧ mode ≤ DC1394_VIDEO_MODE_FORMAT1_MAX →
      quadlets_per_packet_format_1.getD
        (8 * (mode - DC1394_VIDEO_MODE_FORMAT1_MIN) + (frame_rate - DC1394_FRAMERATE_MIN)) 0 ≠ -1 →
      0 < quadlets_per_packet_format_1.getD
        (8 * (mode - DC1394_VIDEO_MODE_FORMAT1_MIN) + (frame_rate - DC1394_FRAMERATE_MIN)) 0 ∧
      _dc1394_get_quadlets_per_packet E mode frame_rate format
        = (DC1394_SUCCESS, some (quadlets_per_packet_format_1.getD
            (8 * (mode - DC1394_VIDEO_MODE_FORMAT1_MIN)
              + (frame_rate - DC1394_FRAMERATE_MIN)) 0).toNat)) ∧
    (DC1394_VIDEO_MODE_FORMAT2_MIN ≤ mode ∧ mode ≤ DC1394_VIDEO_MODE_FORMAT2_MAX →
      quadlets_per_packet_format_2.getD
        (8 * (mode - DC1394_VIDEO_MODE_FORMAT2_MIN) + (frame_rate - DC1394_FRAMERATE_MIN)) 0 ≠ -1 →
      0 < quadlets_per_packet_format_2.getD
        (8 * (mode - DC1394_VIDEO_MODE_FORMAT2_MIN) + (frame_rate - DC1394_FRAMERATE_MIN)) 0 ∧
      _dc1394_get_quadlets_per_packet E mode frame_rate format
        = (DC1394_SUCCESS, some (quadlets_per_packet_format_2.getD
            (8 * (mode - DC1394_VIDEO_MODE_FORMAT2_MIN)
              + (frame_rate - DC1394_FRAMERATE_MIN)) 0).toNat)) := by
  refine ⟨fun hm he => ?_, fun hm he => ?_, fun hm he => ?_⟩
  · rcases table_entries_0 ⟨_, table_index_0 mode frame_rate hm hf⟩ with h | ⟨hp, hc⟩
    · exact absurd h he
    · exact ⟨hp, by rw [qpp_format_0 E mode frame_rate format hN hm hf]; exact congrArg _ (congrArg _ hc)⟩
  · rcases table_entries_1 ⟨_, table_index_1 mode frame_rate hm hf⟩ with h | ⟨hp, hc⟩
    · exact absurd h he
    · exact ⟨hp, by rw [qpp_format_1 E mode frame_rate format hN hm hf]; exact congrArg _ (congrArg _ hc)⟩
  · rcases table_entries_2 ⟨_, table_index_2 mode frame_rate hm hf⟩ with h | ⟨hp, hc⟩
    · exact absurd h he
    · exact ⟨hp, by rw [qpp_format_2 E mode frame_rate format hN hm hf]; exact congrArg _ (congrArg _ hc)⟩

/-- C2, witness: mode 69 (640x480 MONO8) at framerate 36 (30 fps) stores the
entry 320 of the format 0 table. -/
theorem qpp_defined_entry_stored_witness :
    0 < quadlets_per_packet_format_0.getD
        (8 * (69 - DC1394_VIDEO_MODE_FORMAT0_MIN) + (36 - DC1394_FRAMERATE_MIN)) 0 ∧
    _dc1394_get_quadlets_per_packet log_h_codes 69 36 0
      = (DC1394_SUCCESS, some (quadlets_per_packet_format_0.getD
          (8 * (69 - DC1394_VIDEO_MODE_FORMAT0_MIN) + (36 - DC1394_FRAMERATE_MIN)) 0).toNat) :=
  (qpp_defined_entry_stored log_h_codes 69 36 0 (by decide) (by decide)).1
    (by decide) (by decide)


/-- Under the positive numbering of `dc1394_control.h` the range check of
`DC1394_ERR_RTN` replaces the code of an unknown mode by
`DC1394_INVALID_ERROR_CODE`. -/
theorem get_format_positive_numbering :
    _dc1394_get_format_from_mode control_h_codes 71
      = (control_h_codes.DC1394_INVALID_ERROR_CODE, none) := by
  decide

/-- C9: `_dc1394_get_format_from_mode` returns `DC1394_SUCCESS` exactly when the mode
lies in one of the five ranges of formats 0, 1, 2, 6 and 7, and then stores the
format of that range; for every other mode it returns `DC1394_INVALID_VIDEO_MODE`
and stores nothing.  `DC1394_INVALID_VIDEO_MODE` is taken to be an error code in
the range `DC1394_ERR_RTN` leaves untouched (negative and above
`-DC1394_ERROR_NUM`). -/
theorem get_format_from_mode_spec (E : ErrorCodes) (mode : Nat)
    (hlo : -E.DC1394_ERROR_NUM < E.DC1394_INVALID_VIDEO_MODE)
    (hhi : E.DC1394_INVALID_VIDEO_MODE < 0) :
    ((_dc1394_get_format_from_mode E mode).1 = DC1394_SUCCESS ↔
      ((DC1394_VIDEO_MODE_FORMAT0_MIN ≤ mode ∧ mode ≤ DC1394_VIDEO_MODE_FORMAT0_MAX) ∨
       (DC1394_VIDEO_MODE_FORMAT1_MIN ≤ mode ∧ mode ≤ DC1394_VIDEO_MODE_FORMAT1_MAX) ∨
       (DC1394_VIDEO_MODE_FORMAT2_MIN ≤ mode ∧ mode ≤ DC1394_VIDEO_MODE_FORMAT2_MAX) ∨
       (DC1394_VIDEO_MODE_FORMAT6_MIN ≤ mode ∧ mode ≤ DC1394_VIDEO_MODE_FORMAT6_MAX) ∨
       (DC1394_VIDEO_MODE_FORMAT7_MIN ≤ mode ∧ mode ≤ DC1394_VIDEO_MODE_FORMAT7_MAX))) ∧
    (DC1394_VIDEO_MODE_FORMAT0_MIN ≤ mode ∧ mode ≤ DC1394_VIDEO_MODE_FORMAT0_MAX →
      (_dc1394_get_format_from_mode E mode).2 = some DC1394_FORMAT0) ∧
    (DC1394_VIDEO_MODE_FORMAT1_MIN ≤ mode ∧ mode ≤ DC1394_VIDEO_MODE_FORMAT1_MAX →
      (_dc1394_get_format_from_mode E mode).2 = some DC1394_FORMAT1) ∧
    (DC1394_VIDEO_MODE_FORMAT2_MIN ≤ mode ∧ mode ≤ DC1394_VIDEO_MODE_FORMAT2_MAX →
      (_dc1394_get_format_from_mode E mode).2 = some DC1394_FORMAT2) ∧
    (DC1394_VIDEO_MODE_FORMAT6_MIN ≤ mode ∧ mode ≤ DC1394_VIDEO_MODE_FORMAT6_MAX →
      (_dc1394_get_format_from_mode E mode).2 = some DC1394_FORMAT6) ∧
    (DC1394_VIDEO_MODE_FORMAT7_MIN ≤ mode ∧ mode ≤ DC1394_VIDEO_MODE_FORMAT7_MAX →
      (_dc1394_get_format_from_mode E mode).2 = some DC1394_FORMAT7) ∧
    (¬ ((DC1394_VIDEO_MODE_FORMAT0_MIN ≤ mode ∧ mode ≤ DC1394_VIDEO_MODE_FORMAT0_MAX) ∨
        (DC1394_VIDEO_MODE_FORMAT1_MIN ≤ mode ∧ mode ≤ DC1394_VIDEO_MODE_FORMAT1_MAX) ∨
        (DC1394_VIDEO_MODE_FORMAT2_MIN ≤ mode ∧ mode ≤ DC1394_VIDEO_MODE_FORMAT2_MAX) ∨
        (DC1394_VIDEO_MODE_FORMAT6_MIN ≤ mode ∧ mode ≤ DC1394_VIDEO_MODE_FORMAT6_MAX) ∨
        (DC1394_VIDEO_MODE_FORMAT7_MIN ≤ mode ∧ mode ≤ DC1394_VIDEO_MODE_FORMAT7_MAX)) →
      _dc1394_get_format_from_mode E mode = (E.DC1394_INVALID_VIDEO_MODE, none)) := by
  have hne : E.DC1394_INVALID_VIDEO_MODE ≠ DC1394_SUCCESS := by
    unfold DC1394_SUCCESS; omega
  have hother : ¬ ((DC1394_VIDEO_MODE_FORMAT0_MIN ≤ mode ∧ mode ≤ DC1394_VIDEO_MODE_FORMAT0_MAX) ∨
        (DC1394_VIDEO_MODE_FORMAT1_MIN ≤ mode ∧ mode ≤ DC1394_VIDEO_MODE_FORMAT1_MAX) ∨
        (DC1394_VIDEO_MODE_FORMAT2_MIN ≤ mode ∧ mode ≤ DC1394_VIDEO_MODE_FORMAT2_MAX) ∨
        (DC1394_VIDEO_MODE_FORMAT6_MIN ≤ mode ∧ mode ≤ DC1394_VIDEO_MODE_FORMAT6_MAX) ∨
        (DC1394_VIDEO_MODE_FORMAT7_MIN ≤ mode ∧ mode ≤ DC1394_VIDEO_MODE_FORMAT7_MAX)) →
      _dc1394_get_format_from_mode E mode = (E.DC1394_INVALID_VIDEO_MODE, none) := by
    intro h
    rw [get_format_other E mode (fun c => h (Or.inl c)) (fun c => h (Or.inr (Or.inl c)))
      (fun c => h (Or.inr (Or.inr (Or.inl c))))
      (fun c => h (Or.inr (Or.inr (Or.inr (Or.inl c)))))
      (fun c => h (Or.inr (Or.inr (Or.inr (Or.inr c))))),
      DC1394_ERR_RTN_keeps E _ hlo hhi]
  refine ⟨⟨fun hs => ?_, fun hr => ?_⟩, fun h => ?_, fun h => ?_, fun h => ?_, fun h => ?_,
    fun h => ?_, hother⟩
  · by_contra hc
    rw [hother hc] at hs
    exact hne hs
  · rcases hr with h | h | h | h | h
    · rw [get_format_0 E mode h]
    · rw [get_format_1 E mode h]
    · rw [get_format_2 E mode h]
    · rw [get_format_6 E mode h]
    · rw [get_format_7 E mode h]
  · rw [get_format_0 E mode h]
  · rw [get_format_1 E mode h]
  · rw [get_format_2 E mode h]
  · rw [get_format_6 E mode h]
  · rw [get_format_7 E mode h]

/-- C9, witness: mode 100 (1024x768 RGB8) is a format 1 mode, mode 71 belongs to
no format. -/
theorem get_format_from_mode_spec_witness :
    _dc1394_get_format_from_mode log_h_codes 100 = (DC1394_SUCCESS, some DC1394_FORMAT1) ∧
    _dc1394_get_format_from_mode log_h_codes 71
      = (log_h_codes.DC1394_INVALID_VIDEO_MODE, none) :=
  ⟨Prod.ext
      ((get_format_from_mode_spec log_h_codes 100 (by decide) (by decide)).1.2
        (Or.inr (Or.inl (by decide))))
      ((get_format_from_mode_spec log_h_codes 100 (by decide) (by decide)).2.2.1 (by decide)),
    (get_format_from_mode_spec log_h_codes 71 (by decide) (by decide)).2.2.2.2.2.2 (by decide)⟩


/-! ## `IsFeatureBitSet` -/

theorem and_two_pow_pos_iff (v k : Nat) : (0 < v &&& 2 ^ k) ↔ v.testBit k = true := by
  constructor
  · intro h
    obtain ⟨i, hi⟩ := Nat.ne_zero_implies_bit_true (Nat.pos_iff_ne_zero.mp h)
    rw [Nat.testBit_and, Nat.testBit_two_pow, Bool.and_eq_true, decide_eq_true_eq] at hi
    rw [hi.2]
    exact hi.1
  · intro h
    apply Nat.pos_iff_ne_zero.mpr
    intro h0
    have h1 : (v &&& 2 ^ k).testBit k = true := by
      rw [Nat.testBit_and, Nat.testBit_two_pow_self, h]; rfl
    rw [h0, Nat.zero_testBit] at h1
    exact Bool.noConfusion h1

theorem msb_mask (p : Nat) (hp : p ≤ 31) : 0x80000000 >>> p = 2 ^ (31 - p) := by
  interval_cases p <;> rfl

theorem feature_bit_test (value p : Nat) (hp : p ≤ 31) :
    (if value &&& (0x80000000 >>> p) > 0 then true else false) = value.testBit (31 - p) := by
  rw [msb_mask p hp]
  by_cases h : value.testBit (31 - p) = true
  · rw [if_pos ((and_two_pow_pos_iff value (31 - p)).mpr h), h]
  · rw [if_neg (fun c => h ((and_two_pow_pos_iff value (31 - p)).mp c))]
    simpa using h

/-- C7: for a feature id `f` with `DC1394_FEATURE_MIN ≤ f < DC1394_FEATURE_ZOOM`
(brightness through frame rate), `IsFeatureBitSet(value, f)` is true exactly when
bit `31 - (f - DC1394_FEATURE_MIN)` of `value` is set: the ordinal of the feature
is its bit position counted from the most significant bit. -/
theorem IsFeatureBitSet_low_group (value f : Nat)
    (hlo : DC1394_FEATURE_MIN ≤ f) (hhi : f < DC1394_FEATURE_ZOOM) :
    IsFeatureBitSet value f = value.testBit (31 - (f - DC1394_FEATURE_MIN)) := by
  have hz : ¬ f ≥ DC1394_FEATURE_ZOOM := Nat.not_le.mpr hhi
  have hs : uint32_sub f DC1394_FEATURE_MIN = f - DC1394_FEATURE_MIN :=
    uint32_sub_of_le _ _ hlo (by unfold DC1394_FEATURE_ZOOM at hhi; omega)
  have hp : f - DC1394_FEATURE_MIN ≤ 31 := by
    unfold DC1394_FEATURE_ZOOM at hhi; unfold DC1394_FEATURE_MIN; omega
  simp only [IsFeatureBitSet, if_neg hz, hs]
  exact feature_bit_test value _ hp

/-- C7, witness: gamma (id 422) is bit 25, i.e. position 6 from the top. -/
theorem IsFeatureBitSet_low_group_witness :
    IsFeatureBitSet 0x02000000 422 = Nat.testBit 0x02000000 (31 - (422 - DC1394_FEATURE_MIN)) :=
  IsFeatureBitSet_low_group 0x02000000 422 (by decide) (by decide)

/-- C6: for a feature id `f` at or above `DC1394_FEATURE_ZOOM`, `IsFeatureBitSet(value, f)`
is true exactly when the bit at position `p` from the most significant bit is set
(bit `31 - p` of `value`), with `p = f - DC1394_FEATURE_ZOOM` for zoom, pan, tilt and
optical filter (positions 0 to 3) and `p = f - DC1394_FEATURE_ZOOM + 12` for capture
size and capture quality (positions 16 and 17). -/
theorem IsFeatureBitSet_high_group (value f : Nat) :
    (DC1394_FEATURE_ZOOM ≤ f ∧ f ≤ DC1394_FEATURE_OPTICAL_FILTER →
      IsFeatureBitSet value f = value.testBit (31 - (f - DC1394_FEATURE_ZOOM))) ∧
    (DC1394_FEATURE_CAPTURE_SIZE ≤ f ∧ f ≤ DC1394_FEATURE_CAPTURE_QUALITY →
      IsFeatureBitSet value f = value.testBit (31 - (f - DC1394_FEATURE_ZOOM + 12))) := by
  constructor
  · rintro ⟨hlo, hhi⟩
    have hz : f ≥ DC1394_FEATURE_ZOOM := hlo
    have hc : ¬ f ≥ DC1394_FEATURE_CAPTURE_SIZE := by
      unfold DC1394_FEATURE_OPTICAL_FILTER at hhi; unfold DC1394_FEATURE_CAPTURE_SIZE; omega
    have hs : uint32_sub f DC1394_FEATURE_ZOOM = f - DC1394_FEATURE_ZOOM :=
      uint32_sub_of_le _ _ hlo (by unfold DC1394_FEATURE_OPTICAL_FILTER at hhi; omega)
    have hp : f - DC1394_FEATURE_ZOOM ≤ 31 := by
      unfold DC1394_FEATURE_OPTICAL_FILTER at hhi; unfold DC1394_FEATURE_ZOOM; omega
    simp only [IsFeatureBitSet, if_pos hz, if_neg hc, hs]
    exact feature_bit_test value _ hp
  · rintro ⟨hlo, hhi⟩
    have hc : f ≥ DC1394_FEATURE_CAPTURE_SIZE := hlo
    have hz : f ≥ DC1394_FEATURE_ZOOM := by
      unfold DC1394_FEATURE_CAPTURE_SIZE at hlo; unfold DC1394_FEATURE_ZOOM; omega
    have hm : (f + 12) % 4294967296 = f + 12 := by
      unfold DC1394_FEATURE_CAPTURE_QUALITY at hhi; omega
    have hs : uint32_sub (f + 12) DC1394_FEATURE_ZOOM = f - DC1394_FEATURE_ZOOM + 12 := by
      rw [uint32_sub_of_le _ _ (by unfold DC1394_FEATURE_ZOOM at *; omega)
        (by unfold DC1394_FEATURE_CAPTURE_QUALITY at hhi; omega)]
      unfold DC1394_FEATURE_ZOOM at *; omega
    have hp : f - DC1394_FEATURE_ZOOM + 12 ≤ 31 := by
      unfold DC1394_FEATURE_CAPTURE_QUALITY at hhi; unfold DC1394_FEATURE_ZOOM; omega
    simp only [IsFeatureBitSet, if_pos hz, if_pos hc, hm, hs]
    exact feature_bit_test value _ hp

/-- C6, witness: tilt (id 434) is position 2 from the top (bit 29), capture
quality (id 437) is position 17 (bit 14). -/
theorem IsFeatureBitSet_high_group_witness :
    IsFeatureBitSet 0x20000000 434 = Nat.testBit 0x20000000 (31 - (434 - DC1394_FEATURE_ZOOM)) ∧
    IsFeatureBitSet 0x00004000 437
      = Nat.testBit 0x00004000 (31 - (437 - DC1394_FEATURE_ZOOM + 12)) :=
  ⟨(IsFeatureBitSet_high_group 0x20000000 434).1 (by decide),
   (IsFeatureBitSet_high_group 0x00004000 437).2 (by decide)⟩


/-! ## `_dc1394_quadlets_from_format` -/

theorem float_round_exact (m : Nat) (e : Int) (h : m < 16777216) :
    float_round m e = ⟨m, e⟩ := by
  simp only [float_round, if_pos h]

theorem float_to_uint32_neg (m j : Nat) (h : m < 4294967296) :
    float_to_uint32 ⟨m, -(j : Int) - 2⟩ = some (m / 2 ^ (j + 2)) := by
  have hneg : ¬ (0 : Int) ≤ -(j : Int) - 2 := by omega
  have hexp : (-(-(j : Int) - 2)).toNat = j + 2 := by omega
  have hlt : m / 2 ^ (j + 2) < 4294967296 := lt_of_le_of_lt (Nat.div_le_self _ _) h
  simp only [float_to_uint32, if_neg hneg, hexp, if_pos hlt]

/-- C8 (as the code has it): when the three helpers succeed, report width `w`,
height `h` and the bytes-per-pixel value `bpp = m / 2^j`, and the product
`w * h * bpp` is exact in single precision (`w * h * m < 2^24`),
`_dc1394_quadlets_from_format` stores `floor(w * h * bpp / 4)`, that is
`w * h * m / 2^(j+2)` in integer division: the fractional part is discarded, not
rounded up. -/
theorem quadlets_from_format_truncates (E : ErrorCodes) (w h coding m j : Nat)
    (bytes_per_pixel : Nat → Int × CFloat)
    (hN : 0 < E.DC1394_ERROR_NUM)
    (hbpp : bytes_per_pixel coding = (DC1394_SUCCESS, ⟨m, -(j : Int)⟩))
    (hm : 0 < m) (hexact : w * h * m < 16777216) :
    _dc1394_quadlets_from_format E (DC1394_SUCCESS, w, h) (DC1394_SUCCESS, coding) bytes_per_pixel
      = some (DC1394_SUCCESS, some (w * h * m / 2 ^ (j + 2))) := by
  have hwh : w * h < 16777216 := lt_of_le_of_lt (Nat.le_mul_of_pos_right _ hm) hexact
  have hmod : (w * h) % 4294967296 = w * h := Nat.mod_eq_of_lt (by omega)
  have hconv : float_of_uint32 (w * h) = ⟨w * h, 0⟩ := float_round_exact _ _ hwh
  have hmul : float_mul ⟨w * h, 0⟩ ⟨m, -(j : Int)⟩ = ⟨w * h * m, -(j : Int)⟩ := by
    simp only [float_mul, Int.zero_add]
    exact float_round_exact _ _ hexact
  have hdiv : float_div4 ⟨w * h * m, -(j : Int)⟩ = ⟨w * h * m, -(j : Int) - 2⟩ := rfl
  simp only [_dc1394_quadlets_from_format, DC1394_ERR_RTN_success E hN, hbpp, hmod, hconv,
    hmul, hdiv, float_to_uint32_neg (w * h * m) j (by omega)]

/-- C8, witness: 640 x 480 pixels at 1.5 bytes per pixel (YUV 4:1:1) make
115200 quadlets. -/
theorem quadlets_from_format_truncates_witness :
    _dc1394_quadlets_from_format log_h_codes (DC1394_SUCCESS, 640, 480) (DC1394_SUCCESS, 0)
        (fun _ => (DC1394_SUCCESS, ⟨3, -((1 : Nat) : Int)⟩))
      = some (DC1394_SUCCESS, some (640 * 480 * 3 / 2 ^ (1 + 2))) :=
  quadlets_from_format_truncates log_h_codes 640 480 0 3 1 _ (by decide) rfl (by decide)
    (by decide)

/-- C8, counterexample: a 3 x 3 frame at 1.0 byte per pixel has 9 bytes, so
`ceil(9 / 4) = 3` quadlets, but the stored count is 2. -/
theorem quadlets_from_format_counterexample :
    _dc1394_quadlets_from_format log_h_codes (DC1394_SUCCESS, 3, 3) (DC1394_SUCCESS, 0)
        (fun _ => (DC1394_SUCCESS, ⟨1, 0⟩))
      = some (DC1394_SUCCESS, some 2) ∧
    Int.ceil (((3 : ℚ) * 3 * 1) / 4) = 3 := by
  refine ⟨by decide, ?_⟩
  rw [Int.ceil_eq_iff]
  norm_num


/-! ## `dc1394_video_set_iso_channel` -/

theorem getD_succ_tail (l : List Int) (n : Nat) (d : Int) :
    l.getD (n + 1) d = l.tail.getD n d := by
  cases l <;> simp

theorem getD_zero_headD (l : List Int) (d : Int) : l.getD 0 d = l.headD d := by
  cases l <;> simp

theorem sim_get_ok (c : SimCamera) (r : Register)
    (h : c.outcomes.headD DC1394_SUCCESS = DC1394_SUCCESS) :
    sim_registers.GetCameraControlRegister c r
      = (DC1394_SUCCESS,
          (match r with
            | Register.REG_CAMERA_BASIC_FUNC_INQ => c.basic_func_inq
            | Register.REG_CAMERA_ISO_DATA => c.iso_data),
          { c with outcomes := c.outcomes.tail, trace := c.trace ++ [Transaction.read r] }) := by
  simp only [sim_registers, SimCamera.GetCameraControlRegister, h, if_true]
  cases r <;> rfl

theorem sim_get_fail (inq v : Nat) (outs : List Int) (tr : List Transaction) (r : Register)
    (h : outs.headD DC1394_SUCCESS ≠ DC1394_SUCCESS) :
    sim_registers.GetCameraControlRegister
        { basic_func_inq := inq, iso_data := v, outcomes := outs, trace := tr } r
      = (outs.headD DC1394_SUCCESS, 0,
          { basic_func_inq := inq, iso_data := v, outcomes := outs.tail,
            trace := tr ++ [Transaction.read r] }) := by
  simp only [sim_registers, SimCamera.GetCameraControlRegister, if_neg h]

theorem sim_set_iso (c : SimCamera) (x : Nat) :
    sim_registers.SetCameraControlRegister c Register.REG_CAMERA_ISO_DATA x
      = (c.outcomes.headD DC1394_SUCCESS,
          { c with
            iso_data := if c.outcomes.headD DC1394_SUCCESS = DC1394_SUCCESS then x else c.iso_data,
            outcomes := c.outcomes.tail,
            trace := c.trace ++ [Transaction.write Register.REG_CAMERA_ISO_DATA x] }) := by
  simp only [sim_registers, SimCamera.SetCameraControlRegister]
  by_cases h : c.outcomes.headD DC1394_SUCCESS = DC1394_SUCCESS
  · simp only [h, if_true]
  · simp only [if_neg h]

/-- What the call does once its first two reads have succeeded and the 1394b
branch is selected. -/
theorem set_iso_channel_1394b_path (E : ErrorCodes) (c : SimCamera) (channel : Nat)
    (hN : 0 < E.DC1394_ERROR_NUM)
    (h0 : c.outcomes.getD 0 DC1394_SUCCESS = DC1394_SUCCESS)
    (h1 : c.outcomes.getD 1 DC1394_SUCCESS = DC1394_SUCCESS)
    (h2 : c.outcomes.getD 2 DC1394_SUCCESS = DC1394_SUCCESS)
    (hb : c.basic_func_inq &&& 0x00800000 ≠ 0 ∧ c.iso_data &&& 0x00008000 ≠ 0) :
    dc1394_video_set_iso_channel E sim_registers c channel
      = ((DC1394_ERR_RTN E (c.outcomes.getD 3 DC1394_SUCCESS)).1,
          { basic_func_inq := c.basic_func_inq,
            iso_data :=
              if c.outcomes.getD 3 DC1394_SUCCESS = DC1394_SUCCESS then
                (((channel &&& 0x3F) <<< 8) ||| ((c.iso_data &&& 0x7) &&& 0x7) ||| (0x1 <<< 15))
                  % 4294967296
              else c.iso_data,
            outcomes := c.outcomes.tail.tail.tail.tail,
            trace := c.trace ++ [Transaction.read Register.REG_CAMERA_BASIC_FUNC_INQ] ++
              [Transaction.read Register.REG_CAMERA_ISO_DATA] ++
              [Transaction.read Register.REG_CAMERA_ISO_DATA] ++
              [Transaction.write Register.REG_CAMERA_ISO_DATA
                ((((channel &&& 0x3F) <<< 8) ||| ((c.iso_data &&& 0x7) &&& 0x7) ||| (0x1 <<< 15))
                  % 4294967296)] }) := by
  obtain ⟨inq, v, outs, tr⟩ := c
  rw [getD_zero_headD] at h0
  rw [getD_succ_tail, getD_zero_headD] at h1
  rw [getD_succ_tail, getD_succ_tail, getD_zero_headD] at h2
  rw [getD_succ_tail, getD_succ_tail, getD_succ_tail, getD_zero_headD]
  simp only at h0 h1 h2 hb ⊢
  unfold dc1394_video_set_iso_channel
  simp only [sim_get_ok, sim_set_iso, h0, h1, h2, DC1394_ERR_RTN_success E hN, if_pos hb]
  rcases hr : DC1394_ERR_RTN E (outs.tail.tail.tail.headD DC1394_SUCCESS) with ⟨e, b⟩
  cases b <;> simp


/-- What the call does once its first two reads have succeeded and the legacy
branch is selected with a legal speed. -/
theorem set_iso_channel_legacy_path (E : ErrorCodes) (c : SimCamera) (channel : Nat)
    (hN : 0 < E.DC1394_ERROR_NUM)
    (h0 : c.outcomes.getD 0 DC1394_SUCCESS = DC1394_SUCCESS)
    (h1 : c.outcomes.getD 1 DC1394_SUCCESS = DC1394_SUCCESS)
    (h2 : c.outcomes.getD 2 DC1394_SUCCESS = DC1394_SUCCESS)
    (hb : ¬ (c.basic_func_inq &&& 0x00800000 ≠ 0 ∧ c.iso_data &&& 0x00008000 ≠ 0))
    (hs : (c.iso_data >>> 24) &&& 0x3 ≤ 2) :
    dc1394_video_set_iso_channel E sim_registers c channel
      = ((DC1394_ERR_RTN E (c.outcomes.getD 3 DC1394_SUCCESS)).1,
          { basic_func_inq := c.basic_func_inq,
            iso_data :=
              if c.outcomes.getD 3 DC1394_SUCCESS = DC1394_SUCCESS then
                (((channel &&& 0xF) <<< 28) ||| ((((c.iso_data >>> 24) &&& 0x3) &&& 0x3) <<< 24))
                  % 4294967296
              else c.iso_data,
            outcomes := c.outcomes.tail.tail.tail.tail,
            trace := c.trace ++ [Transaction.read Register.REG_CAMERA_BASIC_FUNC_INQ] ++
              [Transaction.read Register.REG_CAMERA_ISO_DATA] ++
              [Transaction.read Register.REG_CAMERA_ISO_DATA] ++
              [Transaction.write Register.REG_CAMERA_ISO_DATA
                ((((channel &&& 0xF) <<< 28) ||| ((((c.iso_data >>> 24) &&& 0x3) &&& 0x3) <<< 24))
                  % 4294967296)] }) := by
  obtain ⟨inq, v, outs, tr⟩ := c
  rw [getD_zero_headD] at h0
  rw [getD_succ_tail, getD_zero_headD] at h1
  rw [getD_succ_tail, getD_succ_tail, getD_zero_headD] at h2
  rw [getD_succ_tail, getD_succ_tail, getD_succ_tail, getD_zero_headD]
  simp only at h0 h1 h2 hb hs ⊢
  have hs' : ¬ ((v >>> 24) &&& 0x3 > DC1394_ISO_SPEED_400 - DC1394_ISO_SPEED_MIN) := by
    simp only [DC1394_ISO_SPEED_400, DC1394_ISO_SPEED_MIN]; omega
  unfold dc1394_video_set_iso_channel
  simp only [sim_get_ok, sim_set_iso, h0, h1, h2, DC1394_ERR_RTN_success E hN, if_neg hb,
    if_neg hs']
  rcases hr : DC1394_ERR_RTN E (outs.tail.tail.tail.headD DC1394_SUCCESS) with ⟨e, b⟩
  cases b <;> simp

/-- What the call does once its reads have succeeded and the legacy branch is
selected with a speed above the legacy ceiling. -/
theorem set_iso_channel_legacy_speed_path (E : ErrorCodes) (c : SimCamera) (channel : Nat)
    (hN : 0 < E.DC1394_ERROR_NUM)
    (h0 : c.outcomes.getD 0 DC1394_SUCCESS = DC1394_SUCCESS)
    (h1 : c.outcomes.getD 1 DC1394_SUCCESS = DC1394_SUCCESS)
    (h2 : c.outcomes.getD 2 DC1394_SUCCESS = DC1394_SUCCESS)
    (hb : ¬ (c.basic_func_inq &&& 0x00800000 ≠ 0 ∧ c.iso_data &&& 0x00008000 ≠ 0))
    (hs : (c.iso_data >>> 24) &&& 0x3 > DC1394_ISO_SPEED_400 - DC1394_ISO_SPEED_MIN) :
    dc1394_video_set_iso_channel E sim_registers c channel
      = (E.DC1394_FAILURE,
          { basic_func_inq := c.basic_func_inq,
            iso_data := c.iso_data,
            outcomes := c.outcomes.tail.tail.tail,
            trace := c.trace ++ [Transaction.read Register.REG_CAMERA_BASIC_FUNC_INQ] ++
              [Transaction.read Register.REG_CAMERA_ISO_DATA] ++
              [Transaction.read Register.REG_CAMERA_ISO_DATA] }) := by
  obtain ⟨inq, v, outs, tr⟩ := c
  rw [getD_zero_headD] at h0
  rw [getD_succ_tail, getD_zero_headD] at h1
  rw [getD_succ_tail, getD_succ_tail, getD_zero_headD] at h2
  simp only at h0 h1 h2 hb hs ⊢
  unfold dc1394_video_set_iso_channel
  simp only [sim_get_ok, h0, h1, h2, DC1394_ERR_RTN_success E hN, if_neg hb, if_pos hs]

/-- The call when its first read (basic-function-inquiry register) fails. -/
theorem set_iso_channel_read1_fails (E : ErrorCodes) (c : SimCamera) (channel : Nat)
    (hI : E.DC1394_INVALID_ERROR_CODE ≠ DC1394_SUCCESS)
    (h0 : c.outcomes.getD 0 DC1394_SUCCESS ≠ DC1394_SUCCESS) :
    dc1394_video_set_iso_channel E sim_registers c channel
      = ((DC1394_ERR_RTN E (c.outcomes.getD 0 DC1394_SUCCESS)).1,
          { basic_func_inq := c.basic_func_inq,
            iso_data := c.iso_data,
            outcomes := c.outcomes.tail,
            trace := c.trace ++ [Transaction.read Register.REG_CAMERA_BASIC_FUNC_INQ] }) := by
  obtain ⟨inq, v, outs, tr⟩ := c
  rw [getD_zero_headD] at h0 ⊢
  simp only at h0 ⊢
  obtain ⟨e, _, he⟩ := DC1394_ERR_RTN_nonzero E _ hI h0
  unfold dc1394_video_set_iso_channel
  simp only [sim_get_fail _ _ _ _ _ h0, he]

/-- The call when its second read (ISO-data register) fails. -/
theorem set_iso_channel_read2_fails (E : ErrorCodes) (c : SimCamera) (channel : Nat)
    (hN : 0 < E.DC1394_ERROR_NUM)
    (hI : E.DC1394_INVALID_ERROR_CODE ≠ DC1394_SUCCESS)
    (h0 : c.outcomes.getD 0 DC1394_SUCCESS = DC1394_SUCCESS)
    (h1 : c.outcomes.getD 1 DC1394_SUCCESS ≠ DC1394_SUCCESS) :
    dc1394_video_set_iso_channel E sim_registers c channel
      = ((DC1394_ERR_RTN E (c.outcomes.getD 1 DC1394_SUCCESS)).1,
          { basic_func_inq := c.basic_func_inq,
            iso_data := c.iso_data,
            outcomes := c.outcomes.tail.tail,
            trace := c.trace ++ [Transaction.read Register.REG_CAMERA_BASIC_FUNC_INQ] ++
              [Transaction.read Register.REG_CAMERA_ISO_DATA] }) := by
  obtain ⟨inq, v, outs, tr⟩ := c
  rw [getD_zero_headD] at h0
  rw [getD_succ_tail, getD_zero_headD] at h1 ⊢
  simp only at h0 h1 ⊢
  obtain ⟨e, _, he⟩ := DC1394_ERR_RTN_nonzero E _ hI h1
  unfold dc1394_video_set_iso_channel
  simp only [sim_get_ok, h0, DC1394_ERR_RTN_success E hN]
  simp only [sim_get_fail _ _ _ _ _ h1, he]

/-- The call when its third read (the ISO-data register again, in either
branch) fails. -/
theorem set_iso_channel_read3_fails (E : ErrorCodes) (c : SimCamera) (channel : Nat)
    (hN : 0 < E.DC1394_ERROR_NUM)
    (hI : E.DC1394_INVALID_ERROR_CODE ≠ DC1394_SUCCESS)
    (h0 : c.outcomes.getD 0 DC1394_SUCCESS = DC1394_SUCCESS)
    (h1 : c.outcomes.getD 1 DC1394_SUCCESS = DC1394_SUCCESS)
    (h2 : c.outcomes.getD 2 DC1394_SUCCESS ≠ DC1394_SUCCESS) :
    dc1394_video_set_iso_channel E sim_registers c channel
      = ((DC1394_ERR_RTN E (c.outcomes.getD 2 DC1394_SUCCESS)).1,
          { basic_func_inq := c.basic_func_inq,
            iso_data := c.iso_data,
            outcomes := c.outcomes.tail.tail.tail,
            trace := c.trace ++ [Transaction.read Register.REG_CAMERA_BASIC_FUNC_INQ] ++
              [Transaction.read Register.REG_CAMERA_ISO_DATA] ++
              [Transaction.read Register.REG_CAMERA_ISO_DATA] }) := by
  obtain ⟨inq, v, outs, tr⟩ := c
  rw [getD_zero_headD] at h0
  rw [getD_succ_tail, getD_zero_headD] at h1
  rw [getD_succ_tail, getD_succ_tail, getD_zero_headD] at h2 ⊢
  simp only at h0 h1 h2 ⊢
  obtain ⟨e, _, he⟩ := DC1394_ERR_RTN_nonzero E _ hI h2
  unfold dc1394_video_set_iso_channel
  simp only [sim_get_ok, h0, h1, DC1394_ERR_RTN_success E hN]
  by_cases hb : inq &&& 0x00800000 ≠ 0 ∧ v &&& 0x00008000 ≠ 0
  · simp only [if_pos hb, sim_get_fail _ _ _ _ _ h2, he]
  · simp only [if_neg hb, sim_get_fail _ _ _ _ _ h2, he]


/-- Bit layout of the quadlet written in the 1394b branch. -/
theorem iso_1394b_bits (channel v i : Nat) :
    (((channel &&& 0x3F) <<< 8) ||| (v &&& 0x7) ||| 0x8000).testBit i
      = (if i < 3 then v.testBit i
         else if 8 ≤ i ∧ i < 14 then channel.testBit (i - 8)
         else decide (i = 15)) := by
  have e1 : channel &&& 0x3F = channel % 2 ^ 6 := Nat.and_pow_two_sub_one_eq_mod channel 6
  have e2 : v &&& 0x7 = v % 2 ^ 3 := Nat.and_pow_two_sub_one_eq_mod v 3
  have e3 : (0x8000 : Nat) = 2 ^ 15 := rfl
  rw [e1, e2, e3]
  simp only [Nat.testBit_or, Nat.testBit_shiftLeft, Nat.testBit_mod_two_pow, Nat.testBit_two_pow]
  by_cases h3 : i < 3
  · have a : ¬ i ≥ 8 := by omega
    have b : ¬ 15 = i := by omega
    simp [h3, a, b]
  · by_cases h8 : 8 ≤ i ∧ i < 14
    · have a : i ≥ 8 := h8.1
      have b : ¬ 15 = i := by omega
      have c : i - 8 < 6 := by omega
      simp [h3, h8, a, b, c]
    · by_cases h15 : i = 15
      · subst h15
        simp
      · have b : ¬ 15 = i := fun c => h15 c.symm
        have c : ¬ (i ≥ 8 ∧ i - 8 < 6) := by omega
        by_cases a : i ≥ 8
        · have c' : ¬ i - 8 < 6 := fun x => c ⟨a, x⟩
          simp [h3, h8, h15, a, b, c']
          intro h
          omega
        · simp [h3, h8, h15, a, b]

/-- Bit layout of the quadlet written in the legacy branch. -/
theorem iso_legacy_bits (channel v i : Nat) :
    (((channel &&& 0xF) <<< 28) ||| (((v >>> 24) &&& 0x3) <<< 24)).testBit i
      = (if 28 ≤ i ∧ i < 32 then channel.testBit (i - 28)
         else if 24 ≤ i ∧ i < 26 then v.testBit i
         else false) := by
  have e1 : channel &&& 0xF = channel % 2 ^ 4 := Nat.and_pow_two_sub_one_eq_mod channel 4
  have e2 : (v >>> 24) &&& 0x3 = (v >>> 24) % 2 ^ 2 := Nat.and_pow_two_sub_one_eq_mod _ 2
  rw [e1, e2]
  simp only [Nat.testBit_or, Nat.testBit_shiftLeft, Nat.testBit_mod_two_pow,
    Nat.testBit_shiftRight]
  by_cases h28 : 28 ≤ i ∧ i < 32
  · have a : i ≥ 28 := h28.1
    have b : i - 28 < 4 := by omega
    have c : i ≥ 24 := by omega
    have d : ¬ i - 24 < 2 := by omega
    simp [h28, a, b, c, d]
  · by_cases h24 : 24 ≤ i ∧ i < 26
    · have a : ¬ i ≥ 28 := by omega
      have c : i ≥ 24 := h24.1
      have d : i - 24 < 2 := by omega
      have e : 24 + (i - 24) = i := by omega
      simp [h28, h24, a, c, d, e]
    · by_cases a : i ≥ 28
      · have b : ¬ i - 28 < 4 := by omega
        have d : ¬ i - 24 < 2 := by omega
        simp [h28, h24, a, b, d]
        intro h
        omega
      · by_cases c : i ≥ 24
        · have d : ¬ i - 24 < 2 := by omega
          simp [h28, h24, a, c, d]
          intro h
          omega
        · simp [h28, h24, a, c]

theorem iso_1394b_lt (channel v : Nat) :
    ((channel &&& 0x3F) <<< 8) ||| (v &&& 0x7) ||| 0x8000 < 4294967296 := by
  apply Nat.lt_pow_two_of_testBit _ (n := 32)
  intro i hi
  rw [iso_1394b_bits]
  have a : ¬ i < 3 := by omega
  have b : ¬ (8 ≤ i ∧ i < 14) := by omega
  have c : ¬ i = 15 := by omega
  simp [a, b, c]

theorem iso_legacy_lt (channel v : Nat) :
    ((channel &&& 0xF) <<< 28) ||| (((v >>> 24) &&& 0x3) <<< 24) < 4294967296 := by
  apply Nat.lt_pow_two_of_testBit _ (n := 32)
  intro i hi
  rw [iso_legacy_bits]
  have a : ¬ (28 ≤ i ∧ i < 32) := by omega
  have b : ¬ (24 ≤ i ∧ i < 26) := by omega
  simp [a, b]

theorem and_and_self (x m : Nat) : (x &&& m) &&& m = x &&& m := by
  rw [Nat.and_assoc, Nat.and_self]


/-- C4: when the three register reads succeed, bit 0x00800000 of the
basic-function-inquiry register is set and bit 0x00008000 of the ISO-data register
value `v` is set, `dc1394_video_set_iso_channel(camera, channel)` issues exactly one
write, to the ISO-data register, of `((channel & 0x3F) << 8) | (v & 0x7) | 0x8000`:
bits 0-2 are the speed bits of `v`, bits 8-13 the low six bits of `channel`, bit 15
is set and every other bit is zero.  If the write succeeds the call returns
`DC1394_SUCCESS` and the register holds that value. -/
theorem set_iso_channel_1394b_write (E : ErrorCodes) (c : SimCamera) (channel : Nat)
    (hN : 0 < E.DC1394_ERROR_NUM)
    (h0 : c.outcomes.getD 0 DC1394_SUCCESS = DC1394_SUCCESS)
    (h1 : c.outcomes.getD 1 DC1394_SUCCESS = DC1394_SUCCESS)
    (h2 : c.outcomes.getD 2 DC1394_SUCCESS = DC1394_SUCCESS)
    (hb : c.basic_func_inq &&& 0x00800000 ≠ 0 ∧ c.iso_data &&& 0x00008000 ≠ 0) :
    (dc1394_video_set_iso_channel E sim_registers c channel).2.trace
      = c.trace ++ [Transaction.read Register.REG_CAMERA_BASIC_FUNC_INQ,
          Transaction.read Register.REG_CAMERA_ISO_DATA,
          Transaction.read Register.REG_CAMERA_ISO_DATA,
          Transaction.write Register.REG_CAMERA_ISO_DATA
            (((channel &&& 0x3F) <<< 8) ||| (c.iso_data &&& 0x7) ||| 0x8000)] ∧
    (∀ i, (((channel &&& 0x3F) <<< 8) ||| (c.iso_data &&& 0x7) ||| 0x8000).testBit i
      = (if i < 3 then c.iso_data.testBit i
         else if 8 ≤ i ∧ i < 14 then channel.testBit (i - 8)
         else decide (i = 15))) ∧
    (c.outcomes.getD 3 DC1394_SUCCESS = DC1394_SUCCESS →
      (dc1394_video_set_iso_channel E sim_registers c channel).1 = DC1394_SUCCESS ∧
      (dc1394_video_set_iso_channel E sim_registers c channel).2.iso_data
        = ((channel &&& 0x3F) <<< 8) ||| (c.iso_data &&& 0x7) ||| 0x8000) := by
  have hx : (((channel &&& 0x3F) <<< 8) ||| ((c.iso_data &&& 0x7) &&& 0x7) ||| (0x1 <<< 15))
      % 4294967296 = ((channel &&& 0x3F) <<< 8) ||| (c.iso_data &&& 0x7) ||| 0x8000 := by
    rw [and_and_self, show (0x1 <<< 15 : Nat) = 0x8000 from rfl]
    exact Nat.mod_eq_of_lt (iso_1394b_lt channel c.iso_data)
  rw [set_iso_channel_1394b_path E c channel hN h0 h1 h2 hb, hx]
  refine ⟨by simp, iso_1394b_bits channel c.iso_data, fun h3 => ?_⟩
  simp only [h3, DC1394_ERR_RTN_success E hN, if_true, and_self]

/-- C4, witness: a 1394b camera at speed code 3 (800 Mbps) asked for channel 5
gets 0x8503 written. -/
theorem set_iso_channel_1394b_write_witness :
    (dc1394_video_set_iso_channel log_h_codes sim_registers
        ⟨0x00800000, 0x8003, [], []⟩ 5).2.trace
      = [Transaction.read Register.REG_CAMERA_BASIC_FUNC_INQ,
          Transaction.read Register.REG_CAMERA_ISO_DATA,
          Transaction.read Register.REG_CAMERA_ISO_DATA,
          Transaction.write Register.REG_CAMERA_ISO_DATA 0x8503] :=
  (set_iso_channel_1394b_write log_h_codes ⟨0x00800000, 0x8003, [], []⟩ 5
    (by decide) (by decide) (by decide) (by decide) (by decide)).1

/-- C5: when the three register reads succeed, at least one of bit 0x00800000 of the
basic-function-inquiry register and bit 0x00008000 of the ISO-data register value `v`
is clear, and the legacy speed `s = (v >> 24) & 0x3` is at most 2,
`dc1394_video_set_iso_channel(camera, channel)` issues exactly one write, to the
ISO-data register, of `((channel & 0xF) << 28) | (s << 24)`: bits 28-31 are the low
four bits of `channel`, bits 24-25 the speed bits of `v`, and every other bit is
zero.  If the write succeeds the call returns `DC1394_SUCCESS` and the register
holds that value. -/
theorem set_iso_channel_legacy_write (E : ErrorCodes) (c : SimCamera) (channel : Nat)
    (hN : 0 < E.DC1394_ERROR_NUM)
    (h0 : c.outcomes.getD 0 DC1394_SUCCESS = DC1394_SUCCESS)
    (h1 : c.outcomes.getD 1 DC1394_SUCCESS = DC1394_SUCCESS)
    (h2 : c.outcomes.getD 2 DC1394_SUCCESS = DC1394_SUCCESS)
    (hb : ¬ (c.basic_func_inq &&& 0x00800000 ≠ 0 ∧ c.iso_data &&& 0x00008000 ≠ 0))
    (hs : (c.iso_data >>> 24) &&& 0x3 ≤ 2) :
    (dc1394_video_set_iso_channel E sim_registers c channel).2.trace
      = c.trace ++ [Transaction.read Register.REG_CAMERA_BASIC_FUNC_INQ,
          Transaction.read Register.REG_CAMERA_ISO_DATA,
          Transaction.read Register.REG_CAMERA_ISO_DATA,
          Transaction.write Register.REG_CAMERA_ISO_DATA
            (((channel &&& 0xF) <<< 28) ||| (((c.iso_data >>> 24) &&& 0x3) <<< 24))] ∧
    (∀ i, (((channel &&& 0xF) <<< 28) ||| (((c.iso_data >>> 24) &&& 0x3) <<< 24)).testBit i
      = (if 28 ≤ i ∧ i < 32 then channel.testBit (i - 28)
         else if 24 ≤ i ∧ i < 26 then c.iso_data.testBit i
         else false)) ∧
    (c.outcomes.getD 3 DC1394_SUCCESS = DC1394_SUCCESS →
      (dc1394_video_set_iso_channel E sim_registers c channel).1 = DC1394_SUCCESS ∧
      (dc1394_video_set_iso_channel E sim_registers c channel).2.iso_data
        = ((channel &&& 0xF) <<< 28) ||| (((c.iso_data >>> 24) &&& 0x3) <<< 24)) := by
  have hx : (((channel &&& 0xF) <<< 28) ||| ((((c.iso_data >>> 24) &&& 0x3) &&& 0x3) <<< 24))
      % 4294967296 = ((channel &&& 0xF) <<< 28) ||| (((c.iso_data >>> 24) &&& 0x3) <<< 24) := by
    rw [and_and_self]
    exact Nat.mod_eq_of_lt (iso_legacy_lt channel c.iso_data)
  rw [set_iso_channel_legacy_path E c channel hN h0 h1 h2 hb hs, hx]
  refine ⟨by simp, iso_legacy_bits channel c.iso_data, fun h3 => ?_⟩
  simp only [h3, DC1394_ERR_RTN_success E hN, if_true, and_self]

/-- C5, witness: a legacy camera at speed code 2 (400 Mbps) asked for channel 5
gets 0x52000000 written. -/
theorem set_iso_channel_legacy_write_witness :
    (dc1394_video_set_iso_channel log_h_codes sim_registers
        ⟨0, 0x02000000, [], []⟩ 5).2.trace
      = [Transaction.read Register.REG_CAMERA_BASIC_FUNC_INQ,
          Transaction.read Register.REG_CAMERA_ISO_DATA,
          Transaction.read Register.REG_CAMERA_ISO_DATA,
          Transaction.write Register.REG_CAMERA_ISO_DATA 0x52000000] :=
  (set_iso_channel_legacy_write log_h_codes ⟨0, 0x02000000, [], []⟩ 5
    (by decide) (by decide) (by decide) (by decide) (by decide) (by decide)).1

/-- C3: in the legacy branch (the camera does not advertise 1394b, or the 1394b flag
of the ISO-data register is clear), when the speed in the legacy 2-bit field exceeds
`DC1394_ISO_SPEED_400 - DC1394_ISO_SPEED_MIN = 2`, the call returns `DC1394_FAILURE`,
a non-success code, for every channel; it has issued its three reads and no write,
and the ISO-data register is unchanged. -/
theorem set_iso_channel_legacy_speed_rejected (E : ErrorCodes) (c : SimCamera) (channel : Nat)
    (hN : 0 < E.DC1394_ERROR_NUM)
    (hF : E.DC1394_FAILURE ≠ DC1394_SUCCESS)
    (h0 : c.outcomes.getD 0 DC1394_SUCCESS = DC1394_SUCCESS)
    (h1 : c.outcomes.getD 1 DC1394_SUCCESS = DC1394_SUCCESS)
    (h2 : c.outcomes.getD 2 DC1394_SUCCESS = DC1394_SUCCESS)
    (hb : ¬ (c.basic_func_inq &&& 0x00800000 ≠ 0 ∧ c.iso_data &&& 0x00008000 ≠ 0))
    (hs : (c.iso_data >>> 24) &&& 0x3 > DC1394_ISO_SPEED_400 - DC1394_ISO_SPEED_MIN) :
    (dc1394_video_set_iso_channel E sim_registers c channel).1 = E.DC1394_FAILURE ∧
    (dc1394_video_set_iso_channel E sim_registers c channel).1 ≠ DC1394_SUCCESS ∧
    (dc1394_video_set_iso_channel E sim_registers c channel).2.trace
      = c.trace ++ [Transaction.read Register.REG_CAMERA_BASIC_FUNC_INQ,
          Transaction.read Register.REG_CAMERA_ISO_DATA,
          Transaction.read Register.REG_CAMERA_ISO_DATA] ∧
    (dc1394_video_set_iso_channel E sim_registers c channel).2.iso_data = c.iso_data := by
  rw [set_iso_channel_legacy_speed_path E c channel hN h0 h1 h2 hb hs]
  exact ⟨rfl, hF, by simp, rfl⟩

/-- C3, witness: a legacy camera whose speed field holds 3 (800 Mbps), asked for
channel 5. -/
theorem set_iso_channel_legacy_speed_rejected_witness :
    (dc1394_video_set_iso_channel log_h_codes sim_registers
        ⟨0, 0x03000000, [], []⟩ 5).1 = log_h_codes.DC1394_FAILURE ∧
    (dc1394_video_set_iso_channel log_h_codes sim_registers
        ⟨0, 0x03000000, [], []⟩ 5).2.iso_data = 0x03000000 :=
  ⟨(set_iso_channel_legacy_speed_rejected log_h_codes ⟨0, 0x03000000, [], []⟩ 5
      (by decide) (by decide) (by decide) (by decide) (by decide) (by decide) (by decide)).1,
   (set_iso_channel_legacy_speed_rejected log_h_codes ⟨0, 0x03000000, [], []⟩ 5
      (by decide) (by decide) (by decide) (by decide) (by decide) (by decide)
      (by decide)).2.2.2⟩

/-- C10: if a register read of `dc1394_video_set_iso_channel` fails (the read of the
basic-function-inquiry register, the first read of the ISO-data register, or the
second one), the call returns a non-success code; the failed read is the last
transaction it issued (no retry, no write) and the ISO-data register is unchanged. -/
theorem set_iso_channel_read_failure (E : ErrorCodes) (c : SimCamera) (channel : Nat)
    (hN : 0 < E.DC1394_ERROR_NUM)
    (hI : E.DC1394_INVALID_ERROR_CODE ≠ DC1394_SUCCESS) :
    (c.outcomes.getD 0 DC1394_SUCCESS ≠ DC1394_SUCCESS →
      (dc1394_video_set_iso_channel E sim_registers c channel).1 ≠ DC1394_SUCCESS ∧
      (dc1394_video_set_iso_channel E sim_registers c channel).2.trace
        = c.trace ++ [Transaction.read Register.REG_CAMERA_BASIC_FUNC_INQ] ∧
      (dc1394_video_set_iso_channel E sim_registers c channel).2.iso_data = c.iso_data) ∧
    (c.outcomes.getD 0 DC1394_SUCCESS = DC1394_SUCCESS →
      c.outcomes.getD 1 DC1394_SUCCESS ≠ DC1394_SUCCESS →
      (dc1394_video_set_iso_channel E sim_registers c channel).1 ≠ DC1394_SUCCESS ∧
      (dc1394_video_set_iso_channel E sim_registers c channel).2.trace
        = c.trace ++ [Transaction.read Register.REG_CAMERA_BASIC_FUNC_INQ,
            Transaction.read Register.REG_CAMERA_ISO_DATA] ∧
      (dc1394_video_set_iso_channel E sim_registers c channel).2.iso_data = c.iso_data) ∧
    (c.outcomes.getD 0 DC1394_SUCCESS = DC1394_SUCCESS →
      c.outcomes.getD 1 DC1394_SUCCESS = DC1394_SUCCESS →
      c.outcomes.getD 2 DC1394_SUCCESS ≠ DC1394_SUCCESS →
      (dc1394_video_set_iso_channel E sim_registers c channel).1 ≠ DC1394_SUCCESS ∧
      (dc1394_video_set_iso_channel E sim_registers c channel).2.trace
        = c.trace ++ [Transaction.read Register.REG_CAMERA_BASIC_FUNC_INQ,
            Transaction.read Register.REG_CAMERA_ISO_DATA,
            Transaction.read Register.REG_CAMERA_ISO_DATA] ∧
      (dc1394_video_set_iso_channel E sim_registers c channel).2.iso_data = c.iso_data) := by
  refine ⟨fun h0 => ?_, fun h0 h1 => ?_, fun h0 h1 h2 => ?_⟩
  · obtain ⟨e, hne, he⟩ := DC1394_ERR_RTN_nonzero E _ hI h0
    rw [set_iso_channel_read1_fails E c channel hI h0, he]
    exact ⟨hne, rfl, rfl⟩
  · obtain ⟨e, hne, he⟩ := DC1394_ERR_RTN_nonzero E _ hI h1
    rw [set_iso_channel_read2_fails E c channel hN hI h0 h1, he]
    exact ⟨hne, by simp, rfl⟩
  · obtain ⟨e, hne, he⟩ := DC1394_ERR_RTN_nonzero E _ hI h2
    rw [set_iso_channel_read3_fails E c channel hN hI h0 h1 h2, he]
    exact ⟨hne, by simp, rfl⟩

/-- C10, witness: the second read fails with `DC1394_FAILURE`; the call stops
after two reads. -/
theorem set_iso_channel_read_failure_witness :
    (dc1394_video_set_iso_channel log_h_codes sim_registers
        ⟨0x00800000, 0x8003, [0, -1], []⟩ 5).1 ≠ DC1394_SUCCESS ∧
    (dc1394_video_set_iso_channel log_h_codes sim_registers
        ⟨0x00800000, 0x8003, [0, -1], []⟩ 5).2.trace
      = [] ++ [Transaction.read Register.REG_CAMERA_BASIC_FUNC_INQ,
          Transaction.read Register.REG_CAMERA_ISO_DATA] ∧
    (dc1394_video_set_iso_channel log_h_codes sim_registers
        ⟨0x00800000, 0x8003, [0, -1], []⟩ 5).2.iso_data = 0x8003 :=
  (set_iso_channel_read_failure log_h_codes ⟨0x00800000, 0x8003, [0, -1], []⟩ 5
    (by decide) (by decide)).2.1 (by decide) (by decide)

/-! ## Error-checking macros -/

/-- `DC1394_ERR_CHK` on a negative code: the code is replaced by
`DC1394_INVALID_ERROR_CODE` and the enclosing function returns. -/
theorem DC1394_ERR_CHK_negative (err : Int) (h : err < 0) :
    DC1394_ERR_CHK err = (control_h_codes.DC1394_INVALID_ERROR_CODE, true) := by
  have h1 : err < 0 ∨ err > NUM_ERRORS := Or.inl h
  simp only [DC1394_ERR_CHK, if_pos h1]
  decide

/-- C13, at the failing input: for the informational code `DC1394_NO_FRAME = -2`,
`DC1394_ERR_CHK` does not continue past the macro; it rewrites the code to
`DC1394_INVALID_ERROR_CODE = 17` and leaves the enclosing function with it. -/
theorem DC1394_ERR_CHK_no_frame_leaves :
    DC1394_ERR_CHK DC1394_NO_FRAME = (17, true) := by
  decide

/-- `DC1394_ERR_RTN` on a negative code: the enclosing function returns,
whatever the numbering of the codes, as long as `DC1394_INVALID_ERROR_CODE` is
not the success code. -/
theorem DC1394_ERR_RTN_negative (E : ErrorCodes) (err : Int)
    (hI : E.DC1394_INVALID_ERROR_CODE ≠ DC1394_SUCCESS) (h : err < 0) :
    (DC1394_ERR_RTN E err).2 = true := by
  have hne : err ≠ DC1394_SUCCESS := by unfold DC1394_SUCCESS; omega
  obtain ⟨e, _, he⟩ := DC1394_ERR_RTN_nonzero E err hI hne
  rw [he]

/-- C14, at the failing input: for the negative code `-2`, `DC1394_ERR_RTN` leaves
the enclosing function, returning `-2`, under the numbering that follows
`dc1394_error_strings` as well as under the one of `dc1394_control.h`. -/
theorem DC1394_ERR_RTN_negative_leaves :
    DC1394_ERR_RTN log_h_codes (-2) = (-2, true) ∧
    DC1394_ERR_RTN control_h_codes (-2) = (-2, true) := by
  decide

/-! ## Quadlets per packet: rejected requests and table content -/

theorem qpp_case_out_of_range (E : ErrorCodes) (table : List Int) (lo hi mode frame_rate idx : Nat)
    (hlo : -E.DC1394_ERROR_NUM < E.DC1394_INVALID_VIDEO_MODE)
    (hhi : E.DC1394_INVALID_VIDEO_MODE < 0)
    (hf : ¬ (DC1394_FRAMERATE_MIN ≤ frame_rate ∧ frame_rate ≤ DC1394_FRAMERATE_MAX)) :
    quadlets_per_packet_case E table lo hi mode frame_rate idx
      = (E.DC1394_INVALID_VIDEO_MODE, none) := by
  have hc : ¬ ((lo ≤ mode ∧ mode ≤ hi) ∧
      (DC1394_FRAMERATE_MIN ≤ frame_rate ∧ frame_rate ≤ DC1394_FRAMERATE_MAX)) :=
    fun c => hf c.2
  simp only [quadlets_per_packet_case, if_neg hc, DC1394_ERR_RTN_keeps E _ hlo hhi]

/-- C12: for a video mode of format 0, 1 or 2 and a framerate outside
`[DC1394_FRAMERATE_MIN, DC1394_FRAMERATE_MAX]`, `_dc1394_get_quadlets_per_packet`
returns `DC1394_INVALID_VIDEO_MODE` and stores nothing; the arm of the switch gives
that result whatever the table holds, so no table element is read.
`DC1394_INVALID_VIDEO_MODE` is taken to be an error code in the range
`DC1394_ERR_RTN` leaves untouched. -/
theorem qpp_framerate_out_of_range (E : ErrorCodes) (mode frame_rate format : Nat)
    (hN : 0 < E.DC1394_ERROR_NUM)
    (hlo : -E.DC1394_ERROR_NUM < E.DC1394_INVALID_VIDEO_MODE)
    (hhi : E.DC1394_INVALID_VIDEO_MODE < 0)
    (hm : (DC1394_VIDEO_MODE_FORMAT0_MIN ≤ mode ∧ mode ≤ DC1394_VIDEO_MODE_FORMAT0_MAX) ∨
          (DC1394_VIDEO_MODE_FORMAT1_MIN ≤ mode ∧ mode ≤ DC1394_VIDEO_MODE_FORMAT1_MAX) ∨
          (DC1394_VIDEO_MODE_FORMAT2_MIN ≤ mode ∧ mode ≤ DC1394_VIDEO_MODE_FORMAT2_MAX))
    (hf : ¬ (DC1394_FRAMERATE_MIN ≤ frame_rate ∧ frame_rate ≤ DC1394_FRAMERATE_MAX)) :
    _dc1394_get_quadlets_per_packet E mode frame_rate format
      = (E.DC1394_INVALID_VIDEO_MODE, none) ∧
    (∀ (table : List Int) (lo hi : Nat),
      quadlets_per_packet_case E table lo hi mode frame_rate
          (uint32_sub frame_rate DC1394_FRAMERATE_MIN)
        = (E.DC1394_INVALID_VIDEO_MODE, none)) := by
  refine ⟨?_, fun table lo hi => qpp_case_out_of_range E table lo hi mode frame_rate _ hlo hhi hf⟩
  have d10 : ¬ DC1394_FORMAT1 = DC1394_FORMAT0 := by decide
  have d20 : ¬ DC1394_FORMAT2 = DC1394_FORMAT0 := by decide
  have d21 : ¬ DC1394_FORMAT2 = DC1394_FORMAT1 := by decide
  rcases hm with h | h | h
  · simp only [_dc1394_get_quadlets_per_packet, get_format_0 E mode h,
      DC1394_ERR_RTN_success E hN, Option.getD_some, if_true]
    exact qpp_case_out_of_range E _ _ _ mode frame_rate _ hlo hhi hf
  · simp only [_dc1394_get_quadlets_per_packet, get_format_1 E mode h,
      DC1394_ERR_RTN_success E hN, Option.getD_some, if_true, if_neg d10]
    exact qpp_case_out_of_range E _ _ _ mode frame_rate _ hlo hhi hf
  · simp only [_dc1394_get_quadlets_per_packet, get_format_2 E mode h,
      DC1394_ERR_RTN_success E hN, Option.getD_some, if_true, if_neg d20, if_neg d21]
    exact qpp_case_out_of_range E _ _ _ mode frame_rate _ hlo hhi hf

/-- C12, witness: mode 69 (640x480 MONO8) with framerate 40, one past
`DC1394_FRAMERATE_MAX`. -/
theorem qpp_framerate_out_of_range_witness :
    _dc1394_get_quadlets_per_packet log_h_codes 69 40 0
      = (log_h_codes.DC1394_INVALID_VIDEO_MODE, none) :=
  (qpp_framerate_out_of_range log_h_codes 69 40 0 (by decide) (by decide) (by decide)
    (Or.inl (by decide)) (by decide)).1

/-- C19: for a video mode of format 6 or format 7 and every framerate,
`_dc1394_get_quadlets_per_packet` returns `DC1394_INVALID_VIDEO_FORMAT` and stores
nothing.  `DC1394_INVALID_VIDEO_FORMAT` is taken to be an error code in the range
`DC1394_ERR_RTN` leaves untouched. -/
theorem qpp_format_6_7_rejected (E : ErrorCodes) (mode frame_rate format : Nat)
    (hN : 0 < E.DC1394_ERROR_NUM)
    (hlo : -E.DC1394_ERROR_NUM < E.DC1394_INVALID_VIDEO_FORMAT)
    (hhi : E.DC1394_INVALID_VIDEO_FORMAT < 0)
    (hm : (DC1394_VIDEO_MODE_FORMAT6_MIN ≤ mode ∧ mode ≤ DC1394_VIDEO_MODE_FORMAT6_MAX) ∨
          (DC1394_VIDEO_MODE_FORMAT7_MIN ≤ mode ∧ mode ≤ DC1394_VIDEO_MODE_FORMAT7_MAX)) :
    _dc1394_get_quadlets_per_packet E mode frame_rate format
      = (E.DC1394_INVALID_VIDEO_FORMAT, none) := by
  have d60 : ¬ DC1394_FORMAT6 = DC1394_FORMAT0 := by decide
  have d61 : ¬ DC1394_FORMAT6 = DC1394_FORMAT1 := by decide
  have d62 : ¬ DC1394_FORMAT6 = DC1394_FORMAT2 := by decide
  have d70 : ¬ DC1394_FORMAT7 = DC1394_FORMAT0 := by decide
  have d71 : ¬ DC1394_FORMAT7 = DC1394_FORMAT1 := by decide
  have d72 : ¬ DC1394_FORMAT7 = DC1394_FORMAT2 := by decide
  rcases hm with h | h
  · simp only [_dc1394_get_quadlets_per_packet, get_format_6 E mode h,
      DC1394_ERR_RTN_success E hN, Option.getD_some, if_neg d60, if_neg d61, if_neg d62,
      true_or, if_true, DC1394_ERR_RTN_keeps E _ hlo hhi]
  · simp only [_dc1394_get_quadlets_per_packet, get_format_7 E mode h,
      DC1394_ERR_RTN_success E hN, Option.getD_some, if_neg d70, if_neg d71, if_neg d72,
      or_true, if_true, DC1394_ERR_RTN_keeps E _ hlo hhi]

/-- C19, witness: mode 290 (Format7 mode 2) at framerate 36. -/
theorem qpp_format_6_7_rejected_witness :
    _dc1394_get_quadlets_per_packet log_h_codes 290 36 0
      = (log_h_codes.DC1394_INVALID_VIDEO_FORMAT, none) :=
  qpp_format_6_7_rejected log_h_codes 290 36 0 (by decide) (by decide) (by decide)
    (Or.inr (by decide))

/-- In the format 0 table every pair of adjacent defined entries of a row (a
mode) doubles from the lower framerate to the higher. -/
theorem table_doubling_0 : ∀ (row : Fin 7) (col : Fin 7),
    quadlets_per_packet_format_0.getD (8 * row.val + col.val) 0 ≠ -1 →
    quadlets_per_packet_format_0.getD (8 * row.val + col.val + 1) 0 ≠ -1 →
    quadlets_per_packet_format_0.getD (8 * row.val + col.val + 1) 0
      = 2 * quadlets_per_packet_format_0.getD (8 * row.val + col.val) 0 := by
  decide

/-- In the format 2 table every pair of adjacent defined entries of a row
doubles. -/
theorem table_doubling_2 : ∀ (row : Fin 8) (col : Fin 7),
    quadlets_per_packet_format_2.getD (8 * row.val + col.val) 0 ≠ -1 →
    quadlets_per_packet_format_2.getD (8 * row.val + col.val + 1) 0 ≠ -1 →
    quadlets_per_packet_format_2.getD (8 * row.val + col.val + 1) 0
      = 2 * quadlets_per_packet_format_2.getD (8 * row.val + col.val) 0 := by
  decide

/-- In the format 1 table every pair of adjacent defined entries of a row
doubles, the two pairs around the entry 3073 of row 5 apart. -/
theorem table_doubling_1 : ∀ (row : Fin 8) (col : Fin 7),
    ¬ (row.val = 5 ∧ (col.val = 5 ∨ col.val = 6)) →
    quadlets_per_packet_format_1.getD (8 * row.val + col.val) 0 ≠ -1 →
    quadlets_per_packet_format_1.getD (8 * row.val + col.val + 1) 0 ≠ -1 →
    quadlets_per_packet_format_1.getD (8 * row.val + col.val + 1) 0
      = 2 * quadlets_per_packet_format_1.getD (8 * row.val + col.val) 0 := by
  decide

/-- C20, at the failing input: in `quadlets_per_packet_format_1`, row 5 (mode 101,
1024x768 MONO8), the entries of columns 5, 6 and 7 (framerates 60, 120 and 240)
are 1536, 3073 and 6144: all defined, yet 3073 is not twice 1536 and 6144 is not
twice 3073.  Row 3 of the same table continues 1536 with 3072 and 6144. -/
theorem table_format_1_row_5_not_doubling :
    quadlets_per_packet_format_1.getD (8 * 5 + 5) 0 = 1536 ∧
    quadlets_per_packet_format_1.getD (8 * 5 + 6) 0 = 3073 ∧
    quadlets_per_packet_format_1.getD (8 * 5 + 7) 0 = 6144 ∧
    quadlets_per_packet_format_1.getD (8 * 5 + 6) 0
      ≠ 2 * quadlets_per_packet_format_1.getD (8 * 5 + 5) 0 ∧
    quadlets_per_packet_format_1.getD (8 * 5 + 7) 0
      ≠ 2 * quadlets_per_packet_format_1.getD (8 * 5 + 6) 0 ∧
    quadlets_per_packet_format_1.getD (8 * 3 + 4) 0 = 1536 ∧
    quadlets_per_packet_format_1.getD (8 * 3 + 5) 0 = 3072 ∧
    quadlets_per_packet_format_1.getD (8 * 3 + 6) 0 = 6144 := by
  decide

/-! ## `dc1394_deinterlace_stereo` -/

theorem deinterlace_stereo_loop_spec (src : Int → Nat) :
    ∀ (t fuel : Nat) (i j k : Int) (dest : Int → Nat),
      i = 2 * (t : Int) - 1 → t ≤ fuel → j + t ≤ k →
      ∀ x : Int, deinterlace_stereo_loop src fuel i j k dest x
        = if k - t < x ∧ x ≤ k then src (i - 2 * (k - x))
          else if j - t < x ∧ x ≤ j then src (i - 1 - 2 * (j - x))
          else dest x := by
  intro t
  induction t with
  | zero =>
    intro fuel i j k dest hi _ _ x
    have hneg : ¬ i ≥ 0 := by omega
    have h1 : ¬ (k - ((0 : Nat) : Int) < x ∧ x ≤ k) := by omega
    have h2 : ¬ (j - ((0 : Nat) : Int) < x ∧ x ≤ j) := by omega
    rw [if_neg h1, if_neg h2]
    cases fuel with
    | zero => rfl
    | succ f => simp only [deinterlace_stereo_loop, if_neg hneg]
  | succ t ih =>
    intro fuel i j k dest hi hfuel hjk x
    cases fuel with
    | zero => omega
    | succ f =>
      have hpos : i ≥ 0 := by omega
      simp only [deinterlace_stereo_loop, if_pos hpos]
      rw [ih f (i - 1 - 1) (j - 1) (k - 1) _ (by omega) (by omega) (by omega) x]
      simp only [Function.update_apply]
      by_cases hk : x = k
      · subst hk
        have a1 : ¬ (x - 1 - (t : Int) < x ∧ x ≤ x - 1) := by omega
        have a2 : ¬ (j - 1 - (t : Int) < x ∧ x ≤ j - 1) := by omega
        have a3 : ¬ x = j := by omega
        have a4 : x - ((t + 1 : Nat) : Int) < x ∧ x ≤ x := by omega
        rw [if_neg a1, if_neg a2, if_neg a3, if_pos rfl, if_pos a4]
        exact congrArg src (by omega)
      · by_cases hj : x = j
        · subst hj
          have a1 : ¬ (k - 1 - (t : Int) < x ∧ x ≤ k - 1) := by omega
          have a2 : ¬ (x - 1 - (t : Int) < x ∧ x ≤ x - 1) := by omega
          have a4 : ¬ (k - ((t + 1 : Nat) : Int) < x ∧ x ≤ k) := by omega
          have a5 : x - ((t + 1 : Nat) : Int) < x ∧ x ≤ x := by omega
          rw [if_neg a1, if_neg a2, if_pos rfl, if_neg a4, if_pos a5]
          exact congrArg src (by omega)
        · by_cases hK : k - 1 - (t : Int) < x ∧ x ≤ k - 1
          · have a4 : k - ((t + 1 : Nat) : Int) < x ∧ x ≤ k := by omega
            rw [if_pos hK, if_pos a4]
            exact congrArg src (by omega)
          · have a4 : ¬ (k - ((t + 1 : Nat) : Int) < x ∧ x ≤ k) := by omega
            rw [if_neg hK, if_neg a4]
            by_cases hJ : j - 1 - (t : Int) < x ∧ x ≤ j - 1
            · have a5 : j - ((t + 1 : Nat) : Int) < x ∧ x ≤ j := by omega
              rw [if_pos hJ, if_pos a5]
              exact congrArg src (by omega)
            · have a5 : ¬ (j - ((t + 1 : Nat) : Int) < x ∧ x ≤ j) := by omega
              rw [if_neg hJ, if_neg a5, if_neg hj, if_neg hk]

theorem to_int_uint64_sub_one (n : Nat) (h : n ≤ 2147483648) :
    to_int (uint64_sub n 1) = (n : Int) - 1 := by
  unfold to_int uint64_sub
  split_ifs <;> omega

theorem interleave_perm (f : Nat → Nat) (h : Nat) :
    ((List.range (2 * h)).map f).Perm
      ((List.range h).map (fun m => f (2 * m)) ++ (List.range h).map (fun m => f (2 * m + 1))) := by
  induction h with
  | zero => simp
  | succ h ih =>
    have e : 2 * (h + 1) = (2 * h + 1) + 1 := by ring
    rw [e]
    simp only [List.range_succ, List.map_append, List.map_cons, List.map_nil]
    rw [← Multiset.coe_eq_coe] at ih ⊢
    simp only [← Multiset.coe_add] at ih ⊢
    rw [ih]
    abel

/-- What `dc1394_deinterlace_stereo` leaves in `dest` for an even byte count that
fits the `int` counters. -/
theorem deinterlace_stereo_result (src dest : Int → Nat) (N : Nat)
    (heven : N % 2 = 0) (hN : N ≤ 2147483648) (x : Int) :
    dc1394_deinterlace_stereo src dest N x
      = if ((N / 2 : Nat) : Int) ≤ x ∧ x < N then src (2 * (x - (N / 2 : Nat)) + 1)
        else if 0 ≤ x ∧ x < (N / 2 : Nat) then src (2 * x)
        else dest x := by
  have hi : to_int (uint64_sub N 1) = (N : Int) - 1 := to_int_uint64_sub_one N hN
  have hj : to_int (uint64_sub (N >>> 1) 1) = ((N / 2 : Nat) : Int) - 1 := by
    rw [Nat.shiftRight_eq_div_pow, Nat.pow_one]
    exact to_int_uint64_sub_one (N / 2) (by omega)
  have hfuel : ((N : Int) - 1 + 1).toNat = N := by omega
  simp only [dc1394_deinterlace_stereo, hi, hj, hfuel]
  rw [deinterlace_stereo_loop_spec src (N / 2) N _ _ _ dest (by omega) (by omega) (by omega) x]
  by_cases h1 : ((N / 2 : Nat) : Int) ≤ x ∧ x < N
  · have a : (N : Int) - 1 - ((N / 2 : Nat) : Int) < x ∧ x ≤ (N : Int) - 1 := by omega
    rw [if_pos h1, if_pos a]
    exact congrArg src (by omega)
  · have a : ¬ ((N : Int) - 1 - ((N / 2 : Nat) : Int) < x ∧ x ≤ (N : Int) - 1) := by omega
    rw [if_neg h1, if_neg a]
    by_cases h2 : 0 ≤ x ∧ x < ((N / 2 : Nat) : Int)
    · have b : ((N / 2 : Nat) : Int) - 1 - ((N / 2 : Nat) : Int) < x
          ∧ x ≤ ((N / 2 : Nat) : Int) - 1 := by omega
      rw [if_pos h2, if_pos b]
      exact congrArg src (by omega)
    · have b : ¬ (((N / 2 : Nat) : Int) - 1 - ((N / 2 : Nat) : Int) < x
          ∧ x ≤ ((N / 2 : Nat) : Int) - 1) := by omega
      rw [if_neg h2, if_neg b]

/-- C15 (as the code has it): for every even byte count `N` up to `2^31` (the range
of the `int` counters) and every source buffer, `dc1394_deinterlace_stereo` produces
two stacked images: `dest[m] = src[2m]` and `dest[N/2 + m] = src[2m+1]` for every
`m < N/2`, and the `N` output bytes are a permutation of the `N` input bytes. -/
theorem deinterlace_stereo_even (src dest : Int → Nat) (N : Nat)
    (heven : N % 2 = 0) (hN : N ≤ 2147483648) :
    (∀ m : Nat, m < N / 2 →
      dc1394_deinterlace_stereo src dest N (m : Int) = src (2 * (m : Int)) ∧
      dc1394_deinterlace_stereo src dest N ((N / 2 + m : Nat) : Int) = src (2 * (m : Int) + 1)) ∧
    ((List.range N).map (fun n : Nat => dc1394_deinterlace_stereo src dest N (n : Int))).Perm
      ((List.range N).map (fun n : Nat => src (n : Int))) := by
  have hlow : ∀ m : Nat, m < N / 2 →
      dc1394_deinterlace_stereo src dest N (m : Int) = src (2 * (m : Int)) := by
    intro m hm
    rw [deinterlace_stereo_result src dest N heven hN]
    have a : ¬ (((N / 2 : Nat) : Int) ≤ (m : Int) ∧ (m : Int) < N) := by omega
    have b : (0 : Int) ≤ (m : Int) ∧ (m : Int) < ((N / 2 : Nat) : Int) := by omega
    rw [if_neg a, if_pos b]
  have hhigh : ∀ m : Nat, m < N / 2 →
      dc1394_deinterlace_stereo src dest N ((N / 2 + m : Nat) : Int)
        = src (2 * (m : Int) + 1) := by
    intro m hm
    rw [deinterlace_stereo_result src dest N heven hN]
    have a : ((N / 2 : Nat) : Int) ≤ ((N / 2 + m : Nat) : Int)
        ∧ ((N / 2 + m : Nat) : Int) < N := by omega
    rw [if_pos a]
    exact congrArg src (by omega)
  refine ⟨fun m hm => ⟨hlow m hm, hhigh m hm⟩, ?_⟩
  generalize dc1394_deinterlace_stereo src dest N = out at hlow hhigh ⊢
  have hsplit : N / 2 + N / 2 = N := by omega
  have hr : List.range N
      = List.range (N / 2) ++ (List.range (N / 2)).map (fun m => N / 2 + m) := by
    have h := List.range_add (N / 2) (N / 2)
    rw [hsplit] at h
    exact h
  have hA : (List.range (N / 2)).map (fun n : Nat => out (n : Int))
      = (List.range (N / 2)).map (fun m : Nat => src ((2 * m : Nat) : Int)) := by
    apply List.map_congr_left
    intro m hm
    show out (m : Int) = src ((2 * m : Nat) : Int)
    rw [hlow m (List.mem_range.mp hm)]
    exact congrArg src (by omega)
  have hB : (List.range (N / 2)).map (fun m : Nat => out ((N / 2 + m : Nat) : Int))
      = (List.range (N / 2)).map (fun m : Nat => src ((2 * m + 1 : Nat) : Int)) := by
    apply List.map_congr_left
    intro m hm
    show out ((N / 2 + m : Nat) : Int) = src ((2 * m + 1 : Nat) : Int)
    rw [hhigh m (List.mem_range.mp hm)]
    exact congrArg src (by omega)
  have hout : (List.range N).map (fun n : Nat => out (n : Int))
      = (List.range (N / 2)).map (fun m : Nat => src ((2 * m : Nat) : Int))
        ++ (List.range (N / 2)).map (fun m : Nat => src ((2 * m + 1 : Nat) : Int)) := by
    rw [hr, List.map_append, List.map_map, hA]
    exact congrArg _ hB
  have hin : (List.range N).map (fun n : Nat => src (n : Int))
      = (List.range (2 * (N / 2))).map (fun n : Nat => src (n : Int)) := by
    have h2 : 2 * (N / 2) = N := by omega
    rw [h2]
  rw [hout, hin]
  exact (interleave_perm (fun n : Nat => src (n : Int)) (N / 2)).symm

/-- C15, witness: with eight bytes 10..17 in `src`, `dest[1]` is `src[2]`,
`dest[4 + 1]` is `src[3]`, and the output is a permutation of the input. -/
theorem deinterlace_stereo_even_witness :
    (dc1394_deinterlace_stereo (fun i => (10 + i).toNat) (fun _ => 0) 8 ((1 : Nat) : Int)
        = (fun i : Int => (10 + i).toNat) (2 * ((1 : Nat) : Int)) ∧
      dc1394_deinterlace_stereo (fun i => (10 + i).toNat) (fun _ => 0) 8 ((8 / 2 + 1 : Nat) : Int)
        = (fun i : Int => (10 + i).toNat) (2 * ((1 : Nat) : Int) + 1)) ∧
    ((List.range 8).map
        (fun n : Nat => dc1394_deinterlace_stereo (fun i => (10 + i).toNat) (fun _ => 0) 8 (n : Int))).Perm
      ((List.range 8).map (fun n : Nat => (fun i : Int => (10 + i).toNat) (n : Int))) :=
  ⟨(deinterlace_stereo_even (fun i => (10 + i).toNat) (fun _ => 0) 8 (by decide) (by decide)).1
      1 (by decide),
   (deinterlace_stereo_even (fun i => (10 + i).toNat) (fun _ => 0) 8 (by decide) (by decide)).2⟩

/-- C15, counterexample: for the even byte count `N = 2^31 + 2` the counter `i`
starts negative, the loop body never runs and `dest` is left as it was, so
`dest[0]` is not `src[0]`. -/
theorem deinterlace_stereo_counterexample :
    (2147483650 : Nat) % 2 = 0 ∧
    dc1394_deinterlace_stereo (fun _ => 1) (fun _ => 0) 2147483650 0 = 0 ∧
    dc1394_deinterlace_stereo (fun _ => 1) (fun _ => 0) 2147483650 0
      ≠ (fun _ : Int => (1 : Nat)) (2 * 0) := by
  decide

/-! ## `dc1394_video_set_iso_channel`: the code of a speed violation -/

theorem first_empty_not_checked_out : ∀ (l : List Slot) (i : Nat),
    first_empty l = some i → ∃ s, l[i]? = some s ∧ s.checked_out = false := by
  intro l
  induction l with
  | nil => intro i h; simp [first_empty] at h
  | cons a rest ih =>
    intro i h
    unfold first_empty at h
    by_cases ha : a.state = SlotState.EMPTY ∧ a.checked_out = false
    · rw [if_pos ha] at h
      cases h
      exact ⟨a, by simp, ha.2⟩
    · rw [if_neg ha] at h
      cases hr : first_empty rest with
      | none => rw [hr] at h; simp at h
      | some k =>
        rw [hr] at h
        simp only [Option.map_some', Option.some.injEq] at h
        subst h
        obtain ⟨s, hs, hc⟩ := ih k hr
        exact ⟨s, by simpa using hs, hc⟩

theorem oldest_filled_available : ∀ (l : List Slot) (i t : Nat),
    oldest_filled l = some (i, t) →
    ∃ s, l[i]? = some s ∧ s.state = SlotState.FILLED ∧ s.checked_out = false := by
  intro l
  induction l with
  | nil => intro i t h; simp [oldest_filled] at h
  | cons a rest ih =>
    intro i t h
    unfold oldest_filled at h
    cases hr : oldest_filled rest with
    | none =>
      rw [hr] at h
      simp only at h
      by_cases ha : a.state = SlotState.FILLED ∧ a.checked_out = false
      · rw [if_pos ha] at h
        cases h
        exact ⟨a, by simp, ha.1, ha.2⟩
      · rw [if_neg ha] at h
        cases h
    | some p =>
      obtain ⟨k, q⟩ := p
      rw [hr] at h
      simp only at h
      by_cases ha : a.state = SlotState.FILLED ∧ a.checked_out = false ∧ a.filltime ≤ q
      · rw [if_pos ha] at h
        cases h
        exact ⟨a, by simp, ha.1, ha.2.1⟩
      · rw [if_neg ha] at h
        cases h
        obtain ⟨s, hs, hf, hc⟩ := ih k t hr
        exact ⟨s, by simpa using hs, hf, hc⟩

theorem oldest_filled_none : ∀ (l : List Slot),
    (∀ s ∈ l, ¬ (s.state = SlotState.FILLED ∧ s.checked_out = false)) →
    oldest_filled l = none := by
  intro l
  induction l with
  | nil => intro _; rfl
  | cons a rest ih =>
    intro h
    have hrest := ih (fun s hs => h s (List.mem_cons_of_mem a hs))
    have ha := h a (List.mem_cons_self a rest)
    unfold oldest_filled
    rw [hrest]
    simp only
    rw [if_neg ha]

theorem modify_keeps_checked_out (l : List Slot) (f : Slot → Slot) (i j : Nat) (s t : Slot)
    (hi : l[i]? = some t) (ht : t.checked_out = false)
    (hj : l[j]? = some s) (hs : s.checked_out = true) :
    (l.modify f i)[j]? = some s := by
  have hne : i ≠ j := by
    intro h
    subst h
    rw [hi] at hj
    cases hj
    rw [ht] at hs
    exact Bool.noConfusion hs
  rw [List.getElem?_modify_ne f l hne]
  exact hj

theorem frame_completed_length (r : CaptureRing) (frame : Nat) :
    (frame_completed r frame).slots.length = r.slots.length := by
  unfold frame_completed
  cases first_empty r.slots with
  | some i => simp
  | none =>
    simp only
    by_cases hd : r.drop_frames = true
    · rw [if_pos hd]
      cases oldest_filled r.slots with
      | none => rfl
      | some p => obtain ⟨i, t⟩ := p; simp
    · rw [if_neg hd]

theorem capture_length (r : CaptureRing) (policy : dc1394videopolicy_t) :
    (dc1394_dma_capture r policy).2.slots.length = r.slots.length := by
  unfold dc1394_dma_capture
  cases oldest_filled r.slots with
  | none => cases policy <;> rfl
  | some p => obtain ⟨i, t⟩ := p; simp

theorem done_with_buffer_length (r : CaptureRing) (slot : Nat) :
    (dc1394_dma_done_with_buffer r slot).slots.length = r.slots.length := by
  unfold dc1394_dma_done_with_buffer
  cases r.slots[slot]? with
  | none => rfl
  | some s =>
    simp only
    by_cases hc : s.checked_out = true
    · rw [if_pos hc]; simp
    · rw [if_neg hc]

theorem ring_step_length (r : CaptureRing) (e : RingEvent) :
    (ring_step r e).slots.length = r.slots.length := by
  cases e with
  | frame_completed frame => exact frame_completed_length r frame
  | capture policy => exact capture_length r policy
  | done_with_buffer slot => exact done_with_buffer_length r slot

theorem ring_run_length (events : List RingEvent) : ∀ r : CaptureRing,
    (ring_run r events).slots.length = r.slots.length := by
  induction events with
  | nil => intro r; rfl
  | cons e rest ih =>
    intro r
    show (ring_run (ring_step r e) rest).slots.length = r.slots.length
    rw [ih, ring_step_length]

theorem frame_completed_keeps (r : CaptureRing) (frame j : Nat) (s : Slot)
    (hj : r.slots[j]? = some s) (hs : s.checked_out = true) :
    (frame_completed r frame).slots[j]? = some s := by
  unfold frame_completed
  cases he : first_empty r.slots with
  | some i =>
    obtain ⟨t, hi, ht⟩ := first_empty_not_checked_out r.slots i he
    exact modify_keeps_checked_out r.slots _ i j s t hi ht hj hs
  | none =>
    simp only
    by_cases hd : r.drop_frames = true
    · rw [if_pos hd]
      cases ho : oldest_filled r.slots with
      | none => exact hj
      | some p =>
        obtain ⟨i, q⟩ := p
        obtain ⟨t, hi, _, ht⟩ := oldest_filled_available r.slots i q ho
        exact modify_keeps_checked_out r.slots _ i j s t hi ht hj hs
    · rw [if_neg hd]
      exact hj

theorem capture_keeps (r : CaptureRing) (policy : dc1394videopolicy_t) (j : Nat) (s : Slot)
    (hj : r.slots[j]? = some s) (hs : s.checked_out = true) :
    (dc1394_dma_capture r policy).2.slots[j]? = some s := by
  unfold dc1394_dma_capture
  cases ho : oldest_filled r.slots with
  | none => cases policy <;> exact hj
  | some p =>
    obtain ⟨i, q⟩ := p
    obtain ⟨t, hi, _, ht⟩ := oldest_filled_available r.slots i q ho
    exact modify_keeps_checked_out r.slots _ i j s t hi ht hj hs

theorem done_with_buffer_keeps (r : CaptureRing) (slot j : Nat) (s : Slot)
    (hne : slot ≠ j) (hj : r.slots[j]? = some s) :
    (dc1394_dma_done_with_buffer r slot).slots[j]? = some s := by
  unfold dc1394_dma_done_with_buffer
  cases r.slots[slot]? with
  | none => exact hj
  | some t =>
    simp only
    by_cases hc : t.checked_out = true
    · rw [if_pos hc]
      simp only
      rw [List.getElem?_modify_ne _ _ hne]
      exact hj
    · rw [if_neg hc]
      exact hj

theorem ring_step_keeps (r : CaptureRing) (e : RingEvent) (j : Nat) (s : Slot)
    (he : e ≠ RingEvent.done_with_buffer j)
    (hj : r.slots[j]? = some s) (hs : s.checked_out = true) :
    (ring_step r e).slots[j]? = some s := by
  cases e with
  | frame_completed frame => exact frame_completed_keeps r frame j s hj hs
  | capture policy => exact capture_keeps r policy j s hj hs
  | done_with_buffer slot =>
    have hne : slot ≠ j := fun h => he (by rw [h])
    exact done_with_buffer_keeps r slot j s hne hj

theorem ring_run_keeps (events : List RingEvent) : ∀ (r : CaptureRing) (j : Nat) (s : Slot),
    (∀ e ∈ events, e ≠ RingEvent.done_with_buffer j) →
    r.slots[j]? = some s → s.checked_out = true →
    (ring_run r events).slots[j]? = some s := by
  induction events with
  | nil => intro r j s _ hj _; exact hj
  | cons e rest ih =>
    intro r j s he hj hs
    show (ring_run (ring_step r e) rest).slots[j]? = some s
    exact ih (ring_step r e) j s (fun x hx => he x (List.mem_cons_of_mem e hx))
      (ring_step_keeps r e j s (he e (List.mem_cons_self e rest)) hj hs) hs

theorem held_filled_counts (l : List Slot)
    (h : ∀ s ∈ l, s.checked_out = true → s.state = SlotState.FILLED) :
    l.countP (fun s => s.checked_out)
      + l.countP (fun s => decide (s.state = SlotState.FILLED) && !s.checked_out)
      = l.countP (fun s => decide (s.state = SlotState.FILLED)) := by
  induction l with
  | nil => simp
  | cons a rest ih =>
    have hr := ih (fun s hs => h s (List.mem_cons_of_mem a hs))
    have ha := h a (List.mem_cons_self a rest)
    rw [List.countP_cons, List.countP_cons, List.countP_cons]
    cases hc : a.checked_out with
    | true =>
      have hf : a.state = SlotState.FILLED := ha hc
      simp [hf]
      omega
    | false =>
      by_cases hf : a.state = SlotState.FILLED <;> simp [hf] <;> omega

theorem modify_held_filled (l : List Slot) (f : Slot → Slot) (i : Nat)
    (h : ∀ s ∈ l, s.checked_out = true → s.state = SlotState.FILLED)
    (hf : ∀ s, l[i]? = some s → (f s).checked_out = true → (f s).state = SlotState.FILLED) :
    ∀ s ∈ l.modify f i, s.checked_out = true → s.state = SlotState.FILLED := by
  intro s hs
  obtain ⟨j, hj⟩ := List.mem_iff_getElem?.mp hs
  by_cases hij : i = j
  · subst hij
    rw [List.getElem?_modify_eq] at hj
    cases hl : l[i]? with
    | none => rw [hl] at hj; simp at hj
    | some t =>
      rw [hl] at hj
      have e : f t = s := by simpa using hj
      subst e
      exact hf t hl
  · rw [List.getElem?_modify_ne f l hij] at hj
    exact h s (List.mem_iff_getElem?.mpr ⟨j, hj⟩)

theorem frame_completed_held_filled (r : CaptureRing) (frame : Nat)
    (h : ∀ s ∈ r.slots, s.checked_out = true → s.state = SlotState.FILLED) :
    ∀ s ∈ (frame_completed r frame).slots, s.checked_out = true → s.state = SlotState.FILLED := by
  unfold frame_completed
  cases first_empty r.slots with
  | some i => exact modify_held_filled r.slots _ i h (fun _ _ _ => rfl)
  | none =>
    simp only
    by_cases hd : r.drop_frames = true
    · rw [if_pos hd]
      cases oldest_filled r.slots with
      | none => exact h
      | some p =>
        obtain ⟨i, q⟩ := p
        exact modify_held_filled r.slots _ i h (fun _ _ _ => rfl)
    · rw [if_neg hd]
      exact h

theorem capture_held_filled (r : CaptureRing) (policy : dc1394videopolicy_t)
    (h : ∀ s ∈ r.slots, s.checked_out = true → s.state = SlotState.FILLED) :
    ∀ s ∈ (dc1394_dma_capture r policy).2.slots,
      s.checked_out = true → s.state = SlotState.FILLED := by
  unfold dc1394_dma_capture
  cases ho : oldest_filled r.slots with
  | none => cases policy <;> exact h
  | some p =>
    obtain ⟨i, q⟩ := p
    obtain ⟨t, hi, hfilled, _⟩ := oldest_filled_available r.slots i q ho
    refine modify_held_filled r.slots check_out i h (fun s hs _ => ?_)
    rw [hi] at hs
    cases hs
    exact hfilled

theorem done_with_buffer_held_filled (r : CaptureRing) (slot : Nat)
    (h : ∀ s ∈ r.slots, s.checked_out = true → s.state = SlotState.FILLED) :
    ∀ s ∈ (dc1394_dma_done_with_buffer r slot).slots,
      s.checked_out = true → s.state = SlotState.FILLED := by
  unfold dc1394_dma_done_with_buffer
  cases r.slots[slot]? with
  | none => exact h
  | some t =>
    by_cases hc : t.checked_out = true
    · simp only [if_pos hc]
      exact modify_held_filled r.slots release_slot slot h
        (fun s _ hco => absurd hco (by simp [release_slot]))
    · simp only [if_neg hc]
      exact h

theorem ring_step_held_filled (r : CaptureRing) (e : RingEvent)
    (h : ∀ s ∈ r.slots, s.checked_out = true → s.state = SlotState.FILLED) :
    ∀ s ∈ (ring_step r e).slots, s.checked_out = true → s.state = SlotState.FILLED := by
  cases e with
  | frame_completed frame => exact frame_completed_held_filled r frame h
  | capture policy => exact capture_held_filled r policy h
  | done_with_buffer slot => exact done_with_buffer_held_filled r slot h

theorem ring_run_held_filled (events : List RingEvent) : ∀ r : CaptureRing,
    (∀ s ∈ r.slots, s.checked_out = true → s.state = SlotState.FILLED) →
    ∀ s ∈ (ring_run r events).slots, s.checked_out = true → s.state = SlotState.FILLED := by
  induction events with
  | nil => intro r h; exact h
  | cons e rest ih =>
    intro r h
    show ∀ s ∈ (ring_run (ring_step r e) rest).slots,
      s.checked_out = true → s.state = SlotState.FILLED
    exact ih (ring_step r e) (ring_step_held_filled r e h)

/-- C16 (over the ring described by the specification): for every sequence of frame
completions, capture calls and `done_with_buffer` calls against a ring of capacity
`C`, whatever its drop-frame flag, in which the slots held by the application are
FILLED at the start (as in a freshly set up ring): the ring keeps its `C` slots;
every checked-out slot is FILLED; the checked-out slots and the FILLED slots not yet
handed out are together exactly the FILLED slots, whose number never exceeds `C`;
and a slot held by the application stays exactly as it is until `done_with_buffer`
is called for it. -/
theorem ring_invariant (r : CaptureRing) (events : List RingEvent)
    (hinit : ∀ s ∈ r.slots, s.checked_out = true → s.state = SlotState.FILLED) :
    (ring_run r events).slots.length = r.slots.length ∧
    (∀ s ∈ (ring_run r events).slots, s.checked_out = true → s.state = SlotState.FILLED) ∧
    checked_out_count (ring_run r events) + available_count (ring_run r events)
      = filled_count (ring_run r events) ∧
    filled_count (ring_run r events) ≤ r.slots.length ∧
    (∀ (j : Nat) (s : Slot), r.slots[j]? = some s → s.checked_out = true →
      (∀ e ∈ events, e ≠ RingEvent.done_with_buffer j) →
      (ring_run r events).slots[j]? = some s) := by
  refine ⟨ring_run_length events r, ring_run_held_filled events r hinit,
    held_filled_counts _ (ring_run_held_filled events r hinit), ?_,
    fun j s hj hs he => ring_run_keeps events r j s he hj hs⟩
  have h := List.countP_le_length (fun s : Slot => decide (s.state = SlotState.FILLED))
    (l := (ring_run r events).slots)
  rw [ring_run_length events r] at h
  exact h

/-- C16, counterexample: a ring of capacity 1 after one frame completion and one
capture call: its only slot is checked out and still FILLED, so the number of
checked-out slots plus the number of FILLED slots is 2. -/
theorem ring_invariant_counterexample :
    (setup_capture 1 true).slots.length = 1 ∧
    checked_out_count (ring_run (setup_capture 1 true)
      [RingEvent.frame_completed 7, RingEvent.capture dc1394videopolicy_t.VIDEO1394_POLL]) = 1 ∧
    filled_count (ring_run (setup_capture 1 true)
      [RingEvent.frame_completed 7, RingEvent.capture dc1394videopolicy_t.VIDEO1394_POLL]) = 1 ∧
    ¬ (checked_out_count (ring_run (setup_capture 1 true)
          [RingEvent.frame_completed 7, RingEvent.capture dc1394videopolicy_t.VIDEO1394_POLL])
        + filled_count (ring_run (setup_capture 1 true)
          [RingEvent.frame_completed 7, RingEvent.capture dc1394videopolicy_t.VIDEO1394_POLL])
        ≤ 1) := by
  decide

/-- C17 (over the ring described by the specification): a capture call under the POLL
policy on a ring with no FILLED slot left to hand out returns the informational
`DC1394_NO_FRAME` at once (it does not suspend the caller) and leaves the ring, every
slot state included, as it was. -/
theorem capture_poll_no_frame (r : CaptureRing)
    (h : ∀ s ∈ r.slots, ¬ (s.state = SlotState.FILLED ∧ s.checked_out = false)) :
    dc1394_dma_capture r dc1394videopolicy_t.VIDEO1394_POLL
      = (CaptureOutcome.returned DC1394_NO_FRAME none, r) := by
  unfold dc1394_dma_capture
  rw [oldest_filled_none r.slots h]

/-- C16, witness: a ring of two slots, slot 0 held by the application, through
three frame completions, a capture and the return of slot 1. -/
theorem ring_invariant_witness :
    checked_out_count (ring_run
        ⟨[⟨SlotState.FILLED, true, 1, 0⟩, ⟨SlotState.FILLED, false, 2, 1⟩], true, 2, 0⟩
        [RingEvent.frame_completed 3, RingEvent.frame_completed 4,
          RingEvent.capture dc1394videopolicy_t.VIDEO1394_POLL,
          RingEvent.frame_completed 5, RingEvent.done_with_buffer 1])
      + available_count (ring_run
        ⟨[⟨SlotState.FILLED, true, 1, 0⟩, ⟨SlotState.FILLED, false, 2, 1⟩], true, 2, 0⟩
        [RingEvent.frame_completed 3, RingEvent.frame_completed 4,
          RingEvent.capture dc1394videopolicy_t.VIDEO1394_POLL,
          RingEvent.frame_completed 5, RingEvent.done_with_buffer 1])
      = filled_count (ring_run
        ⟨[⟨SlotState.FILLED, true, 1, 0⟩, ⟨SlotState.FILLED, false, 2, 1⟩], true, 2, 0⟩
        [RingEvent.frame_completed 3, RingEvent.frame_completed 4,
          RingEvent.capture dc1394videopolicy_t.VIDEO1394_POLL,
          RingEvent.frame_completed 5, RingEvent.done_with_buffer 1]) ∧
    (ring_run
        ⟨[⟨SlotState.FILLED, true, 1, 0⟩, ⟨SlotState.FILLED, false, 2, 1⟩], true, 2, 0⟩
        [RingEvent.frame_completed 3, RingEvent.frame_completed 4,
          RingEvent.capture dc1394videopolicy_t.VIDEO1394_POLL,
          RingEvent.frame_completed 5, RingEvent.done_with_buffer 1]).slots[0]?
      = some ⟨SlotState.FILLED, true, 1, 0⟩ :=
  ⟨(ring_invariant
      ⟨[⟨SlotState.FILLED, true, 1, 0⟩, ⟨SlotState.FILLED, false, 2, 1⟩], true, 2, 0⟩
      [RingEvent.frame_completed 3, RingEvent.frame_completed 4,
        RingEvent.capture dc1394videopolicy_t.VIDEO1394_POLL,
        RingEvent.frame_completed 5, RingEvent.done_with_buffer 1] (by decide)).2.2.1,
   (ring_invariant
      ⟨[⟨SlotState.FILLED, true, 1, 0⟩, ⟨SlotState.FILLED, false, 2, 1⟩], true, 2, 0⟩
      [RingEvent.frame_completed 3, RingEvent.frame_completed 4,
        RingEvent.capture dc1394videopolicy_t.VIDEO1394_POLL,
        RingEvent.frame_completed 5, RingEvent.done_with_buffer 1] (by decide)).2.2.2.2
      0 ⟨SlotState.FILLED, true, 1, 0⟩ (by decide) (by decide) (by decide)⟩

/-- C17, witness: a freshly set up ring of four slots, polled before any frame
has arrived. -/
theorem capture_poll_no_frame_witness :
    dc1394_dma_capture (setup_capture 4 true) dc1394videopolicy_t.VIDEO1394_POLL
      = (CaptureOutcome.returned DC1394_NO_FRAME none, setup_capture 4 true) :=
  capture_poll_no_frame (setup_capture 4 true) (by decide)

/-! ## Feature values -/

/-- The complete result of a call all of whose four transactions succeed, in the
1394b branch. -/
theorem set_iso_channel_1394b_result (E : ErrorCodes) (c : SimCamera) (channel : Nat)
    (hN : 0 < E.DC1394_ERROR_NUM)
    (h0 : c.outcomes.getD 0 DC1394_SUCCESS = DC1394_SUCCESS)
    (h1 : c.outcomes.getD 1 DC1394_SUCCESS = DC1394_SUCCESS)
    (h2 : c.outcomes.getD 2 DC1394_SUCCESS = DC1394_SUCCESS)
    (h3 : c.outcomes.getD 3 DC1394_SUCCESS = DC1394_SUCCESS)
    (hb : c.basic_func_inq &&& 0x00800000 ≠ 0 ∧ c.iso_data &&& 0x00008000 ≠ 0) :
    dc1394_video_set_iso_channel E sim_registers c channel
      = (DC1394_SUCCESS,
          { basic_func_inq := c.basic_func_inq,
            iso_data := ((channel &&& 0x3F) <<< 8) ||| (c.iso_data &&& 0x7) ||| 0x8000,
            outcomes := c.outcomes.tail.tail.tail.tail,
            trace := c.trace ++ [Transaction.read Register.REG_CAMERA_BASIC_FUNC_INQ] ++
              [Transaction.read Register.REG_CAMERA_ISO_DATA] ++
              [Transaction.read Register.REG_CAMERA_ISO_DATA] ++
              [Transaction.write Register.REG_CAMERA_ISO_DATA
                (((channel &&& 0x3F) <<< 8) ||| (c.iso_data &&& 0x7) ||| 0x8000)] }) := by
  have hx : (((channel &&& 0x3F) <<< 8) ||| ((c.iso_data &&& 0x7) &&& 0x7) ||| (0x1 <<< 15))
      % 4294967296 = ((channel &&& 0x3F) <<< 8) ||| (c.iso_data &&& 0x7) ||| 0x8000 := by
    rw [and_and_self, show (0x1 <<< 15 : Nat) = 0x8000 from rfl]
    exact Nat.mod_eq_of_lt (iso_1394b_lt channel c.iso_data)
  rw [set_iso_channel_1394b_path E c channel hN h0 h1 h2 hb, hx]
  simp only [h3, DC1394_ERR_RTN_success E hN, if_true]

/-- The complete result of a call all of whose four transactions succeed, in the
legacy branch with a legal speed. -/
theorem set_iso_channel_legacy_result (E : ErrorCodes) (c : SimCamera) (channel : Nat)
    (hN : 0 < E.DC1394_ERROR_NUM)
    (h0 : c.outcomes.getD 0 DC1394_SUCCESS = DC1394_SUCCESS)
    (h1 : c.outcomes.getD 1 DC1394_SUCCESS = DC1394_SUCCESS)
    (h2 : c.outcomes.getD 2 DC1394_SUCCESS = DC1394_SUCCESS)
    (h3 : c.outcomes.getD 3 DC1394_SUCCESS = DC1394_SUCCESS)
    (hb : ¬ (c.basic_func_inq &&& 0x00800000 ≠ 0 ∧ c.iso_data &&& 0x00008000 ≠ 0))
    (hs : (c.iso_data >>> 24) &&& 0x3 ≤ 2) :
    dc1394_video_set_iso_channel E sim_registers c channel
      = (DC1394_SUCCESS,
          { basic_func_inq := c.basic_func_inq,
            iso_data := ((channel &&& 0xF) <<< 28) ||| (((c.iso_data >>> 24) &&& 0x3) <<< 24),
            outcomes := c.outcomes.tail.tail.tail.tail,
            trace := c.trace ++ [Transaction.read Register.REG_CAMERA_BASIC_FUNC_INQ] ++
              [Transaction.read Register.REG_CAMERA_ISO_DATA] ++
              [Transaction.read Register.REG_CAMERA_ISO_DATA] ++
              [Transaction.write Register.REG_CAMERA_ISO_DATA
                (((channel &&& 0xF) <<< 28) ||| (((c.iso_data >>> 24) &&& 0x3) <<< 24))] }) := by
  have hx : (((channel &&& 0xF) <<< 28) ||| ((((c.iso_data >>> 24) &&& 0x3) &&& 0x3) <<< 24))
      % 4294967296 = ((channel &&& 0xF) <<< 28) ||| (((c.iso_data >>> 24) &&& 0x3) <<< 24) := by
    rw [and_and_self]
    exact Nat.mod_eq_of_lt (iso_legacy_lt channel c.iso_data)
  rw [set_iso_channel_legacy_path E c channel hN h0 h1 h2 hb hs, hx]
  simp only [h3, DC1394_ERR_RTN_success E hN, if_true]

theorem and_mask_mod (x k : Nat) : (x % 2 ^ k) &&& (2 ^ k - 1) = x &&& (2 ^ k - 1) := by
  rw [Nat.and_pow_two_sub_one_eq_mod, Nat.and_pow_two_sub_one_eq_mod, Nat.mod_mod]

/-- The quadlet written in the 1394b branch has the 1394b flag set. -/
theorem iso_1394b_flag (channel v : Nat) :
    (((channel &&& 0x3F) <<< 8) ||| (v &&& 0x7) ||| 0x8000) &&& 0x00008000 ≠ 0 := by
  have h := (and_two_pow_pos_iff (((channel &&& 0x3F) <<< 8) ||| (v &&& 0x7) ||| 0x8000) 15).mpr
    (by rw [iso_1394b_bits]; simp)
  exact Nat.pos_iff_ne_zero.mp h

/-- The quadlet written in the 1394b branch keeps the speed bits. -/
theorem iso_1394b_speed (channel v : Nat) :
    (((channel &&& 0x3F) <<< 8) ||| (v &&& 0x7) ||| 0x8000) &&& 0x7 = v &&& 0x7 := by
  have e1 : ∀ x : Nat, x &&& 0x7 = x % 2 ^ 3 := fun x => Nat.and_pow_two_sub_one_eq_mod x 3
  rw [e1 (((channel &&& 0x3F) <<< 8) ||| (v &&& 0x7) ||| 0x8000)]
  apply Nat.eq_of_testBit_eq
  intro i
  rw [Nat.testBit_mod_two_pow, iso_1394b_bits, e1 v, Nat.testBit_mod_two_pow]
  by_cases h : i < 3
  · simp [h]
  · simp [h]

/-- The quadlet written in the legacy branch has the 1394b flag clear. -/
theorem iso_legacy_flag (channel v : Nat) :
    (((channel &&& 0xF) <<< 28) ||| (((v >>> 24) &&& 0x3) <<< 24)) &&& 0x00008000 = 0 := by
  by_contra hne
  have h := (and_two_pow_pos_iff
    (((channel &&& 0xF) <<< 28) ||| (((v >>> 24) &&& 0x3) <<< 24)) 15).mp
    (Nat.pos_iff_ne_zero.mpr hne)
  rw [iso_legacy_bits] at h
  simp at h

/-- The quadlet written in the legacy branch keeps the speed field. -/
theorem iso_legacy_speed (channel v : Nat) :
    ((((channel &&& 0xF) <<< 28) ||| (((v >>> 24) &&& 0x3) <<< 24)) >>> 24) &&& 0x3
      = (v >>> 24) &&& 0x3 := by
  have e1 : ∀ x : Nat, x &&& 0x3 = x % 2 ^ 2 := fun x => Nat.and_pow_two_sub_one_eq_mod x 2
  rw [e1 (_ >>> 24)]
  apply Nat.eq_of_testBit_eq
  intro i
  rw [Nat.testBit_mod_two_pow, Nat.testBit_shiftRight, iso_legacy_bits, e1 (v >>> 24),
    Nat.testBit_mod_two_pow, Nat.testBit_shiftRight]
  by_cases h : i < 2
  · have a : ¬ (28 ≤ 24 + i ∧ 24 + i < 32) := by omega
    have b : 24 ≤ 24 + i ∧ 24 + i < 26 := by omega
    simp [h, a, b]
  · simp [h]

/-- C28: `dc1394_video_set_iso_channel` never rejects a channel number.  When the four
register transactions succeed, in the 1394b branch the call with any channel `c`
returns `DC1394_SUCCESS`, writes `((c mod 64) << 8) | (v & 7) | 0x8000` and has
exactly the result of the call with `c mod 64`; in the legacy branch with a legal
speed `s` it returns `DC1394_SUCCESS`, writes `((c mod 16) << 28) | (s << 24)` and
has exactly the result of the call with `c mod 16`. -/
theorem set_iso_channel_never_rejects_channel (E : ErrorCodes) (c : SimCamera) (channel : Nat)
    (hN : 0 < E.DC1394_ERROR_NUM)
    (h0 : c.outcomes.getD 0 DC1394_SUCCESS = DC1394_SUCCESS)
    (h1 : c.outcomes.getD 1 DC1394_SUCCESS = DC1394_SUCCESS)
    (h2 : c.outcomes.getD 2 DC1394_SUCCESS = DC1394_SUCCESS)
    (h3 : c.outcomes.getD 3 DC1394_SUCCESS = DC1394_SUCCESS) :
    ((c.basic_func_inq &&& 0x00800000 ≠ 0 ∧ c.iso_data &&& 0x00008000 ≠ 0) →
      (dc1394_video_set_iso_channel E sim_registers c channel).1 = DC1394_SUCCESS ∧
      (dc1394_video_set_iso_channel E sim_registers c channel).2.iso_data
        = ((channel % 64) <<< 8) ||| (c.iso_data &&& 0x7) ||| 0x8000 ∧
      dc1394_video_set_iso_channel E sim_registers c channel
        = dc1394_video_set_iso_channel E sim_registers c (channel % 64)) ∧
    (¬ (c.basic_func_inq &&& 0x00800000 ≠ 0 ∧ c.iso_data &&& 0x00008000 ≠ 0) →
      (c.iso_data >>> 24) &&& 0x3 ≤ 2 →
      (dc1394_video_set_iso_channel E sim_registers c channel).1 = DC1394_SUCCESS ∧
      (dc1394_video_set_iso_channel E sim_registers c channel).2.iso_data
        = ((channel % 16) <<< 28) ||| (((c.iso_data >>> 24) &&& 0x3) <<< 24) ∧
      dc1394_video_set_iso_channel E sim_registers c channel
        = dc1394_video_set_iso_channel E sim_registers c (channel % 16)) := by
  have e64 : channel &&& 0x3F = channel % 64 := Nat.and_pow_two_sub_one_eq_mod channel 6
  have e64m : (channel % 64) &&& 0x3F = channel % 64 := by
    rw [show (0x3F : Nat) = 2 ^ 6 - 1 from rfl, show (64 : Nat) = 2 ^ 6 from rfl, and_mask_mod]
    exact Nat.and_pow_two_sub_one_eq_mod channel 6
  have e16 : channel &&& 0xF = channel % 16 := Nat.and_pow_two_sub_one_eq_mod channel 4
  have e16m : (channel % 16) &&& 0xF = channel % 16 := by
    rw [show (0xF : Nat) = 2 ^ 4 - 1 from rfl, show (16 : Nat) = 2 ^ 4 from rfl, and_mask_mod]
    exact Nat.and_pow_two_sub_one_eq_mod channel 4
  constructor
  · intro hb
    rw [set_iso_channel_1394b_result E c channel hN h0 h1 h2 h3 hb,
      set_iso_channel_1394b_result E c (channel % 64) hN h0 h1 h2 h3 hb, e64, e64m]
    exact ⟨rfl, rfl, rfl⟩
  · intro hb hs
    rw [set_iso_channel_legacy_result E c channel hN h0 h1 h2 h3 hb hs,
      set_iso_channel_legacy_result E c (channel % 16) hN h0 h1 h2 h3 hb hs, e16, e16m]
    exact ⟨rfl, rfl, rfl⟩

/-- C28, witness: a 1394b camera asked for channel 69 behaves as for channel 5, and
a legacy camera at 400 Mbps asked for channel 21 behaves as for channel 5. -/
theorem set_iso_channel_never_rejects_channel_witness :
    ((dc1394_video_set_iso_channel log_h_codes sim_registers
        ⟨0x00800000, 0x8003, [], []⟩ 69).1 = DC1394_SUCCESS ∧
      (dc1394_video_set_iso_channel log_h_codes sim_registers
        ⟨0x00800000, 0x8003, [], []⟩ 69).2.iso_data = 0x8503) ∧
    ((dc1394_video_set_iso_channel log_h_codes sim_registers
        ⟨0, 0x02000000, [], []⟩ 21).1 = DC1394_SUCCESS ∧
      (dc1394_video_set_iso_channel log_h_codes sim_registers
        ⟨0, 0x02000000, [], []⟩ 21).2.iso_data = 0x52000000) :=
  ⟨⟨((set_iso_channel_never_rejects_channel log_h_codes ⟨0x00800000, 0x8003, [], []⟩ 69
        (by decide) (by decide) (by decide) (by decide) (by decide)).1 (by decide)).1,
    ((set_iso_channel_never_rejects_channel log_h_codes ⟨0x00800000, 0x8003, [], []⟩ 69
        (by decide) (by decide) (by decide) (by decide) (by decide)).1 (by decide)).2.1⟩,
   ⟨((set_iso_channel_never_rejects_channel log_h_codes ⟨0, 0x02000000, [], []⟩ 21
        (by decide) (by decide) (by decide) (by decide) (by decide)).2
        (by decide) (by decide)).1,
    ((set_iso_channel_never_rejects_channel log_h_codes ⟨0, 0x02000000, [], []⟩ 21
        (by decide) (by decide) (by decide) (by decide) (by decide)).2
        (by decide) (by decide)).2.1⟩⟩

/-- C27: over the simulated register store without transaction failures,
`dc1394_video_set_iso_channel` is idempotent: if a call with channel `c` returns
`DC1394_SUCCESS`, the call with the same `c` made right after it on the resulting
store also returns `DC1394_SUCCESS`, takes the same branch (1394b or legacy), writes
the same quadlet and leaves the ISO-data register with the value it had after the
first call. -/
theorem set_iso_channel_idempotent (E : ErrorCodes) (c : SimCamera) (channel : Nat)
    (hN : 0 < E.DC1394_ERROR_NUM)
    (hF : E.DC1394_FAILURE ≠ DC1394_SUCCESS)
    (hout : c.outcomes = [])
    (hfirst : (dc1394_video_set_iso_channel E sim_registers c channel).1 = DC1394_SUCCESS) :
    (dc1394_video_set_iso_channel E sim_registers
        (dc1394_video_set_iso_channel E sim_registers c channel).2 channel).1 = DC1394_SUCCESS ∧
    (((dc1394_video_set_iso_channel E sim_registers c channel).2.basic_func_inq
          &&& 0x00800000 ≠ 0 ∧
        (dc1394_video_set_iso_channel E sim_registers c channel).2.iso_data
          &&& 0x00008000 ≠ 0) ↔
      (c.basic_func_inq &&& 0x00800000 ≠ 0 ∧ c.iso_data &&& 0x00008000 ≠ 0)) ∧
    (dc1394_video_set_iso_channel E sim_registers
        (dc1394_video_set_iso_channel E sim_registers c channel).2 channel).2.iso_data
      = (dc1394_video_set_iso_channel E sim_registers c channel).2.iso_data ∧
    (dc1394_video_set_iso_channel E sim_registers
        (dc1394_video_set_iso_channel E sim_registers c channel).2 channel).2.trace
      = (dc1394_video_set_iso_channel E sim_registers c channel).2.trace ++
        (dc1394_video_set_iso_channel E sim_registers c channel).2.trace.drop c.trace.length := by
  obtain ⟨inq, v, outs, tr⟩ := c
  simp only at hout
  subst hout
  have g : ∀ n : Nat, ([] : List Int).getD n DC1394_SUCCESS = DC1394_SUCCESS := fun n => by simp
  by_cases hb : inq &&& 0x00800000 ≠ 0 ∧ v &&& 0x00008000 ≠ 0
  · have r1 := set_iso_channel_1394b_result E ⟨inq, v, [], tr⟩ channel hN (g 0) (g 1) (g 2) (g 3) hb
    simp only [List.tail_nil] at r1
    have hb1 : inq &&& 0x00800000 ≠ 0 ∧
        (((channel &&& 0x3F) <<< 8) ||| (v &&& 0x7) ||| 0x8000) &&& 0x00008000 ≠ 0 :=
      ⟨hb.1, iso_1394b_flag channel v⟩
    have r2 := set_iso_channel_1394b_result E
      ⟨inq, ((channel &&& 0x3F) <<< 8) ||| (v &&& 0x7) ||| 0x8000, [],
        tr ++ [Transaction.read Register.REG_CAMERA_BASIC_FUNC_INQ] ++
          [Transaction.read Register.REG_CAMERA_ISO_DATA] ++
          [Transaction.read Register.REG_CAMERA_ISO_DATA] ++
          [Transaction.write Register.REG_CAMERA_ISO_DATA
            (((channel &&& 0x3F) <<< 8) ||| (v &&& 0x7) ||| 0x8000)]⟩
      channel hN (g 0) (g 1) (g 2) (g 3) hb1
    simp only [List.tail_nil, iso_1394b_speed] at r2
    rw [r1]
    simp only
    rw [r2]
    refine ⟨rfl, ⟨fun _ => hb, fun _ => hb1⟩, rfl, ?_⟩
    simp
  · by_cases hs : (v >>> 24) &&& 0x3 ≤ 2
    · have r1 := set_iso_channel_legacy_result E ⟨inq, v, [], tr⟩ channel hN
        (g 0) (g 1) (g 2) (g 3) hb hs
      simp only [List.tail_nil] at r1
      have hb1 : ¬ (inq &&& 0x00800000 ≠ 0 ∧
          (((channel &&& 0xF) <<< 28) ||| (((v >>> 24) &&& 0x3) <<< 24)) &&& 0x00008000 ≠ 0) :=
        fun h => h.2 (iso_legacy_flag channel v)
      have hs1 : ((((channel &&& 0xF) <<< 28) ||| (((v >>> 24) &&& 0x3) <<< 24)) >>> 24) &&& 0x3
          ≤ 2 := by
        rw [iso_legacy_speed]
        exact hs
      have r2 := set_iso_channel_legacy_result E
        ⟨inq, ((channel &&& 0xF) <<< 28) ||| (((v >>> 24) &&& 0x3) <<< 24), [],
          tr ++ [Transaction.read Register.REG_CAMERA_BASIC_FUNC_INQ] ++
            [Transaction.read Register.REG_CAMERA_ISO_DATA] ++
            [Transaction.read Register.REG_CAMERA_ISO_DATA] ++
            [Transaction.write Register.REG_CAMERA_ISO_DATA
              (((channel &&& 0xF) <<< 28) ||| (((v >>> 24) &&& 0x3) <<< 24))]⟩
        channel hN (g 0) (g 1) (g 2) (g 3) hb1 hs1
      simp only [List.tail_nil, iso_legacy_speed] at r2
      rw [r1]
      simp only
      rw [r2]
      refine ⟨rfl, ⟨fun h => absurd h hb1, fun h => absurd h hb⟩, rfl, ?_⟩
      simp
    · exfalso
      have hs' : (v >>> 24) &&& 0x3 > DC1394_ISO_SPEED_400 - DC1394_ISO_SPEED_MIN := by
        simp only [DC1394_ISO_SPEED_400, DC1394_ISO_SPEED_MIN]; omega
      rw [set_iso_channel_legacy_speed_path E ⟨inq, v, [], tr⟩ channel hN (g 0) (g 1) (g 2) hb hs']
        at hfirst
      exact hF hfirst

/-- C27, witness: a 1394b camera at speed code 3 set to channel 5 twice holds
0x8503 after either call. -/
theorem set_iso_channel_idempotent_witness :
    (dc1394_video_set_iso_channel log_h_codes sim_registers
        (dc1394_video_set_iso_channel log_h_codes sim_registers
          ⟨0x00800000, 0x8003, [], []⟩ 5).2 5).1 = DC1394_SUCCESS ∧
    (dc1394_video_set_iso_channel log_h_codes sim_registers
        (dc1394_video_set_iso_channel log_h_codes sim_registers
          ⟨0x00800000, 0x8003, [], []⟩ 5).2 5).2.iso_data
      = (dc1394_video_set_iso_channel log_h_codes sim_registers
          ⟨0x00800000, 0x8003, [], []⟩ 5).2.iso_data :=
  ⟨(set_iso_channel_idempotent log_h_codes ⟨0x00800000, 0x8003, [], []⟩ 5
      (by decide) (by decide) rfl (by decide)).1,
   (set_iso_channel_idempotent log_h_codes ⟨0x00800000, 0x8003, [], []⟩ 5
      (by decide) (by decide) rfl (by decide)).2.2.1⟩

/-! ## Buffer status -/

/-- C26 (as the code has it): the state tag of a ring slot, `buffer_status`, ranges
over two states only, `BUFFER_EMPTY = 0` and `BUFFER_FILLED = 1`; they are distinct
and there is no state for a slot that is being filled. -/
theorem buffer_status_two_states :
    (∀ s : buffer_status, s = buffer_status.BUFFER_EMPTY ∨ s = buffer_status.BUFFER_FILLED) ∧
    buffer_status.BUFFER_EMPTY ≠ buffer_status.BUFFER_FILLED ∧
    buffer_status.BUFFER_EMPTY.value = 0 ∧ buffer_status.BUFFER_FILLED.value = 1 := by
  refine ⟨fun s => ?_, by decide, rfl, rfl⟩
  cases s
  · exact Or.inl rfl
  · exact Or.inr rfl

/-- C26, counterexample: the three states EMPTY, FILLING and FILLED of the state
machine cannot be told apart by the tag: every assignment of a `buffer_status` to
them gives two of the three states the same tag, and the tag has no third value. -/
theorem buffer_status_counterexample :
    (∀ f : SlotState → buffer_status,
      f SlotState.EMPTY = f SlotState.FILLING ∨ f SlotState.EMPTY = f SlotState.FILLED ∨
        f SlotState.FILLING = f SlotState.FILLED) ∧
    ¬ ∃ s : buffer_status, s ≠ buffer_status.BUFFER_EMPTY ∧ s ≠ buffer_status.BUFFER_FILLED := by
  constructor
  · intro f
    cases h1 : f SlotState.EMPTY <;> cases h2 : f SlotState.FILLING <;>
      cases h3 : f SlotState.FILLED <;> simp
  · rintro ⟨s, h1, h2⟩
    cases s
    · exact h1 rfl
    · exact h2 rfl

/-! ## `dc1394_MONO8_to_RGB8` and `dc1394_RGB16_to_RGB8` -/

theorem mono8_to_rgb8_loop_spec (src : Int → Nat) :
    ∀ (t fuel : Nat) (i j : Int) (dest : Int → Nat),
      i = (t : Int) - 1 → t ≤ fuel →
      ∀ x : Int, mono8_to_rgb8_loop src fuel i j dest x
        = if j - 3 * (t : Int) < x ∧ x ≤ j then src (i - (j - x) / 3) else dest x := by
  intro t
  induction t with
  | zero =>
    intro fuel i j dest hi _ x
    have hneg : ¬ i ≥ 0 := by omega
    have h1 : ¬ (j - 3 * ((0 : Nat) : Int) < x ∧ x ≤ j) := by omega
    rw [if_neg h1]
    cases fuel with
    | zero => rfl
    | succ f => simp only [mono8_to_rgb8_loop, if_neg hneg]
  | succ t ih =>
    intro fuel i j dest hi hfuel x
    cases fuel with
    | zero => omega
    | succ f =>
      have hpos : i ≥ 0 := by omega
      simp only [mono8_to_rgb8_loop, if_pos hpos]
      rw [ih f (i - 1) (j - 1 - 1 - 1) _ (by omega) (by omega) x]
      simp only [Function.update_apply]
      by_cases hin : j - 1 - 1 - 1 - 3 * (t : Int) < x ∧ x ≤ j - 1 - 1 - 1
      · have a : j - 3 * ((t + 1 : Nat) : Int) < x ∧ x ≤ j := by omega
        rw [if_pos hin, if_pos a]
        exact congrArg src (by omega)
      · rw [if_neg hin]
        by_cases h2 : x = j - 1 - 1
        · have a : j - 3 * ((t + 1 : Nat) : Int) < x ∧ x ≤ j := by omega
          rw [if_pos h2, if_pos a]
          exact congrArg src (by omega)
        · rw [if_neg h2]
          by_cases h1 : x = j - 1
          · have a : j - 3 * ((t + 1 : Nat) : Int) < x ∧ x ≤ j := by omega
            rw [if_pos h1, if_pos a]
            exact congrArg src (by omega)
          · rw [if_neg h1]
            by_cases h0 : x = j
            · have a : j - 3 * ((t + 1 : Nat) : Int) < x ∧ x ≤ j := by omega
              rw [if_pos h0, if_pos a]
              exact congrArg src (by omega)
            · have a : ¬ (j - 3 * ((t + 1 : Nat) : Int) < x ∧ x ≤ j) := by omega
              rw [if_neg h0, if_neg a]

theorem rgb16_to_rgb8_loop_spec (src : Int → Nat) :
    ∀ (t fuel : Nat) (i j : Int) (dest : Int → Nat),
      i = 6 * (t : Int) - 1 → t ≤ fuel →
      ∀ x : Int, rgb16_to_rgb8_loop src fuel i j dest x
        = if j - 3 * (t : Int) < x ∧ x ≤ j then src (i - 1 - 2 * (j - x)) else dest x := by
  intro t
  induction t with
  | zero =>
    intro fuel i j dest hi _ x
    have hneg : ¬ i ≥ 0 := by omega
    have h1 : ¬ (j - 3 * ((0 : Nat) : Int) < x ∧ x ≤ j) := by omega
    rw [if_neg h1]
    cases fuel with
    | zero => rfl
    | succ f => simp only [rgb16_to_rgb8_loop, if_neg hneg]
  | succ t ih =>
    intro fuel i j dest hi hfuel x
    cases fuel with
    | zero => omega
    | succ f =>
      have hpos : i ≥ 0 := by omega
      simp only [rgb16_to_rgb8_loop, if_pos hpos]
      rw [ih f (i - 1 - 1 - 1 - 1 - 1 - 1) (j - 1 - 1 - 1) _ (by omega) (by omega) x]
      simp only [Function.update_apply]
      by_cases hin : j - 1 - 1 - 1 - 3 * (t : Int) < x ∧ x ≤ j - 1 - 1 - 1
      · have a : j - 3 * ((t + 1 : Nat) : Int) < x ∧ x ≤ j := by omega
        rw [if_pos hin, if_pos a]
        exact congrArg src (by omega)
      · rw [if_neg hin]
        by_cases h2 : x = j - 1 - 1
        · have a : j - 3 * ((t + 1 : Nat) : Int) < x ∧ x ≤ j := by omega
          rw [if_pos h2, if_pos a]
          exact congrArg src (by omega)
        · rw [if_neg h2]
          by_cases h1 : x = j - 1
          · have a : j - 3 * ((t + 1 : Nat) : Int) < x ∧ x ≤ j := by omega
            rw [if_pos h1, if_pos a]
            exact congrArg src (by omega)
          · rw [if_neg h1]
            by_cases h0 : x = j
            · have a : j - 3 * ((t + 1 : Nat) : Int) < x ∧ x ≤ j := by omega
              rw [if_pos h0, if_pos a]
              exact congrArg src (by omega)
            · have a : ¬ (j - 3 * ((t + 1 : Nat) : Int) < x ∧ x ≤ j) := by omega
              rw [if_neg h0, if_neg a]

theorem shiftLeft_one_mod (n : Nat) (h : n < 4294967296) :
    (n <<< 1) % 18446744073709551616 = 2 * n := by
  rw [Nat.shiftLeft_eq, Nat.pow_one]
  omega

/-- What `dc1394_MONO8_to_RGB8` leaves in `dest` when `3 * NumPixels` fits the `int`
counters. -/
theorem mono8_to_rgb8_result (src dest : Int → Nat) (N : Nat) (hN : N ≤ 715827882) (x : Int) :
    dc1394_MONO8_to_RGB8 src dest N x
      = if 0 ≤ x ∧ x < 3 * (N : Int) then src (x / 3) else dest x := by
  have hi : to_int (uint64_sub N 1) = (N : Int) - 1 := to_int_uint64_sub_one N (by omega)
  have hs : (N + (N <<< 1) % 18446744073709551616) % 18446744073709551616 = 3 * N := by
    rw [shiftLeft_one_mod N (by omega)]
    omega
  have hj : to_int (uint64_sub (3 * N) 1) = ((3 * N : Nat) : Int) - 1 :=
    to_int_uint64_sub_one (3 * N) (by omega)
  have hfuel : ((N : Int) - 1 + 1).toNat = N := by omega
  simp only [dc1394_MONO8_to_RGB8, hi, hs, hj, hfuel]
  rw [mono8_to_rgb8_loop_spec src N N _ _ dest rfl (le_refl N) x]
  by_cases h1 : 0 ≤ x ∧ x < 3 * (N : Int)
  · have a : ((3 * N : Nat) : Int) - 1 - 3 * (N : Int) < x ∧ x ≤ ((3 * N : Nat) : Int) - 1 := by
      omega
    rw [if_pos h1, if_pos a]
    exact congrArg src (by omega)
  · have a : ¬ (((3 * N : Nat) : Int) - 1 - 3 * (N : Int) < x
        ∧ x ≤ ((3 * N : Nat) : Int) - 1) := by omega
    rw [if_neg h1, if_neg a]

/-- What `dc1394_RGB16_to_RGB8` leaves in `dest` when `6 * NumPixels` fits the `int`
counters. -/
theorem rgb16_to_rgb8_result (src dest : Int → Nat) (N : Nat) (hN : N ≤ 357913941) (x : Int) :
    dc1394_RGB16_to_RGB8 src dest N x
      = if 0 ≤ x ∧ x < 3 * (N : Int) then src (2 * x) else dest x := by
  have hs : (N + (N <<< 1) % 18446744073709551616) % 18446744073709551616 = 3 * N := by
    rw [shiftLeft_one_mod N (by omega)]
    omega
  have hs2 : ((3 * N) <<< 1) % 18446744073709551616 = 6 * N := by
    rw [shiftLeft_one_mod (3 * N) (by omega)]
    omega
  have hi : to_int (uint64_sub (6 * N) 1) = ((6 * N : Nat) : Int) - 1 :=
    to_int_uint64_sub_one (6 * N) (by omega)
  have hj : to_int (uint64_sub (3 * N) 1) = ((3 * N : Nat) : Int) - 1 :=
    to_int_uint64_sub_one (3 * N) (by omega)
  have hfuel : (((6 * N : Nat) : Int) - 1 + 1).toNat = 6 * N := by omega
  simp only [dc1394_RGB16_to_RGB8, hs, hs2, hi, hj, hfuel]
  rw [rgb16_to_rgb8_loop_spec src N (6 * N) _ _ dest (by omega) (by omega) x]
  by_cases h1 : 0 ≤ x ∧ x < 3 * (N : Int)
  · have a : ((3 * N : Nat) : Int) - 1 - 3 * (N : Int) < x ∧ x ≤ ((3 * N : Nat) : Int) - 1 := by
      omega
    rw [if_pos h1, if_pos a]
    exact congrArg src (by omega)
  · have a : ¬ (((3 * N : Nat) : Int) - 1 - 3 * (N : Int) < x
        ∧ x ≤ ((3 * N : Nat) : Int) - 1) := by omega
    rw [if_neg h1, if_neg a]

/-- C24 (as the code has it): for every `NumPixels = N` with `6 * N ≤ 2^31` (the range
of the `int` counter `i`) and every source buffer, `dc1394_RGB16_to_RGB8` writes
`dest[k] = src[2k]` for every `k < 3N`, the most significant byte of each 16-bit
big-endian sample in the order of the source, and leaves the rest of `dest` alone. -/
theorem RGB16_to_RGB8_msb (src dest : Int → Nat) (N : Nat) (hN : N ≤ 357913941) :
    (∀ k : Nat, k < 3 * N →
      dc1394_RGB16_to_RGB8 src dest N (k : Int) = src (2 * (k : Int))) ∧
    (∀ x : Int, ¬ (0 ≤ x ∧ x < 3 * (N : Int)) → dc1394_RGB16_to_RGB8 src dest N x = dest x) := by
  constructor
  · intro k hk
    rw [rgb16_to_rgb8_result src dest N hN]
    have a : (0 : Int) ≤ (k : Int) ∧ (k : Int) < 3 * (N : Int) := by omega
    rw [if_pos a]
  · intro x hx
    rw [rgb16_to_rgb8_result src dest N hN, if_neg hx]

/-- C24, witness: two pixels, twelve source bytes 10..21; `dest[4]` is `src[8]`. -/
theorem RGB16_to_RGB8_msb_witness :
    dc1394_RGB16_to_RGB8 (fun i => (10 + i).toNat) (fun _ => 0) 2 ((4 : Nat) : Int)
      = (fun i : Int => (10 + i).toNat) (2 * ((4 : Nat) : Int)) :=
  (RGB16_to_RGB8_msb (fun i => (10 + i).toNat) (fun _ => 0) 2 (by decide)).1 4 (by decide)

/-- C24, counterexample: for `N = 357913942` the value `6N - 1 = 2147483651` does not
fit the `int` counter `i`, which starts negative; the loop body never runs and
`dest[0]` is not `src[0]`. -/
theorem RGB16_to_RGB8_counterexample :
    dc1394_RGB16_to_RGB8 (fun _ => 1) (fun _ => 0) 357913942 0 = 0 ∧
    dc1394_RGB16_to_RGB8 (fun _ => 1) (fun _ => 0) 357913942 0
      ≠ (fun _ : Int => (1 : Nat)) (2 * 0) := by
  decide

/-- C25 (as the code has it): for every `NumPixels = N` with `3 * N ≤ 2^31` (the range
of the `int` counter `j`) and every source buffer, `dc1394_MONO8_to_RGB8` writes
`dest[3k] = dest[3k+1] = dest[3k+2] = src[k]` for every `k < N` and leaves the rest
of `dest` alone. -/
theorem MONO8_to_RGB8_grey (src dest : Int → Nat) (N : Nat) (hN : N ≤ 715827882) :
    (∀ k : Nat, k < N →
      dc1394_MONO8_to_RGB8 src dest N (3 * (k : Int)) = src (k : Int) ∧
      dc1394_MONO8_to_RGB8 src dest N (3 * (k : Int) + 1) = src (k : Int) ∧
      dc1394_MONO8_to_RGB8 src dest N (3 * (k : Int) + 2) = src (k : Int)) ∧
    (∀ x : Int, ¬ (0 ≤ x ∧ x < 3 * (N : Int)) → dc1394_MONO8_to_RGB8 src dest N x = dest x) := by
  constructor
  · intro k hk
    rw [mono8_to_rgb8_result src dest N hN, mono8_to_rgb8_result src dest N hN,
      mono8_to_rgb8_result src dest N hN]
    have a0 : (0 : Int) ≤ 3 * (k : Int) ∧ 3 * (k : Int) < 3 * (N : Int) := by omega
    have a1 : (0 : Int) ≤ 3 * (k : Int) + 1 ∧ 3 * (k : Int) + 1 < 3 * (N : Int) := by omega
    have a2 : (0 : Int) ≤ 3 * (k : Int) + 2 ∧ 3 * (k : Int) + 2 < 3 * (N : Int) := by omega
    rw [if_pos a0, if_pos a1, if_pos a2]
    exact ⟨congrArg src (by omega), congrArg src (by omega), congrArg src (by omega)⟩
  · intro x hx
    rw [mono8_to_rgb8_result src dest N hN, if_neg hx]

/-- C25, witness: two pixels with luminance 10 and 11; the second output pixel is
(11, 11, 11). -/
theorem MONO8_to_RGB8_grey_witness :
    dc1394_MONO8_to_RGB8 (fun i => (10 + i).toNat) (fun _ => 0) 2 (3 * ((1 : Nat) : Int))
        = (fun i : Int => (10 + i).toNat) ((1 : Nat) : Int) ∧
      dc1394_MONO8_to_RGB8 (fun i => (10 + i).toNat) (fun _ => 0) 2 (3 * ((1 : Nat) : Int) + 1)
        = (fun i : Int => (10 + i).toNat) ((1 : Nat) : Int) ∧
      dc1394_MONO8_to_RGB8 (fun i => (10 + i).toNat) (fun _ => 0) 2 (3 * ((1 : Nat) : Int) + 2)
        = (fun i : Int => (10 + i).toNat) ((1 : Nat) : Int) :=
  (MONO8_to_RGB8_grey (fun i => (10 + i).toNat) (fun _ => 0) 2 (by decide)).1 1 (by decide)

/-- C25, counterexample: for `N = 2^31 + 1` the value `N - 1` does not fit the `int`
counter `i`, which starts negative; the loop body never runs and `dest[0]` is not
`src[0]`. -/
theorem MONO8_to_RGB8_counterexample :
    dc1394_MONO8_to_RGB8 (fun _ => 1) (fun _ => 0) 2147483649 0 = 0 ∧
    dc1394_MONO8_to_RGB8 (fun _ => 1) (fun _ => 0) 2147483649 (3 * 0)
      ≠ (fun _ : Int => (1 : Nat)) 0 := by
  decide

/-! ## `dc1394_YUV422_to_YUV422` -/

theorem to_int64_of_lt (n : Nat) (h : n < 9223372036854775808) : to_int64 n = (n : Int) := by
  unfold to_int64
  split_ifs <;> omega

/-- What the YUYV case of `dc1394_YUV422_to_YUV422` leaves in `dest`. -/
theorem YUV422_to_YUV422_yuyv (B : ByteOrders) (src dest : Int → Nat) (N : Nat)
    (hN : 2 * N < 9223372036854775808) (x : Int) :
    dc1394_YUV422_to_YUV422 B src dest N B.DC1394_BYTE_ORDER_YUYV x
      = if 0 ≤ x ∧ x < 2 * (N : Int) then (if x % 2 = 0 then src (x + 1) else src (x - 1))
        else dest x := by
  have hs : (N <<< 1) % 18446744073709551616 = 2 * N := by
    rw [Nat.shiftLeft_eq, Nat.pow_one]
    omega
  have hn : to_int64 (2 * N) = ((2 * N : Nat) : Int) := to_int64_of_lt (2 * N) hN
  simp only [dc1394_YUV422_to_YUV422, if_true, hs, hn, swab]
  by_cases h : 0 ≤ x ∧ x < 2 * (N : Int)
  · have a : 0 ≤ x ∧ x < ((2 * N : Nat) : Int) - ((2 * N : Nat) : Int) % 2 := by omega
    rw [if_pos h, if_pos a]
  · have a : ¬ (0 ≤ x ∧ x < ((2 * N : Nat) : Int) - ((2 * N : Nat) : Int) % 2) := by omega
    rw [if_neg h, if_neg a]

/-- C23: over `2 * NumPixels` bytes (a size a buffer can have, below `2^63`),
`dc1394_YUV422_to_YUV422` is the identity copy for byte order UYVY
(`dest[k] = src[k]`) and swaps every adjacent byte pair for byte order YUYV
(`dest[2k] = src[2k+1]`, `dest[2k+1] = src[2k]`); the YUYV conversion applied to its
own output gives back the original bytes. -/
theorem YUV422_to_YUV422_spec (B : ByteOrders) (src dest dest2 : Int → Nat) (N : Nat)
    (hB : B.DC1394_BYTE_ORDER_YUYV ≠ B.DC1394_BYTE_ORDER_UYVY)
    (hN : 2 * N < 9223372036854775808) :
    (∀ k : Nat, k < 2 * N →
      dc1394_YUV422_to_YUV422 B src dest N B.DC1394_BYTE_ORDER_UYVY (k : Int) = src (k : Int)) ∧
    (∀ k : Nat, k < N →
      dc1394_YUV422_to_YUV422 B src dest N B.DC1394_BYTE_ORDER_YUYV (2 * (k : Int))
        = src (2 * (k : Int) + 1) ∧
      dc1394_YUV422_to_YUV422 B src dest N B.DC1394_BYTE_ORDER_YUYV (2 * (k : Int) + 1)
        = src (2 * (k : Int))) ∧
    (∀ k : Nat, k < 2 * N →
      dc1394_YUV422_to_YUV422 B
          (dc1394_YUV422_to_YUV422 B src dest N B.DC1394_BYTE_ORDER_YUYV) dest2 N
          B.DC1394_BYTE_ORDER_YUYV (k : Int)
        = src (k : Int)) := by
  refine ⟨?_, ?_, ?_⟩
  · intro k hk
    have hs : (N <<< 1) % 18446744073709551616 = 2 * N := by
      rw [Nat.shiftLeft_eq, Nat.pow_one]
      omega
    have hne : ¬ B.DC1394_BYTE_ORDER_UYVY = B.DC1394_BYTE_ORDER_YUYV := fun h => hB h.symm
    have a : (0 : Int) ≤ (k : Int) ∧ (k : Int) < ((2 * N : Nat) : Int) := by omega
    simp only [dc1394_YUV422_to_YUV422, if_neg hne, if_true, hs, memcpy, if_pos a]
  · intro k hk
    rw [YUV422_to_YUV422_yuyv B src dest N hN, YUV422_to_YUV422_yuyv B src dest N hN]
    have a0 : (0 : Int) ≤ 2 * (k : Int) ∧ 2 * (k : Int) < 2 * (N : Int) := by omega
    have a1 : (0 : Int) ≤ 2 * (k : Int) + 1 ∧ 2 * (k : Int) + 1 < 2 * (N : Int) := by omega
    have b0 : (2 * (k : Int)) % 2 = 0 := by omega
    have b1 : ¬ (2 * (k : Int) + 1) % 2 = 0 := by omega
    rw [if_pos a0, if_pos a1, if_pos b0, if_neg b1]
    exact ⟨rfl, congrArg src (by omega)⟩
  · intro k hk
    rw [YUV422_to_YUV422_yuyv B _ dest2 N hN]
    have a : (0 : Int) ≤ (k : Int) ∧ (k : Int) < 2 * (N : Int) := by omega
    rw [if_pos a]
    by_cases hpar : (k : Int) % 2 = 0
    · rw [if_pos hpar, YUV422_to_YUV422_yuyv B src dest N hN]
      have a1 : (0 : Int) ≤ (k : Int) + 1 ∧ (k : Int) + 1 < 2 * (N : Int) := by omega
      have b1 : ¬ ((k : Int) + 1) % 2 = 0 := by omega
      rw [if_pos a1, if_neg b1]
      exact congrArg src (by omega)
    · rw [if_neg hpar, YUV422_to_YUV422_yuyv B src dest N hN]
      have a1 : (0 : Int) ≤ (k : Int) - 1 ∧ (k : Int) - 1 < 2 * (N : Int) := by omega
      have b1 : ((k : Int) - 1) % 2 = 0 := by omega
      rw [if_pos a1, if_pos b1]
      exact congrArg src (by omega)

/-- C23, witness: three pixels, six source bytes 10..15: UYVY copies byte 4, YUYV
exchanges bytes 2 and 3, and two YUYV conversions give byte 5 back. -/
theorem YUV422_to_YUV422_spec_witness :
    dc1394_YUV422_to_YUV422 byte_orders (fun i => (10 + i).toNat) (fun _ => 0) 3
        byte_orders.DC1394_BYTE_ORDER_UYVY ((4 : Nat) : Int)
      = (fun i : Int => (10 + i).toNat) ((4 : Nat) : Int) ∧
    (dc1394_YUV422_to_YUV422 byte_orders (fun i => (10 + i).toNat) (fun _ => 0) 3
        byte_orders.DC1394_BYTE_ORDER_YUYV (2 * ((1 : Nat) : Int))
      = (fun i : Int => (10 + i).toNat) (2 * ((1 : Nat) : Int) + 1) ∧
     dc1394_YUV422_to_YUV422 byte_orders (fun i => (10 + i).toNat) (fun _ => 0) 3
        byte_orders.DC1394_BYTE_ORDER_YUYV (2 * ((1 : Nat) : Int) + 1)
      = (fun i : Int => (10 + i).toNat) (2 * ((1 : Nat) : Int))) ∧
    dc1394_YUV422_to_YUV422 byte_orders
        (dc1394_YUV422_to_YUV422 byte_orders (fun i => (10 + i).toNat) (fun _ => 0) 3
          byte_orders.DC1394_BYTE_ORDER_YUYV) (fun _ => 0) 3
        byte_orders.DC1394_BYTE_ORDER_YUYV ((5 : Nat) : Int)
      = (fun i : Int => (10 + i).toNat) ((5 : Nat) : Int) :=
  ⟨(YUV422_to_YUV422_spec byte_orders (fun i => (10 + i).toNat) (fun _ => 0) (fun _ => 0) 3
      (by decide) (by decide)).1 4 (by decide),
   (YUV422_to_YUV422_spec byte_orders (fun i => (10 + i).toNat) (fun _ => 0) (fun _ => 0) 3
      (by decide) (by decide)).2.1 1 (by decide),
   (YUV422_to_YUV422_spec byte_orders (fun i => (10 + i).toNat) (fun _ => 0) (fun _ => 0) 3
      (by decide) (by decide)).2.2 5 (by decide)⟩

/-! ## `dc1394_MONO8_to_YUV422` -/

theorem mono8_quick_loop_spec (src : Int → Nat) (luma_first : Bool) :
    ∀ (t fuel : Nat) (i j : Int) (dest : Int → Nat),
      i = 2 * (t : Int) - 1 → t ≤ fuel →
      ∀ x : Int, mono8_quick_loop src luma_first fuel i j dest x
        = if j - 4 * (t : Int) < x ∧ x ≤ j then
            (if (j - x) % 2 = (if luma_first = true then 0 else 1) then 128
             else src (i - (j - x) / 2))
          else dest x := by
  intro t
  induction t with
  | zero =>
    intro fuel i j dest hi _ x
    have hneg : ¬ i ≥ 0 := by omega
    have h1 : ¬ (j - 4 * ((0 : Nat) : Int) < x ∧ x ≤ j) := by omega
    rw [if_neg h1]
    cases fuel with
    | zero => rfl
    | succ f => simp only [mono8_quick_loop, if_neg hneg]
  | succ t ih =>
    intro fuel i j dest hi hfuel x
    cases fuel with
    | zero => omega
    | succ f =>
      have hpos : i ≥ 0 := by omega
      simp only [mono8_quick_loop, if_pos hpos]
      rw [ih f (i - 1 - 1) (j - 1 - 1 - 1 - 1) _ (by omega) (by omega) x]
      simp only [Function.update_apply]
      cases luma_first
      · simp only [Bool.false_eq_true, if_false]
        split_ifs <;> first | rfl | exact congrArg src (by omega) | omega
      · simp only [if_true]
        split_ifs <;> first | rfl | exact congrArg src (by omega) | omega

theorem mono8_pad_pixels_spec (src : Int → Nat) (luma_first : Bool) :
    ∀ (n : Nat) (s d : Int) (dest : Int → Nat),
      (mono8_pad_pixels src luma_first n s d dest).1 = s + n ∧
      (mono8_pad_pixels src luma_first n s d dest).2.1 = d + 2 * (n : Int) ∧
      ∀ x : Int, (mono8_pad_pixels src luma_first n s d dest).2.2 x
        = if d ≤ x ∧ x < d + 2 * (n : Int) then
            (if (x - d) % 2 = (if luma_first = true then 0 else 1) then src (s + (x - d) / 2)
             else 128)
          else dest x := by
  intro n
  induction n with
  | zero =>
    intro s d dest
    refine ⟨by simp [mono8_pad_pixels], by simp [mono8_pad_pixels], fun x => ?_⟩
    have h1 : ¬ (d ≤ x ∧ x < d + 2 * ((0 : Nat) : Int)) := by omega
    rw [if_neg h1]
    rfl
  | succ n ih =>
    intro s d dest
    simp only [mono8_pad_pixels]
    obtain ⟨h1, h2, h3⟩ := ih (s + 1) (d + 2)
      (Function.update (Function.update dest d (if luma_first = true then src s else 128))
        (d + 1) (if luma_first = true then 128 else src s))
    refine ⟨by rw [h1]; push_cast; ring, by rw [h2]; push_cast; ring, fun x => ?_⟩
    rw [h3 x]
    simp only [Function.update_apply]
    cases luma_first
    · simp only [Bool.false_eq_true, if_false]
      split_ifs <;> first | rfl | exact congrArg src (by omega) | omega
    · simp only [if_true]
      split_ifs <;> first | rfl | exact congrArg src (by omega) | omega
theorem mono8_pad_rows_spec (src : Int → Nat) (luma_first : Bool) (W : Nat) :
    ∀ (y : Nat) (s d : Int) (dest : Int → Nat),
      (∀ x : Int, ¬ (d ≤ x ∧ x < d + (2 * (W : Int) + 2) * (y : Int)) →
        mono8_pad_rows src luma_first W y s d dest x = dest x) ∧
      (∀ (r : Nat) (o : Int), r < y → 0 ≤ o → o < 2 * (W : Int) + 2 →
        mono8_pad_rows src luma_first W y s d dest (d + (2 * (W : Int) + 2) * (r : Int) + o)
          = if o % 2 = (if luma_first = true then 0 else 1) then
              src (s + (W : Int) * (r : Int) + (if o / 2 < (W : Int) then o / 2 else (W : Int) - 1))
            else 128) := by
  intro y
  induction y with
  | zero =>
    intro s d dest
    refine ⟨fun x _ => rfl, fun r o hr _ _ => ?_⟩
    omega
  | succ y ih =>
    intro s d dest
    obtain ⟨p1, p2, p3⟩ := mono8_pad_pixels_spec src luma_first W s d dest
    rcases hp : mono8_pad_pixels src luma_first W s d dest with ⟨s1, d1, dest1⟩
    rw [hp] at p1 p2 p3
    simp only at p1 p2 p3
    subst p1
    subst p2
    have hmul : (2 * (W : Int) + 2) * ((y + 1 : Nat) : Int)
        = (2 * (W : Int) + 2) * (y : Int) + (2 * (W : Int) + 2) := by
      push_cast
      ring
    have hy : (0 : Int) ≤ (2 * (W : Int) + 2) * (y : Int) :=
      mul_nonneg (by omega) (by omega)
    constructor
    · intro x hx
      simp only [mono8_pad_rows, hp]
      rw [(ih _ _ _).1 x (by omega)]
      simp only [Function.update_apply]
      rw [p3 x]
      split_ifs <;> first | rfl | omega
    · intro r o hr ho0 ho
      simp only [mono8_pad_rows, hp]
      cases r with
      | zero =>
        have e : d + (2 * (W : Int) + 2) * ((0 : Nat) : Int) + o = d + o := by
          push_cast
          ring
        rw [e, (ih _ _ _).1 (d + o) (by omega)]
        simp only [Function.update_apply]
        rw [p3 (d + o)]
        have e0 : (W : Int) * ((0 : Nat) : Int) = 0 := by push_cast; ring
        rw [e0]
        cases luma_first
        · simp only [Bool.false_eq_true, if_false]
          split_ifs <;> first | rfl | exact congrArg src (by omega) | omega
        · simp only [if_true]
          split_ifs <;> first | rfl | exact congrArg src (by omega) | omega
      | succ r =>
        have e : d + (2 * (W : Int) + 2) * ((r + 1 : Nat) : Int) + o
            = (d + 2 * (W : Int) + 2) + (2 * (W : Int) + 2) * (r : Int) + o := by
          push_cast
          ring
        rw [e, (ih _ _ _).2 r o (by omega) ho0 ho]
        have e1 : s + (W : Int) + (W : Int) * (r : Int)
            = s + (W : Int) * ((r + 1 : Nat) : Int) := by
          push_cast
          ring
        split_ifs <;> first | rfl | exact congrArg src (by omega)
theorem to_int_uint32_sub_one (n : Nat) (h : n ≤ 2147483648) :
    to_int (uint32_sub n 1) = (n : Int) - 1 := by
  unfold to_int uint32_sub
  split_ifs <;> omega

theorem to_int_nonneg_of_le (n : Nat) (h : n ≤ 2147483647) : ¬ to_int n < 0 := by
  unfold to_int
  split_ifs <;> omega

/-- The padded path of `dc1394_MONO8_to_YUV422` for a valid byte order and sizes that
fit the `int` counters: the rows loop run from the start of both buffers. -/
theorem mono8_padded_path (B : ByteOrders) (src dest : Int → Nat)
    (W H dest_pitch byte_order : Nat)
    (hbo : byte_order = B.DC1394_BYTE_ORDER_YUYV ∨ byte_order = B.DC1394_BYTE_ORDER_UYVY)
    (hW : W ≤ 2147483647) (hH : H ≤ 2147483647) (hp : dest_pitch ≠ 2 * W) :
    dc1394_MONO8_to_YUV422 B src dest W H dest_pitch byte_order
      = some (mono8_pad_rows src (decide (byte_order = B.DC1394_BYTE_ORDER_YUYV)) W H 0 0 dest) := by
  have hc : ¬ (W * 2) % 4294967296 = dest_pitch := by omega
  have hu : ¬ (to_int H < 0 ∨ (H ≠ 0 ∧ to_int W < 0)) := by
    have a := to_int_nonneg_of_le H hH
    have b := to_int_nonneg_of_le W hW
    tauto
  unfold dc1394_MONO8_to_YUV422
  rw [if_neg hc]
  by_cases hy : byte_order = B.DC1394_BYTE_ORDER_YUYV
  · rw [if_pos hy, if_neg hu]
    simp [hy]
  · have hv : byte_order = B.DC1394_BYTE_ORDER_UYVY := hbo.resolve_left hy
    rw [if_neg hy, if_pos hv, if_neg hu]
    simp [hy]

/-- Pixel `c` of output row `r` of the padded path: its luminance byte is source
pixel `c` of row `r`, or the last source pixel of the row for the padding pixel
`c = W`; its chroma byte is 128. -/
theorem mono8_pad_rows_pixel (src dest : Int → Nat) (luma_first : Bool) (W H r c : Nat)
    (hr : r < H) (hc : c ≤ W) :
    mono8_pad_rows src luma_first W H 0 0 dest
        (2 * (((W : Int) + 1) * (r : Int) + (c : Int)) + (if luma_first = true then 0 else 1))
      = src ((W : Int) * (r : Int) + (if c < W then (c : Int) else (W : Int) - 1)) ∧
    mono8_pad_rows src luma_first W H 0 0 dest
        (2 * (((W : Int) + 1) * (r : Int) + (c : Int)) + (if luma_first = true then 1 else 0))
      = 128 := by
  have key := (mono8_pad_rows_spec src luma_first W H 0 0 dest).2 r
  have e0 : 2 * (((W : Int) + 1) * (r : Int) + (c : Int))
      = 0 + (2 * (W : Int) + 2) * (r : Int) + 2 * (c : Int) := by ring
  have e1 : ∀ b : Int, 2 * (((W : Int) + 1) * (r : Int) + (c : Int)) + b
      = 0 + (2 * (W : Int) + 2) * (r : Int) + (2 * (c : Int) + b) := fun b => by ring
  cases luma_first
  · simp only [Bool.false_eq_true, if_false]
    rw [e1 1, e1 0, key (2 * (c : Int) + 1) hr (by omega) (by omega),
      key (2 * (c : Int) + 0) hr (by omega) (by omega)]
    simp only [Bool.false_eq_true, if_false]
    have a1 : (2 * (c : Int) + 1) % 2 = 1 := by omega
    have a0 : ¬ (2 * (c : Int) + 0) % 2 = 1 := by omega
    rw [if_pos a1, if_neg a0]
    refine ⟨?_, rfl⟩
    by_cases hcW : c < W
    · have b : (2 * (c : Int) + 1) / 2 < (W : Int) := by omega
      rw [if_pos b, if_pos hcW]
      exact congrArg src (by omega)
    · have b : ¬ (2 * (c : Int) + 1) / 2 < (W : Int) := by omega
      rw [if_neg b, if_neg hcW]
      exact congrArg src (by omega)
  · simp only [if_true]
    rw [e1 0, e1 1, key (2 * (c : Int) + 0) hr (by omega) (by omega),
      key (2 * (c : Int) + 1) hr (by omega) (by omega)]
    simp only [if_true]
    have a0 : (2 * (c : Int) + 0) % 2 = 0 := by omega
    have a1 : ¬ (2 * (c : Int) + 1) % 2 = 0 := by omega
    rw [if_pos a0, if_neg a1]
    refine ⟨?_, rfl⟩
    by_cases hcW : c < W
    · have b : (2 * (c : Int) + 0) / 2 < (W : Int) := by omega
      rw [if_pos b, if_pos hcW]
      exact congrArg src (by omega)
    · have b : ¬ (2 * (c : Int) + 0) / 2 < (W : Int) := by omega
      rw [if_neg b, if_neg hcW]
      exact congrArg src (by omega)

/-- What the quick path of `dc1394_MONO8_to_YUV422` leaves in `dest` for byte order
YUYV, an even pixel count `P` and `2 * P` within the range of the `int` counters. -/
theorem mono8_quick_path (B : ByteOrders) (src dest : Int → Nat) (W H : Nat)
    (heven : (W * H) % 2 = 0) (hP : W * H ≤ 1073741824) (hpitch : 2 * W < 4294967296) :
    ∃ quick : Int → Nat,
      dc1394_MONO8_to_YUV422 B src dest W H (2 * W) B.DC1394_BYTE_ORDER_YUYV = some quick ∧
      ∀ x : Int, quick x
        = if 0 ≤ x ∧ x < 2 * ((W * H : Nat) : Int) then
            (if x % 2 = 0 then src (x / 2) else 128)
          else dest x := by
  generalize hPdef : W * H = P at heven hP
  have hc : (W * 2) % 4294967296 = 2 * W := by omega
  have hm : P % 4294967296 = P := by omega
  have hs : (P <<< 1) % 4294967296 = 2 * P := by
    rw [Nat.shiftLeft_eq, Nat.pow_one]
    omega
  have hi : to_int (uint32_sub P 1) = (P : Int) - 1 := to_int_uint32_sub_one P (by omega)
  have hj : to_int (uint32_sub (2 * P) 1) = ((2 * P : Nat) : Int) - 1 :=
    to_int_uint32_sub_one (2 * P) (by omega)
  have hfuel : ((P : Int) - 1 + 1).toNat = P := by omega
  refine ⟨mono8_quick_loop src true P ((P : Int) - 1) (((2 * P : Nat) : Int) - 1) dest, ?_, ?_⟩
  · unfold dc1394_MONO8_to_YUV422
    simp only [hc, hPdef, hm, hs, hi, hj, hfuel, if_true]
  · intro x
    rw [mono8_quick_loop_spec src true (P / 2) P _ _ dest (by omega) (by omega) x]
    simp only [if_true]
    split_ifs <;> first | rfl | exact congrArg src (by omega) | omega

theorem mul_row_col_lt (W H r c : Nat) (hr : r < H) (hc : c < W) : W * r + c < W * H := by
  have h1 : W * (r + 1) ≤ W * H := Nat.mul_le_mul_left W hr
  have h2 : W * (r + 1) = W * r + W := by ring
  omega

/-- The padded path of `dc1394_MONO8_to_YUV422` for a byte order that is neither YUYV
nor UYVY: nothing is written. -/
theorem mono8_padded_path_invalid (B : ByteOrders) (src dest : Int → Nat)
    (W H dest_pitch byte_order : Nat)
    (hy : byte_order ≠ B.DC1394_BYTE_ORDER_YUYV) (hu : byte_order ≠ B.DC1394_BYTE_ORDER_UYVY)
    (hW : W ≤ 2147483647) (hp : dest_pitch ≠ 2 * W) :
    dc1394_MONO8_to_YUV422 B src dest W H dest_pitch byte_order = some dest := by
  have hc : ¬ (W * 2) % 4294967296 = dest_pitch := by omega
  unfold dc1394_MONO8_to_YUV422
  rw [if_neg hc, if_neg hy, if_neg hu]

/-- C21 (as the code has it): in `dc1394_MONO8_to_YUV422` with `dest_pitch` different
from `2 * src_width` (padded path), `src_width ≥ 1` and width and height within the
range of the `int` counters.  For byte order YUYV or UYVY every output row holds
`src_width + 1` pixels: pixel `c` of row `r` has the luminance of source pixel `c`
of row `r` for `c < src_width`, the padding pixel `c = src_width` has the luminance
of the row's last source pixel, and every pixel has chroma byte 128 (luminance
first for YUYV, chroma first for UYVY); the function writes exactly the first
`2 * (src_width + 1) * src_height` bytes, and the result is the same for every
`dest_pitch` other than `2 * src_width`.  For any other byte order the function
writes nothing: `dest` is left as it was. -/
theorem MONO8_to_YUV422_padded (B : ByteOrders) (src dest : Int → Nat)
    (src_width src_height dest_pitch byte_order : Nat)
    (hW1 : 1 ≤ src_width) (hW : src_width ≤ 2147483647) (hH : src_height ≤ 2147483647)
    (hp : dest_pitch ≠ 2 * src_width) :
    ((byte_order = B.DC1394_BYTE_ORDER_YUYV ∨ byte_order = B.DC1394_BYTE_ORDER_UYVY) →
      ∃ out : Int → Nat,
        dc1394_MONO8_to_YUV422 B src dest src_width src_height dest_pitch byte_order = some out ∧
        (∀ r c : Nat, r < src_height → c ≤ src_width →
          out (2 * (((src_width : Int) + 1) * (r : Int) + (c : Int))
                + (if byte_order = B.DC1394_BYTE_ORDER_YUYV then 0 else 1))
            = src ((src_width : Int) * (r : Int)
                + (if c < src_width then (c : Int) else (src_width : Int) - 1)) ∧
          out (2 * (((src_width : Int) + 1) * (r : Int) + (c : Int))
                + (if byte_order = B.DC1394_BYTE_ORDER_YUYV then 1 else 0))
            = 128) ∧
        (∀ x : Int, ¬ (0 ≤ x ∧ x < (2 * (src_width : Int) + 2) * (src_height : Int)) →
          out x = dest x) ∧
        (∀ pitch2 : Nat, pitch2 ≠ 2 * src_width →
          dc1394_MONO8_to_YUV422 B src dest src_width src_height pitch2 byte_order
            = some out)) ∧
    (byte_order ≠ B.DC1394_BYTE_ORDER_YUYV → byte_order ≠ B.DC1394_BYTE_ORDER_UYVY →
      dc1394_MONO8_to_YUV422 B src dest src_width src_height dest_pitch byte_order
        = some dest) := by
  have _ := hW1
  refine ⟨fun hbo => ?_, fun hy hu =>
    mono8_padded_path_invalid B src dest src_width src_height dest_pitch byte_order hy hu hW hp⟩
  refine ⟨_, mono8_padded_path B src dest src_width src_height dest_pitch byte_order hbo hW hH hp,
    ?_, ?_, ?_⟩
  · intro r c hr hc
    have h := mono8_pad_rows_pixel src dest (decide (byte_order = B.DC1394_BYTE_ORDER_YUYV))
      src_width src_height r c hr hc
    simp only [decide_eq_true_eq] at h
    exact h
  · intro x hx
    exact (mono8_pad_rows_spec src _ src_width src_height 0 0 dest).1 x (by omega)
  · intro pitch2 hp2
    exact mono8_padded_path B src dest src_width src_height pitch2 byte_order hbo hW hH hp2

/-- C21, witness: a 3 x 2 image with luminances 10..15 and `dest_pitch = 8`, byte
order YUYV; and the same call with the byte order 5, which is neither YUYV nor
UYVY. -/
theorem MONO8_to_YUV422_padded_witness :
    (∃ out : Int → Nat,
      dc1394_MONO8_to_YUV422 byte_orders (fun i => (10 + i).toNat) (fun _ => 7) 3 2 8
          byte_orders.DC1394_BYTE_ORDER_YUYV = some out ∧
      (∀ r c : Nat, r < 2 → c ≤ 3 →
        out (2 * ((((3 : Nat) : Int) + 1) * (r : Int) + (c : Int))
              + (if byte_orders.DC1394_BYTE_ORDER_YUYV = byte_orders.DC1394_BYTE_ORDER_YUYV
                  then 0 else 1))
          = (fun i : Int => (10 + i).toNat) (((3 : Nat) : Int) * (r : Int)
              + (if c < 3 then (c : Int) else ((3 : Nat) : Int) - 1)) ∧
        out (2 * ((((3 : Nat) : Int) + 1) * (r : Int) + (c : Int))
              + (if byte_orders.DC1394_BYTE_ORDER_YUYV = byte_orders.DC1394_BYTE_ORDER_YUYV
                  then 1 else 0))
          = 128) ∧
      (∀ x : Int, ¬ (0 ≤ x ∧ x < (2 * ((3 : Nat) : Int) + 2) * ((2 : Nat) : Int)) →
        out x = (fun _ : Int => (7 : Nat)) x) ∧
      (∀ pitch2 : Nat, pitch2 ≠ 2 * 3 →
        dc1394_MONO8_to_YUV422 byte_orders (fun i => (10 + i).toNat) (fun _ => 7) 3 2 pitch2
          byte_orders.DC1394_BYTE_ORDER_YUYV = some out)) ∧
    dc1394_MONO8_to_YUV422 byte_orders (fun i => (10 + i).toNat) (fun _ => 7) 3 2 8 5
      = some (fun _ => 7) :=
  ⟨(MONO8_to_YUV422_padded byte_orders (fun i => (10 + i).toNat) (fun _ => 7) 3 2 8
      byte_orders.DC1394_BYTE_ORDER_YUYV (by decide) (by decide) (by decide) (by decide)).1
      (Or.inl rfl),
   (MONO8_to_YUV422_padded byte_orders (fun i => (10 + i).toNat) (fun _ => 7) 3 2 8 5
      (by decide) (by decide) (by decide) (by decide)).2 (by decide) (by decide)⟩

/-- C21, counterexample: with a byte order that is neither YUYV nor UYVY (here 5)
the padded path writes nothing: for a 1 x 1 image with luminance 1 the four
destination bytes keep their old value 7 instead of the pixel (1, 128) and its
padding copy. -/
theorem MONO8_to_YUV422_padded_counterexample :
    (4 : Nat) ≠ 2 * 1 ∧
    (5 : Nat) ≠ byte_orders.DC1394_BYTE_ORDER_YUYV ∧
    (5 : Nat) ≠ byte_orders.DC1394_BYTE_ORDER_UYVY ∧
    (dc1394_MONO8_to_YUV422 byte_orders (fun _ => 1) (fun _ => 7) 1 1 4 5).map
        (fun out => [out 0, out 1, out 2, out 3]) = some [7, 7, 7, 7] := by
  decide

/-- C22 (as the code has it): in `dc1394_MONO8_to_YUV422` with
`dest_pitch = 2 * src_width` (the quick path), YUYV byte order and an even pixel
count `P = src_width * src_height` with `2 * P ≤ 2^31` (the range of the `int`
counters), the output is `dest[2k] = src[k]` and `dest[2k+1] = 128` for every
`k < P`, nothing else is written, and these are the bytes the padded path produces
without its padding pixel: pixel `c` of row `r` of the quick output is pixel `c`
of row `r` of the padded output. -/
theorem MONO8_to_YUV422_quick (B : ByteOrders) (src dest dest2 : Int → Nat)
    (src_width src_height pitch2 : Nat)
    (heven : (src_width * src_height) % 2 = 0)
    (hP : src_width * src_height ≤ 1073741824)
    (hpitch : 2 * src_width < 4294967296) :
    ∃ quick : Int → Nat,
      dc1394_MONO8_to_YUV422 B src dest src_width src_height (2 * src_width)
          B.DC1394_BYTE_ORDER_YUYV = some quick ∧
      (∀ k : Nat, k < src_width * src_height →
        quick (2 * (k : Int)) = src (k : Int) ∧ quick (2 * (k : Int) + 1) = 128) ∧
      (∀ x : Int, ¬ (0 ≤ x ∧ x < 2 * ((src_width * src_height : Nat) : Int)) →
        quick x = dest x) ∧
      (pitch2 ≠ 2 * src_width → 1 ≤ src_width →
        ∃ padded : Int → Nat,
          dc1394_MONO8_to_YUV422 B src dest2 src_width src_height pitch2
              B.DC1394_BYTE_ORDER_YUYV = some padded ∧
          ∀ r c : Nat, r < src_height → c < src_width →
            quick (2 * ((src_width : Int) * (r : Int) + (c : Int)))
              = padded (2 * (((src_width : Int) + 1) * (r : Int) + (c : Int))) ∧
            quick (2 * ((src_width : Int) * (r : Int) + (c : Int)) + 1)
              = padded (2 * (((src_width : Int) + 1) * (r : Int) + (c : Int)) + 1)) := by
  obtain ⟨quick, hq, hx⟩ := mono8_quick_path B src dest src_width src_height heven hP hpitch
  have hk : ∀ k : Nat, k < src_width * src_height →
      quick (2 * (k : Int)) = src (k : Int) ∧ quick (2 * (k : Int) + 1) = 128 := by
    intro k hk
    rw [hx, hx]
    have a0 : (0 : Int) ≤ 2 * (k : Int)
        ∧ 2 * (k : Int) < 2 * ((src_width * src_height : Nat) : Int) := by omega
    have a1 : (0 : Int) ≤ 2 * (k : Int) + 1
        ∧ 2 * (k : Int) + 1 < 2 * ((src_width * src_height : Nat) : Int) := by omega
    have b0 : (2 * (k : Int)) % 2 = 0 := by omega
    have b1 : ¬ (2 * (k : Int) + 1) % 2 = 0 := by omega
    rw [if_pos a0, if_pos a1, if_pos b0, if_neg b1]
    exact ⟨congrArg src (by omega), rfl⟩
  refine ⟨quick, hq, hk, fun x h => by rw [hx, if_neg h], fun hp2 hW1 => ?_⟩
  have hHle : src_height ≤ src_width * src_height := Nat.le_mul_of_pos_left src_height hW1
  refine ⟨_, mono8_padded_path B src dest2 src_width src_height pitch2 B.DC1394_BYTE_ORDER_YUYV
    (Or.inl rfl) (by omega) (by omega) hp2, ?_⟩
  intro r c hr hc
  have hk1 := hk (src_width * r + c) (mul_row_col_lt src_width src_height r c hr hc)
  push_cast at hk1
  have hpx := mono8_pad_rows_pixel src dest2 true src_width src_height r c hr (le_of_lt hc)
  simp only [if_true, if_pos hc, add_zero] at hpx
  simp only [decide_True]
  rw [hk1.1, hk1.2, hpx.1, hpx.2]
  exact ⟨rfl, rfl⟩

/-- C22, witness: a 2 x 2 image with luminances 10..13; the quick path with
`dest_pitch = 4` against the padded path with `dest_pitch = 6`. -/
theorem MONO8_to_YUV422_quick_witness :
    ∃ quick : Int → Nat,
      dc1394_MONO8_to_YUV422 byte_orders (fun i => (10 + i).toNat) (fun _ => 0) 2 2 (2 * 2)
          byte_orders.DC1394_BYTE_ORDER_YUYV = some quick ∧
      (∀ k : Nat, k < 2 * 2 →
        quick (2 * (k : Int)) = (fun i : Int => (10 + i).toNat) (k : Int) ∧
        quick (2 * (k : Int) + 1) = 128) ∧
      (∀ x : Int, ¬ (0 ≤ x ∧ x < 2 * ((2 * 2 : Nat) : Int)) →
        quick x = (fun _ : Int => (0 : Nat)) x) ∧
      ((6 : Nat) ≠ 2 * 2 → 1 ≤ 2 →
        ∃ padded : Int → Nat,
          dc1394_MONO8_to_YUV422 byte_orders (fun i => (10 + i).toNat) (fun _ => 7) 2 2 6
              byte_orders.DC1394_BYTE_ORDER_YUYV = some padded ∧
          ∀ r c : Nat, r < 2 → c < 2 →
            quick (2 * (((2 : Nat) : Int) * (r : Int) + (c : Int)))
              = padded (2 * ((((2 : Nat) : Int) + 1) * (r : Int) + (c : Int))) ∧
            quick (2 * (((2 : Nat) : Int) * (r : Int) + (c : Int)) + 1)
              = padded (2 * ((((2 : Nat) : Int) + 1) * (r : Int) + (c : Int)) + 1)) :=
  MONO8_to_YUV422_quick byte_orders (fun i => (10 + i).toNat) (fun _ => 0) (fun _ => 7) 2 2 6
    (by decide) (by decide) (by decide)

/-- C22, counterexample: for a 65536 x 65536 image the pixel count `2^32` is even
but wraps to 0 in `uint_t`; the counter `i` starts at -1, the loop body never runs
and `dest[0]` keeps its old value 0 instead of `src[0] = 1`. -/
theorem MONO8_to_YUV422_quick_counterexample :
    (65536 * 65536 : Nat) % 2 = 0 ∧ (131072 : Nat) = 2 * 65536 ∧
    (dc1394_MONO8_to_YUV422 byte_orders (fun _ => 1) (fun _ => 0) 65536 65536 131072
        byte_orders.DC1394_BYTE_ORDER_YUYV).map (fun out => out 0) = some 0 := by
  decide

end DC1394
